import Mathlib

/-!
# Mercury X.509 decoder (`src/asn1/x509.h`) and command line (`src/mercury.c`):
embedding and verified properties

The decoder of `x509.h` is embedded as pure functions over byte lists.  A C++
member call `x.parse(&c)` that advances the cursor `c` becomes a function
returning the decoded structure together with the advanced cursor, and the
caller stores the cursor back into the field it came from.

`x509.h` includes `asn1.h`, `parser.h` and `oid.h`, which are not part of the
sources at hand.  The byte cursor and the TLV decoder they declare are modelled
from the specification (sections 3, 4.1, 4.2); the OID dictionary and the
per-type JSON renderers of `struct tlv` are taken as parameters (`asn1`).
A member call `x.parse(p, tag)` assigns to `x` the TLV that the decoder returns.

A `while` loop over a cursor becomes a function by recursion on `fuel`, a bound on
the number of iterations.  The loops that decode one TLV without an expected tag per
iteration are called with the number of bytes left as fuel, which is always enough
(section "Loops run until their cursor is empty").  The loop of
`certificate_policies::print_as_json` expects a tag and may go on forever; it
reports the end of its fuel as `outcome.spin`.

Text written by `fprintf` is a `String`; in the literals the braces of the JSON text
are written `\x7b` and `\x7d`.

A pointer into the input buffer (`data` and `data_end` of `x509_cert_prefix`) is its
offset from the start of the buffer, and the buffer is handed to the function that
reads through the pointer.  A `const char *` that the source compares with `strcmp`
or writes with `%s` is its text; where the source compares the pointer itself
(`oid_string != unknown_oid` in `attribute::print_as_json`, the lookup in the
`std::unordered_set<const char *>` of `x509_cert::is_weak`) the embedding compares
addresses, which the parameters `asn1` give for the string that
`parser_get_oid_string` returns and for the string literals of `x509.h`.

The part of `main` in `mercury.c` that builds the configuration is embedded as a
function of the successive results of `getopt_long`; a call of `usage`, which ends the
process, and a `return` are results of their own (`main_result`).  What `main` calls
and `mercury.c` does not define is taken as parameters (`runtime`).
-/

set_option autoImplicit false

namespace Mercury

/-! ## Byte cursor (`struct parser`) -/

/-- Modelled from the spec: `struct parser` of `parser.h`, the cursor of section 3
("a pair (current, end) of positions into an immutable byte region").  `pos` is
the offset of `current` from the start of the input buffer, `bytes` the bytes in
`[current, end)`, and `null` tells that both pointers are `NULL`. -/
structure parser where
  null : Bool
  pos : Nat
  bytes : List Nat
deriving DecidableEq, Repr

/-- Modelled from the spec: the cursor of a default-constructed (all-zero) TLV. -/
def parser.nil : parser := ⟨true, 0, []⟩

/-- Modelled from the spec: `parser_init(&p, buffer, len)`. -/
def parser_init (buffer : List Nat) : parser := ⟨false, 0, buffer⟩

/-- Modelled from the spec: `parser_get_data_length`, section 4.1 `remaining()`. -/
def parser_get_data_length (p : parser) : Nat := p.bytes.length

/-- Modelled from the spec: section 4.1, "On FAIL, the cursor is left in a defined
empty/failed state that causes all subsequent reads to fail". -/
def parser.set_empty (p : parser) : parser :=
  { p with pos := p.pos + p.bytes.length, bytes := [] }

/-! ## TLV (`struct tlv`) -/

/-- Modelled from the spec: `struct tlv` of `asn1.h` (section 3, "TLV"): tag octet,
decoded length, and the inner cursor over the value. -/
structure tlv where
  tag : Nat
  length : Nat
  value : parser
deriving DecidableEq, Repr

/-- Modelled from the spec: the null TLV, "tag = 0, length = 0" (section 4.2), the
state of a default-constructed `tlv{}`. -/
def tlv.null : tlv := ⟨0, 0, parser.nil⟩

/-- Modelled from the spec: `tlv::is_null`, the "dedicated predicate" of the
glossary that tells a null TLV from a zero-length primitive. -/
def tlv.is_null (t : tlv) : Bool := t.value.null

/-- Modelled from the spec: `tlv::is_not_null`. -/
def tlv.is_not_null (t : tlv) : Bool := !t.value.null

/-- Modelled from the spec: `tlv::is_constructed`, "derived from tag bit 5". -/
def tlv.is_constructed (t : tlv) : Bool := t.tag / 32 % 2 == 1

/-- Modelled from the spec: `tlv::explicit_tag(n)`, class=context, constructed=0. -/
def tlv.explicit_tag (n : Nat) : Nat := 0x80 + n

/-- Modelled from the spec: `tlv::explicit_tag_constructed(n)`, class=context,
constructed=1 (`0xa0` for n = 0, `0xa3` for n = 3). -/
def tlv.explicit_tag_constructed (n : Nat) : Nat := 0xa0 + n

/-- Modelled from the spec: universal tag numbers of `asn1.h`. -/
def tlv.BOOLEAN : Nat := 0x01
/-- Modelled from the spec: universal tag numbers of `asn1.h`. -/
def tlv.INTEGER : Nat := 0x02
/-- Modelled from the spec: universal tag numbers of `asn1.h`. -/
def tlv.BIT_STRING : Nat := 0x03
/-- Modelled from the spec: universal tag numbers of `asn1.h`. -/
def tlv.OBJECT_IDENTIFIER : Nat := 0x06
/-- Modelled from the spec: universal tag numbers of `asn1.h`. -/
def tlv.SEQUENCE : Nat := 0x30

/-- Big-endian value of the length octets. -/
def be_uint (l : List Nat) : Nat := l.foldl (fun a b => a * 256 + b) 0

/-- The element `tag, length, value` is complete: build it and advance the cursor
past it.  `hdr` is the number of tag and length octets, `rest` the bytes after them. -/
def tlv.take (p : parser) (tag hdr len : Nat) (rest : List Nat) : tlv × parser :=
  if len ≤ rest.length then
    (⟨tag, len, ⟨false, p.pos + hdr, rest.take len⟩⟩,
     { p with pos := p.pos + hdr + len, bytes := rest.drop len })
  else
    (tlv.null, p.set_empty)

/-- Modelled from the spec: `tlv::parse(p, expected_tag)` of `asn1.h`, section 4.2.
`expected_tag = 0` means that no tag is expected (the default argument of the
source).  A tag mismatch gives the null TLV and leaves the cursor where it was;
FAIL_EOF, FAIL_LENGTH and FAIL_INDEFINITE give the null TLV and leave the cursor
empty; otherwise the cursor advances past the whole element. -/
def tlv.parse (p : parser) (expected_tag : Nat) : tlv × parser :=
  match p.bytes with
  | [] => (tlv.null, p.set_empty)
  | t :: rest =>
    if expected_tag ≠ 0 ∧ t ≠ expected_tag then (tlv.null, p)
    else
      match rest with
      | [] => (tlv.null, p.set_empty)
      | l :: rest2 =>
        if l < 128 then tlv.take p t 2 l rest2
        else if l = 128 then (tlv.null, p.set_empty)
        else if 4 < l % 128 then (tlv.null, p.set_empty)
        else if rest2.length < l % 128 then (tlv.null, p.set_empty)
        else tlv.take p t (2 + l % 128) (be_uint (rest2.take (l % 128))) (rest2.drop (l % 128))

/-! ## Name (`struct attribute`, `struct name`) -/

/-- `struct attribute` (x509.h:44), capitalised because `attribute` is a reserved word. -/
structure Attribute where
  set : tlv
  sequence : tlv
  attribute_type : tlv
  attribute_value : tlv
deriving DecidableEq, Repr

/-- `attribute::attribute(struct parser *p)` (x509.h:51-56): `set.parse(p)`. -/
def Attribute.parse (p : parser) : Attribute × parser :=
  (⟨(tlv.parse p 0).1, tlv.null, tlv.null, tlv.null⟩, (tlv.parse p 0).2)

/-- The innermost loop of `name::parse` (x509.h:99-111) over `r.sequence.value`.
`fuel` bounds the number of iterations; `name.parse_pairs_exhausts` shows that the
fuel given by `name.parse_rdn` is never used up before the cursor is empty. -/
def name.parse_pairs : Nat → Attribute → Attribute
  | 0, r => r
  | fuel + 1, r =>
    if parser_get_data_length r.sequence.value > 0 then
      let r1 : Attribute :=
        { r with attribute_type := (tlv.parse r.sequence.value 0).1,
                 sequence := { r.sequence with value := (tlv.parse r.sequence.value 0).2 } }
      if r1.attribute_type.tag = 0x06 then
        name.parse_pairs fuel
          { r1 with attribute_value := (tlv.parse r1.sequence.value 0).1,
                    sequence := { r1.sequence with value := (tlv.parse r1.sequence.value 0).2 } }
      else
        name.parse_pairs fuel r1
    else r

/-- One iteration of the loop of x509.h:91-113: `rdn.push_back(&RDNsequence.value)`,
`r.sequence.parse(&r.set.value)` and the loop over the sequence when it is
constructed.  Returns the new entry and the advanced `RDNsequence.value`. -/
def name.parse_rdn (p : parser) : Attribute × parser :=
  let r0 := (Attribute.parse p).1
  let r1 : Attribute :=
    { r0 with sequence := (tlv.parse r0.set.value 0).1,
              set := { r0.set with value := (tlv.parse r0.set.value 0).2 } }
  (if r1.sequence.is_constructed then
     name.parse_pairs (parser_get_data_length r1.sequence.value) r1
   else r1,
   (Attribute.parse p).2)

/-- The loop of x509.h:91-113 over `RDNsequence.value`. -/
def name.parse_rdns : Nat → parser → List Attribute → parser × List Attribute
  | 0, p, rdn => (p, rdn)
  | fuel + 1, p, rdn =>
    if parser_get_data_length p > 0 then
      name.parse_rdns fuel (name.parse_rdn p).2 (rdn ++ [(name.parse_rdn p).1])
    else (p, rdn)

/-- The outer loop of x509.h:89-114, with the same condition as the loop it holds. -/
def name.parse_outer : Nat → parser → List Attribute → parser × List Attribute
  | 0, p, rdn => (p, rdn)
  | fuel + 1, p, rdn =>
    if parser_get_data_length p > 0 then
      name.parse_outer fuel (name.parse_rdns (parser_get_data_length p) p rdn).1
        (name.parse_rdns (parser_get_data_length p) p rdn).2
    else (p, rdn)

/-- `struct name` (x509.h:78). -/
structure name where
  RDNsequence : tlv
  rdn : List Attribute
deriving DecidableEq, Repr

/-- `name::name()`. -/
def name.empty : name := ⟨tlv.null, []⟩

/-- `name::parse` (x509.h:84-115). -/
def name.parse (p : parser) : name × parser :=
  let s := (tlv.parse p tlv.SEQUENCE).1
  let r := name.parse_outer (parser_get_data_length s.value) s.value []
  (⟨{ s with value := r.1 }, r.2⟩, (tlv.parse p tlv.SEQUENCE).2)

/-! ## Validity, AlgorithmIdentifier, SubjectPublicKeyInfo -/

/-- `struct validity` (x509.h:830). -/
structure validity where
  sequence : tlv
  notBefore : tlv
  notAfter : tlv
deriving DecidableEq, Repr

/-- `validity::validity()`. -/
def validity.empty : validity := ⟨tlv.null, tlv.null, tlv.null⟩

/-- `validity::parse` (x509.h:838-842). -/
def validity.parse (p : parser) : validity × parser :=
  let s := (tlv.parse p tlv.SEQUENCE).1
  let nb := tlv.parse s.value 0
  let na := tlv.parse nb.2 0
  (⟨{ s with value := na.2 }, nb.1, na.1⟩, (tlv.parse p tlv.SEQUENCE).2)

/-- `struct algorithm_identifier` (x509.h:911). -/
structure algorithm_identifier where
  sequence : tlv
  algorithm : tlv
  parameters : tlv
deriving DecidableEq, Repr

/-- `algorithm_identifier::algorithm_identifier()`. -/
def algorithm_identifier.empty : algorithm_identifier := ⟨tlv.null, tlv.null, tlv.null⟩

/-- `algorithm_identifier::parse` (x509.h:920-926). -/
def algorithm_identifier.parse (p : parser) : algorithm_identifier × parser :=
  let s := (tlv.parse p tlv.SEQUENCE).1
  let a := tlv.parse s.value tlv.OBJECT_IDENTIFIER
  (if parser_get_data_length a.2 > 0 then
     ⟨{ s with value := (tlv.parse a.2 0).2 }, a.1, (tlv.parse a.2 0).1⟩
   else
     ⟨{ s with value := a.2 }, a.1, tlv.null⟩,
   (tlv.parse p tlv.SEQUENCE).2)

/-- `struct subject_public_key_info` (x509.h:961). -/
structure subject_public_key_info where
  sequence : tlv
  algorithm : algorithm_identifier
  subject_public_key : tlv
deriving DecidableEq, Repr

/-- `subject_public_key_info::subject_public_key_info()`. -/
def subject_public_key_info.empty : subject_public_key_info :=
  ⟨tlv.null, algorithm_identifier.empty, tlv.null⟩

/-- `subject_public_key_info::parse` (x509.h:970-974). -/
def subject_public_key_info.parse (p : parser) : subject_public_key_info × parser :=
  let s := (tlv.parse p 0).1
  let a := algorithm_identifier.parse s.value
  let k := tlv.parse a.2 tlv.BIT_STRING
  (⟨{ s with value := k.2 }, a.1, k.1⟩, (tlv.parse p 0).2)

/-! ## Extensions and the certificate (`struct extension`, `struct x509_cert`) -/

/-- `struct extension` (x509.h:148). -/
structure extension where
  sequence : tlv
  extnID : tlv
  critical : tlv
  extnValue : tlv
deriving DecidableEq, Repr

/-- One iteration of the extension loop of `x509_cert::parse` (x509.h:1139-1156):
`extension.push_back(&extensions.value)` builds the entry with `sequence{p}`, and a
constructed entry has its fields decoded from `ext.sequence.value`.  Returns the
new entry and the advanced `extensions.value`. -/
def x509_cert.parse_extension (p : parser) : extension × parser :=
  let s := (tlv.parse p 0).1
  (if s.is_constructed then
     let id := tlv.parse s.value 0
     let v := tlv.parse id.2 0
     if v.1.tag = 0x01 then
       ⟨{ s with value := (tlv.parse v.2 0).2 }, id.1, v.1, (tlv.parse v.2 0).1⟩
     else
       ⟨{ s with value := v.2 }, id.1, tlv.null, v.1⟩
   else
     ⟨s, tlv.null, tlv.null, tlv.null⟩,
   (tlv.parse p 0).2)

/-- The extension loop of `x509_cert::parse` (x509.h:1138-1157) over
`extensions.value`.  `fuel` bounds the number of iterations;
`x509_cert.parse_extensions_exhausts` shows that the fuel given by
`x509_cert.parse` is never used up before the cursor is empty. -/
def x509_cert.parse_extensions : Nat → parser → List extension → parser × List extension
  | 0, p, l => (p, l)
  | fuel + 1, p, l =>
    if parser_get_data_length p > 0 then
      x509_cert.parse_extensions fuel (x509_cert.parse_extension p).2
        (l ++ [(x509_cert.parse_extension p).1])
    else (p, l)

/-- `struct x509_cert` (x509.h:1050). -/
structure x509_cert where
  certificate : tlv
  tbs_certificate : tlv
  explicitly_tagged_version : tlv
  version : tlv
  serial_number : tlv
  algorithm_identifier : algorithm_identifier
  issuer : name
  validity : validity
  subject : name
  subjectPublicKeyInfo : subject_public_key_info
  explicitly_tagged_extensions : tlv
  extensions : tlv
  extension : List extension
  signature_algorithm : Mercury.algorithm_identifier
  signature : tlv
deriving DecidableEq, Repr

/-- `x509_cert::x509_cert()` (x509.h:1068-1082). -/
def x509_cert.empty : x509_cert :=
  { certificate := tlv.null, tbs_certificate := tlv.null,
    explicitly_tagged_version := tlv.null, version := tlv.null, serial_number := tlv.null,
    algorithm_identifier := algorithm_identifier.empty, issuer := name.empty,
    validity := validity.empty, subject := name.empty,
    subjectPublicKeyInfo := subject_public_key_info.empty,
    explicitly_tagged_extensions := tlv.null, extensions := tlv.null, extension := [],
    signature_algorithm := algorithm_identifier.empty, signature := tlv.null }

/-- The version and serial number step of `x509_cert::parse` (x509.h:1093-1109) on
the cursor `tbs_certificate.value`: the fields `explicitly_tagged_version`,
`version`, `serial_number` and the advanced cursor. -/
def x509_cert.parse_version (tv : parser) : tlv × tlv × tlv × parser :=
  let etv := tlv.parse tv (tlv.explicit_tag_constructed 0)
  let vs : tlv × tlv × tlv × parser :=
    if etv.1.is_not_null then
      ({ etv.1 with value := (tlv.parse etv.1.value tlv.INTEGER).2 },
       (tlv.parse etv.1.value tlv.INTEGER).1, tlv.null, etv.2)
    else
      let version_or_serial_number := tlv.parse etv.2 tlv.INTEGER
      if version_or_serial_number.1.length = 1
          ∧ version_or_serial_number.1.value.bytes.headD 0 < 3 then
        (etv.1, version_or_serial_number.1, tlv.null, version_or_serial_number.2)
      else
        (etv.1, tlv.null, version_or_serial_number.1, version_or_serial_number.2)
  if vs.2.2.1.is_null then
    (vs.1, vs.2.1, (tlv.parse vs.2.2.2 tlv.INTEGER).1, (tlv.parse vs.2.2.2 tlv.INTEGER).2)
  else vs

/-- The cursor `tbs_certificate.value` of `x509_cert::parse` as x509.h:1089-1091
leave it, before the first field of the tbsCertificate is read. -/
def x509_cert.tbs_start (buffer : List Nat) : parser :=
  (tlv.parse (tlv.parse (parser_init buffer) tlv.SEQUENCE).1.value tlv.SEQUENCE).1.value

/-- `x509_cert::parse` (x509.h:1084-1123) on a default-constructed certificate, up
to the test of x509.h:1125.  The cursors `certificate.value` and
`tbs_certificate.value` are those fields of the result. -/
def x509_cert.parse_tbs (buffer : List Nat) : x509_cert :=
  let certificate := (tlv.parse (parser_init buffer) tlv.SEQUENCE).1
  let tbs := tlv.parse certificate.value tlv.SEQUENCE
  let vs := x509_cert.parse_version (x509_cert.tbs_start buffer)
  let ai := algorithm_identifier.parse vs.2.2.2
  let issuer := name.parse ai.2
  let validity := validity.parse issuer.2
  let subject := name.parse validity.2
  let spki := subject_public_key_info.parse subject.2
  { x509_cert.empty with
    certificate := { certificate with value := tbs.2 },
    tbs_certificate := { tbs.1 with value := spki.2 },
    explicitly_tagged_version := vs.1, version := vs.2.1, serial_number := vs.2.2.1,
    algorithm_identifier := ai.1, issuer := issuer.1, validity := validity.1,
    subject := subject.1, subjectPublicKeyInfo := spki.1 }

/-- The step of x509.h:1129-1135 on the cursor `tbs_certificate.value`: the fields
`extensions` and `explicitly_tagged_extensions`, and the advanced cursor. -/
def x509_cert.parse_extensions_tlv (tv : parser) : tlv × tlv × parser :=
  let ete := tlv.parse tv 0xa3
  if ete.1.is_not_null then
    ((tlv.parse ete.1.value 0).1, { ete.1 with value := (tlv.parse ete.1.value 0).2 }, ete.2)
  else
    ((tlv.parse ete.2 0).1, ete.1, (tlv.parse ete.2 0).2)

/-- `x509_cert::parse` (x509.h:1084-1167) on a default-constructed certificate. -/
def x509_cert.parse (buffer : List Nat) : x509_cert :=
  let c0 := x509_cert.parse_tbs buffer
  if parser_get_data_length c0.tbs_certificate.value = 0 then c0
  else
    let ext := x509_cert.parse_extensions_tlv c0.tbs_certificate.value
    let l := x509_cert.parse_extensions (parser_get_data_length ext.1.value) ext.1.value []
    let sa := algorithm_identifier.parse c0.certificate.value
    let sg := tlv.parse sa.2 tlv.BIT_STRING
    { c0 with
      certificate := { c0.certificate with value := sg.2 },
      tbs_certificate := { c0.tbs_certificate with value := ext.2.2 },
      explicitly_tagged_extensions := ext.2.1,
      extensions := { ext.1 with value := l.1 },
      extension := l.2,
      signature_algorithm := sa.1, signature := sg.1 }

/-! ## Rendering: helpers of `asn1.h` and `oid.h` -/

/-- The helpers of `asn1.h` and `oid.h` that `x509.h` calls to render one TLV or to
resolve an OID, taken as parameters: each gives the text the call writes.
`parser_get_oid_string` returns a `const char *`: the field of that name is the text
it points to, the symbolic name or the designated text `"unknown_oid"` for an OID
that is not in the dictionary, and `oid_string_address` is the address it holds.
`literal_address s` is the address of the string literal `s` of `x509.h`, which the
compiler and the linker decide. -/
structure asn1 where
  parser_get_oid_string : parser → String
  oid_string_address : parser → Nat
  literal_address : String → Nat
  print_as_json_hex : tlv → String → Bool → String
  print_as_json_escaped_string : tlv → String → String
  print_as_json_oid : tlv → String → String
  print_as_json : tlv → String → String
  print_as_json_generalized_time : tlv → String → String
  print_as_json_ip_address : tlv → String → String
  print_as_json_bitstring_flags : tlv → String → List String → String

/-- One lowercase hexadecimal digit. -/
def hex_digit (n : Nat) : Char :=
  if n < 10 then Char.ofNat (48 + n) else Char.ofNat (87 + n)

/-- The text of `fprintf(f, "%02x", b)` for an octet `b`. -/
def hex2 (b : Nat) : String := String.mk [hex_digit (b / 16 % 16), hex_digit (b % 16)]

/-- Modelled from the spec: `fprintf_raw_as_hex(f, data, len)`, "hex string,
lowercase, no 0x" (section 4.4). -/
def fprintf_raw_as_hex (data : List Nat) : String := String.join (data.map hex2)

/-- Modelled from the spec: `tlv::remove_bitstring_encoding`, "BIT STRING content
starts with a unused-bits byte; the renderer strips it" (section 4.4). -/
def tlv.remove_bitstring_encoding (t : tlv) : tlv :=
  match t.value.bytes with
  | [] => t
  | _ :: rest =>
    { t with length := t.length - 1, value := { t.value with pos := t.value.pos + 1, bytes := rest } }

/-- How a rendering ends: it runs to its last write (`done`), it passes a null
pointer to `strcmp` (`fault`), or it is still looping when the fuel is used up
(`spin`). -/
inductive outcome (α : Type) where
  | done (a : α)
  | fault
  | spin
deriving DecidableEq, Repr

/-- Sequencing of two steps of a rendering. -/
def outcome.bind {α β : Type} (x : outcome α) (k : α → outcome β) : outcome β :=
  match x with
  | outcome.done a => k a
  | outcome.fault => outcome.fault
  | outcome.spin => outcome.spin

/-! ## Rendering: Name, Validity, AlgorithmIdentifier, SubjectPublicKeyInfo -/

/-- `attribute::print_as_json` (x509.h:58-75).  The test `oid_string != unknown_oid`
of x509.h:68 compares the pointer that `parser_get_oid_string` returned with the
address of the literal of x509.h:59. -/
def Attribute.print_as_json (env : asn1) (a : Attribute) : String :=
  if a.attribute_type.length = 0 ∨ a.attribute_value.length = 0 then "\x7b\x7d"
  else
    "\x7b"
    ++ (if env.oid_string_address a.attribute_type.value
            ≠ env.literal_address "unknown_oid" then
          env.print_as_json_escaped_string a.attribute_value
            (env.parser_get_oid_string a.attribute_type.value)
        else env.print_as_json_hex a.attribute_value "unknown_oid" false)
    ++ "\x7d"

/-- The loop of `name::print_as_json` (x509.h:120-128) with its flag `first`. -/
def name.print_rdns (env : asn1) : Bool → List Attribute → String
  | _, [] => ""
  | first, a :: rest =>
    (if first then "" else ",") ++ a.print_as_json env ++ name.print_rdns env false rest

/-- `name::print_as_json` (x509.h:117-131). -/
def name.print_as_json (env : asn1) (n : name) (label : String) : String :=
  if n.rdn.length > 0 then
    ",\"" ++ label ++ "\":[" ++ name.print_rdns env true n.rdn ++ "]"
  else ""

/-- `validity::print_as_json` (x509.h:843-852). -/
def validity.print_as_json (env : asn1) (v : validity) : String :=
  ",\"validity\":[" ++ "\x7b" ++ env.print_as_json v.notBefore "notBefore" ++ "\x7d"
  ++ ",\x7b" ++ env.print_as_json v.notAfter "notAfter" ++ "\x7d" ++ "]"

/-- `algorithm_identifier::print_as_json` (x509.h:927-939). -/
def algorithm_identifier.print_as_json (env : asn1) (a : algorithm_identifier) : String :=
  "\x7b" ++ "\"algorithm\":\"" ++ env.parser_get_oid_string a.algorithm.value ++ "\""
  ++ (if a.parameters.is_not_null then
        "," ++ (if a.parameters.tag = tlv.OBJECT_IDENTIFIER then
                  env.print_as_json_oid a.parameters "parameters"
                else env.print_as_json_hex a.parameters "parameters" false)
      else "")
  ++ "\x7d"

/-- `algorithm_identifier::type` (x509.h:940-945); `none` is the `NULL` it returns. -/
def algorithm_identifier.type (env : asn1) (a : algorithm_identifier) : Option String :=
  if a.algorithm.is_not_null then some (env.parser_get_oid_string a.algorithm.value) else none

/-- `algorithm_identifier::get_parameters` (x509.h:946-951).  Its only caller,
`x509_cert::is_weak`, looks the returned pointer up by address: the result is the
address that the pointer holds, and `none` is the `NULL` it returns. -/
def algorithm_identifier.get_parameters (env : asn1) (a : algorithm_identifier) :
    Option Nat :=
  if a.parameters.is_not_null then some (env.oid_string_address a.parameters.value) else none

/-- `struct rsa_public_key` (x509.h:864). -/
structure rsa_public_key where
  sequence : tlv
  modulus : tlv
  exponent : tlv
deriving DecidableEq, Repr

/-- `rsa_public_key::parse` (x509.h:874-878). -/
def rsa_public_key.parse (p : parser) : rsa_public_key × parser :=
  let s := (tlv.parse p tlv.SEQUENCE).1
  let m := tlv.parse s.value tlv.INTEGER
  let e := tlv.parse m.2 tlv.INTEGER
  (⟨{ s with value := e.2 }, m.1, e.1⟩, (tlv.parse p tlv.SEQUENCE).2)

/-- `rsa_public_key::print_as_json` (x509.h:880-887). -/
def rsa_public_key.print_as_json (env : asn1) (k : rsa_public_key) (label : String)
    (comma : Bool) : String :=
  (if comma then ",\"" ++ label ++ "\":\x7b" else "\"" ++ label ++ "\":\x7b")
  ++ (if k.modulus.is_not_null ∧ k.exponent.is_not_null then
        env.print_as_json_hex k.modulus "modulus" false
        ++ env.print_as_json_hex k.exponent "exponent" true
      else "")
  ++ "\x7d"

/-- `struct ec_public_key` (x509.h:891). -/
structure ec_public_key where
  tmp : tlv
deriving DecidableEq, Repr

/-- `ec_public_key::ec_public_key(struct parser *p)` (x509.h:894-896). -/
def ec_public_key.parse (p : parser) : ec_public_key × parser :=
  (⟨(tlv.parse p 0).1⟩, (tlv.parse p 0).2)

/-- `ec_public_key::print_as_json` (x509.h:897-902). -/
def ec_public_key.print_as_json (env : asn1) (k : ec_public_key) (label : String)
    (comma : Bool) : String :=
  (if comma then "," else "") ++ env.print_as_json k.tmp label

/-- `subject_public_key_info::print_as_json` (x509.h:975-992): the text written and
the structure as the call leaves it.  `strcmp` on the `NULL` that `type()` returns
for a null algorithm is the `fault`. -/
def subject_public_key_info.print_as_json (env : asn1) (s : subject_public_key_info)
    (label : String) : outcome (String × subject_public_key_info) :=
  let head := ",\"" ++ label ++ "\":\x7b" ++ "\"algorithm\":" ++ s.algorithm.print_as_json env
  match s.algorithm.type env with
  | none => outcome.fault
  | some ty =>
    if ty = "rsaEncryption" then
      let k := s.subject_public_key.remove_bitstring_encoding
      let pub_key := rsa_public_key.parse k.value
      outcome.done
        (head ++ pub_key.1.print_as_json env "subject_public_key" true ++ "\x7d",
         { s with subject_public_key := { k with value := pub_key.2 } })
    else if ty = "id-ecPublicKey" then
      let pub_key := ec_public_key.parse s.subject_public_key.value
      outcome.done
        (head ++ pub_key.1.print_as_json env "subject_public_key" true ++ "\x7d",
         { s with subject_public_key := { s.subject_public_key with value := pub_key.2 } })
    else
      outcome.done
        (head ++ env.print_as_json_hex s.subject_public_key "subject_public_key" true ++ "\x7d", s)

/-! ## Typed extension bodies -/

/-- `struct basic_constraints` (x509.h:162). -/
structure basic_constraints where
  sequence : tlv
  ca : tlv
  path_len_constraint : tlv
deriving DecidableEq, Repr

/-- `basic_constraints::basic_constraints(struct parser *p)` (x509.h:168-176). -/
def basic_constraints.parse (p : parser) : basic_constraints × parser :=
  let s := (tlv.parse p 0).1
  let ca : tlv × parser :=
    if parser_get_data_length s.value > 0 then tlv.parse s.value 0x01 else (tlv.null, s.value)
  let pl : tlv × parser :=
    if parser_get_data_length ca.2 > 0 then tlv.parse ca.2 0x02 else (tlv.null, ca.2)
  (⟨{ s with value := pl.2 }, ca.1, pl.1⟩, (tlv.parse p 0).2)

/-- `basic_constraints::print_as_json` (x509.h:178-186); the local `length` is
always 0 and is printed with `%u`. -/
def basic_constraints.print_as_json (b : basic_constraints) : String :=
  ",\x7b\"BasicConstraints\":\x7b\"ca\":" ++ (if b.ca.length ≠ 0 then "true" else "false")
  ++ ",\"pathLenConstraint\":" ++ "0" ++ "\x7d\x7d"

/-- `struct ext_key_usage` (x509.h:198). -/
structure ext_key_usage where
  sequence : tlv
  key_purpose_id : List tlv
deriving DecidableEq, Repr

/-- The loop of the constructor of `ext_key_usage` (x509.h:204-207). -/
def ext_key_usage.parse_ids : Nat → parser → List tlv → parser × List tlv
  | 0, p, l => (p, l)
  | fuel + 1, p, l =>
    if parser_get_data_length p > 0 then
      ext_key_usage.parse_ids fuel (tlv.parse p 0).2 (l ++ [(tlv.parse p 0).1])
    else (p, l)

/-- `ext_key_usage::ext_key_usage(struct parser *p)` (x509.h:202-208). -/
def ext_key_usage.parse (p : parser) : ext_key_usage × parser :=
  let s := (tlv.parse p 0).1
  let r := ext_key_usage.parse_ids (parser_get_data_length s.value) s.value []
  (⟨{ s with value := r.1 }, r.2⟩, (tlv.parse p 0).2)

/-- The loop of `ext_key_usage::print_as_json` (x509.h:213-221). -/
def ext_key_usage.print_ids (env : asn1) : Bool → List tlv → String
  | _, [] => ""
  | first, x :: rest =>
    (if first then "" else ",") ++ "\"" ++ env.parser_get_oid_string x.value ++ "\""
    ++ ext_key_usage.print_ids env false rest

/-- `ext_key_usage::print_as_json` (x509.h:210-223). -/
def ext_key_usage.print_as_json (env : asn1) (e : ext_key_usage) : String :=
  ",\x7b\"ext_key_usage\":[" ++ ext_key_usage.print_ids env true e.key_purpose_id ++ "]\x7d"

/-- `struct key_usage` (x509.h:243). -/
structure key_usage where
  bit_string : tlv
deriving DecidableEq, Repr

/-- `key_usage::parse` (x509.h:250-252). -/
def key_usage.parse (p : parser) : key_usage × parser :=
  (⟨(tlv.parse p tlv.BIT_STRING).1⟩, (tlv.parse p tlv.BIT_STRING).2)

/-- The array `flags` of `key_usage::print_as_json` (x509.h:254-265). -/
def key_usage.flags : List String :=
  ["digital_signature", "non_repudiation", "key_encipherment", "data_encipherment",
   "key_agreement", "key_cert_sign", "crl_sign", "encipher_only", "decipher_only"]

/-- `key_usage::print_as_json` (x509.h:253-270). -/
def key_usage.print_as_json (env : asn1) (k : key_usage) (comma : Bool) : String :=
  (if comma then ",\x7b" else "\x7b")
  ++ env.print_as_json_bitstring_flags k.bit_string "key_usage" key_usage.flags ++ "\x7d"

/-- `struct policy_qualifier_info` (x509.h:324). -/
structure policy_qualifier_info where
  sequence : tlv
  qualifier_id : tlv
  qualifier : tlv
deriving DecidableEq, Repr

/-- `policy_qualifier_info::parse` (x509.h:333-339). -/
def policy_qualifier_info.parse (p : parser) : policy_qualifier_info × parser :=
  let s := (tlv.parse p tlv.SEQUENCE).1
  let id := tlv.parse s.value 0
  (if parser_get_data_length id.2 > 0 then
     ⟨{ s with value := (tlv.parse id.2 0).2 }, id.1, (tlv.parse id.2 0).1⟩
   else ⟨{ s with value := id.2 }, id.1, tlv.null⟩,
   (tlv.parse p tlv.SEQUENCE).2)

/-- `policy_qualifier_info::print_as_json` (x509.h:340-346). -/
def policy_qualifier_info.print_as_json (env : asn1) (q : policy_qualifier_info)
    (label pre post : String) : String :=
  pre ++ "\"" ++ label ++ "\":\x7b" ++ env.print_as_json_hex q.qualifier_id "qualifier_id" false
  ++ "," ++ env.print_as_json_escaped_string q.qualifier "qualifier" ++ "\x7d" ++ post

/-- `struct policy_information` (x509.h:350). -/
structure policy_information where
  sequence : tlv
  policy_identifier : tlv
  policy_qualifiers : tlv
deriving DecidableEq, Repr

/-- `policy_information::policy_information(struct parser *p)` (x509.h:356-362). -/
def policy_information.parse (p : parser) : policy_information × parser :=
  let s := (tlv.parse p tlv.SEQUENCE).1
  let id := tlv.parse s.value tlv.OBJECT_IDENTIFIER
  (if parser_get_data_length id.2 > 0 then
     ⟨{ s with value := (tlv.parse id.2 tlv.SEQUENCE).2 }, id.1, (tlv.parse id.2 tlv.SEQUENCE).1⟩
   else ⟨{ s with value := id.2 }, id.1, tlv.null⟩,
   (tlv.parse p tlv.SEQUENCE).2)

/-- `policy_information::print_as_json` (x509.h:363-373). -/
def policy_information.print_as_json (env : asn1) (pi : policy_information)
    (label pre post : String) : String :=
  pre ++ "\"" ++ label ++ "\":[" ++ "\x7b"
  ++ env.print_as_json_hex pi.policy_identifier "policy_identifier" false
  ++ (if pi.policy_qualifiers.is_not_null then
        (policy_qualifier_info.parse pi.policy_qualifiers.value).1.print_as_json env
          "policy_qualifier_info" "," ""
      else "")
  ++ "\x7d" ++ "]" ++ post

/-- `struct certificate_policies` (x509.h:376). -/
structure certificate_policies where
  sequence : tlv
deriving DecidableEq, Repr

/-- `certificate_policies::certificate_policies(struct parser *p)` (x509.h:380-382). -/
def certificate_policies.parse (p : parser) : certificate_policies × parser :=
  (⟨(tlv.parse p tlv.SEQUENCE).1⟩, (tlv.parse p tlv.SEQUENCE).2)

/-- One iteration of the loop of `certificate_policies::print_as_json`
(x509.h:387-389) on the cursor `sequence.value` with the separator `c`: the text
written and the cursor as the iteration leaves it. -/
def certificate_policies.print_step (env : asn1) (c : String) (p : parser) : String × parser :=
  ((policy_information.parse p).1.print_as_json env "policy_information" c "\x7d",
   (policy_information.parse p).2)

/-- The loop of `certificate_policies::print_as_json` (x509.h:386-390) over
`sequence.value`: the text written, or `spin` when the loop is still running after
`fuel` iterations. -/
def certificate_policies.print_loop (env : asn1) : Nat → String → parser → outcome String
  | 0, _, p => if parser_get_data_length p > 0 then outcome.spin else outcome.done ""
  | fuel + 1, c, p =>
    if parser_get_data_length p > 0 then
      (certificate_policies.print_loop env fuel ",\x7b" (certificate_policies.print_step env c p).2).bind
        (fun rest => outcome.done ((certificate_policies.print_step env c p).1 ++ rest))
    else outcome.done ""

/-- `certificate_policies::print_as_json` (x509.h:383-392). -/
def certificate_policies.print_as_json (env : asn1) (fuel : Nat) (x : certificate_policies)
    (label pre post : String) : outcome String :=
  (certificate_policies.print_loop env fuel "\x7b" x.sequence.value).bind
    (fun body => outcome.done (pre ++ "\"" ++ label ++ "\":[" ++ body ++ "]" ++ post))

/-- `struct private_key_usage_period` (x509.h:404). -/
structure private_key_usage_period where
  sequence : tlv
  notBefore : tlv
  notAfter : tlv
deriving DecidableEq, Repr

/-- The loop of `private_key_usage_period::parse` (x509.h:415-423): the cursor, then
`notBefore` and `notAfter`. -/
def private_key_usage_period.parse_loop : Nat → parser → tlv → tlv → parser × tlv × tlv
  | 0, p, nb, na => (p, nb, na)
  | fuel + 1, p, nb, na =>
    if parser_get_data_length p > 0 then
      private_key_usage_period.parse_loop fuel (tlv.parse p 0).2
        (if (tlv.parse p 0).1.tag = tlv.explicit_tag 0 then (tlv.parse p 0).1 else nb)
        (if (tlv.parse p 0).1.tag = tlv.explicit_tag 1 then (tlv.parse p 0).1 else na)
    else (p, nb, na)

/-- `private_key_usage_period::parse` (x509.h:413-424). -/
def private_key_usage_period.parse (p : parser) : private_key_usage_period × parser :=
  let s := (tlv.parse p tlv.SEQUENCE).1
  let r := private_key_usage_period.parse_loop (parser_get_data_length s.value) s.value
    tlv.null tlv.null
  (⟨{ s with value := r.1 }, r.2.1, r.2.2⟩, (tlv.parse p tlv.SEQUENCE).2)

/-- `private_key_usage_period::print_as_json` (x509.h:425-442). -/
def private_key_usage_period.print_as_json (env : asn1) (x : private_key_usage_period)
    (label : String) (comma : Bool) : String :=
  (if comma then ",\x7b\"" ++ label ++ "\":[" else "\"" ++ label ++ "\":[")
  ++ (if x.notBefore.is_not_null then
        "\x7b" ++ env.print_as_json_generalized_time x.notBefore "not_before" ++ "\x7d"
      else "")
  ++ (if x.notAfter.is_not_null then
        (if x.notBefore.is_not_null then "," else "") ++ "\x7b"
        ++ env.print_as_json_generalized_time x.notAfter "not_after" ++ "\x7d"
      else "")
  ++ "]\x7d"

/-- `struct general_name` (x509.h:474). -/
structure general_name where
  explicit_tag : tlv
deriving DecidableEq, Repr

/-- `general_name::general_name()`. -/
def general_name.empty : general_name := ⟨tlv.null⟩

/-- `general_name::parse` (x509.h:481-483). -/
def general_name.parse (p : parser) (expected_tag : Nat) : general_name × parser :=
  (⟨(tlv.parse p expected_tag).1⟩, (tlv.parse p expected_tag).2)

/-- `general_name::otherName` (x509.h:512). -/
def general_name.otherName : Nat := tlv.explicit_tag_constructed 0
/-- `general_name::rfc822Name` (x509.h:513). -/
def general_name.rfc822Name : Nat := tlv.explicit_tag 1
/-- `general_name::dNSName` (x509.h:514). -/
def general_name.dNSName : Nat := tlv.explicit_tag 2
/-- `general_name::uniformResourceIdentifier` (x509.h:518). -/
def general_name.uniformResourceIdentifier : Nat := tlv.explicit_tag 6
/-- `general_name::iPAddress` (x509.h:519). -/
def general_name.iPAddress : Nat := tlv.explicit_tag 7

/-- `general_name::print_as_json` (x509.h:484-510): the text written and the
structure as the call leaves it (the otherName branch advances
`explicit_tag.value`). -/
def general_name.print_as_json (env : asn1) (g : general_name) : String × general_name :=
  if g.explicit_tag.tag = general_name.otherName then
    let type_id := tlv.parse g.explicit_tag.value tlv.OBJECT_IDENTIFIER
    let value := tlv.parse type_id.2 0
    ("\x7b\"other_name\":\x7b" ++ env.print_as_json_oid type_id.1 "type_id"
       ++ env.print_as_json_hex value.1 "value" true ++ "\x7d\x7d",
     ⟨{ g.explicit_tag with value := value.2 }⟩)
  else if g.explicit_tag.tag = general_name.rfc822Name then
    ("\x7b" ++ env.print_as_json_escaped_string g.explicit_tag "rfc822_name" ++ "\x7d", g)
  else if g.explicit_tag.tag = general_name.dNSName then
    ("\x7b" ++ env.print_as_json_escaped_string g.explicit_tag "dns_name" ++ "\x7d", g)
  else if g.explicit_tag.tag = general_name.uniformResourceIdentifier then
    ("\x7b" ++ env.print_as_json_escaped_string g.explicit_tag "uri" ++ "\x7d", g)
  else if g.explicit_tag.tag = general_name.iPAddress then
    (env.print_as_json_ip_address g.explicit_tag "ip_address", g)
  else
    ("\x7b\"SAN explicit tag\": \"" ++ hex2 g.explicit_tag.tag ++ "\"\x7d", g)

/-- `struct subject_alt_name` (x509.h:525). -/
structure subject_alt_name where
  sequence : tlv
  names : List general_name
deriving DecidableEq, Repr

/-- `subject_alt_name::subject_alt_name(struct parser *p)` (x509.h:529-536). -/
def subject_alt_name.parse (p : parser) : subject_alt_name × parser :=
  (⟨(tlv.parse p 0).1, []⟩, (tlv.parse p 0).2)

/-- The loop of `subject_alt_name::print_as_json` (x509.h:551-557) over
`sequence.value` with the separator `comma`. -/
def subject_alt_name.print_names (env : asn1) : Nat → String → parser → String
  | 0, _, _ => ""
  | fuel + 1, comma, p =>
    if parser_get_data_length p > 0 then
      comma ++ ((general_name.parse p 0).1.print_as_json env).1
      ++ subject_alt_name.print_names env fuel "," (general_name.parse p 0).2
    else ""

/-- `subject_alt_name::print_as_json` (x509.h:538-560). -/
def subject_alt_name.print_as_json (env : asn1) (x : subject_alt_name) (label : String) :
    String :=
  ",\x7b\"" ++ label ++ "\":["
  ++ subject_alt_name.print_names env (parser_get_data_length x.sequence.value) ""
       x.sequence.value
  ++ "]\x7d"

/-- `struct distribution_point_name` (x509.h:590). -/
structure distribution_point_name where
  explicit_tag : tlv
  full_name : general_name
  name_relative_to_crl_issuer : Attribute
deriving DecidableEq, Repr

/-- `distribution_point_name::distribution_point_name()` (x509.h:598). -/
def distribution_point_name.empty : distribution_point_name :=
  ⟨tlv.null, general_name.empty, ⟨tlv.null, tlv.null, tlv.null, tlv.null⟩⟩

/-- `distribution_point_name::parse` (x509.h:602-610) as a member call on `d`. -/
def distribution_point_name.parse (d : distribution_point_name) (p : parser) :
    distribution_point_name × parser :=
  let tmp := (tlv.parse p 0).1
  let d1 : distribution_point_name :=
    if tmp.tag = tlv.explicit_tag_constructed 0 then
      { d with full_name := (general_name.parse tmp.value 0).1 }
    else d
  let d2 : distribution_point_name :=
    if tmp.tag = tlv.explicit_tag_constructed 1 then
      { d1 with name_relative_to_crl_issuer :=
          { d1.name_relative_to_crl_issuer with set := (tlv.parse tmp.value 0).1 } }
    else d1
  (d2, (tlv.parse p 0).2)

/-- `distribution_point_name::print_as_json` (x509.h:611-623). -/
def distribution_point_name.print_as_json (env : asn1) (d : distribution_point_name)
    (label pre post : String) : String × distribution_point_name :=
  if d.full_name.explicit_tag.is_not_null then
    (pre ++ "\"" ++ label ++ "\":\x7b" ++ "\"full_name\":" ++ (d.full_name.print_as_json env).1
       ++ "\x7d" ++ post,
     { d with full_name := (d.full_name.print_as_json env).2 })
  else if d.name_relative_to_crl_issuer.set.is_not_null then
    (pre ++ "\"" ++ label ++ "\":\x7b" ++ "\"name_relative_to_crl_issuer\":"
       ++ d.name_relative_to_crl_issuer.print_as_json env ++ post ++ "\x7d", d)
  else ("", d)

/-- `struct distribution_point` (x509.h:626). -/
structure distribution_point where
  sequence : tlv
  distribution_point_name : distribution_point_name
  reasons : tlv
  crl_issuer : tlv
deriving DecidableEq, Repr

/-- `distribution_point::distribution_point(struct parser *p)` (x509.h:635). -/
def distribution_point.parse (p : parser) : distribution_point × parser :=
  (⟨(tlv.parse p 0).1, distribution_point_name.empty, tlv.null, tlv.null⟩, (tlv.parse p 0).2)

/-- The loop of `distribution_point::print_as_json` (x509.h:638-644) over
`sequence.value`, with the member `distribution_point_name` carried along. -/
def distribution_point.print_loop (env : asn1) :
    Nat → parser → Mercury.distribution_point_name → String
  | 0, _, _ => ""
  | fuel + 1, p, d =>
    if parser_get_data_length p > 0 then
      let tmp := (tlv.parse p 0).1
      if tmp.tag = tlv.explicit_tag_constructed 0 then
        ((d.parse tmp.value).1.print_as_json env "distribution_point_name" "\x7b" "\x7d").1
        ++ distribution_point.print_loop env fuel (tlv.parse p 0).2
             ((d.parse tmp.value).1.print_as_json env "distribution_point_name" "\x7b" "\x7d").2
      else distribution_point.print_loop env fuel (tlv.parse p 0).2 d
    else ""

/-- `distribution_point::print_as_json` (x509.h:636-646). -/
def distribution_point.print_as_json (env : asn1) (x : distribution_point)
    (label pre post : String) : String :=
  pre ++ "\"" ++ label ++ "\":["
  ++ distribution_point.print_loop env (parser_get_data_length x.sequence.value)
       x.sequence.value x.distribution_point_name
  ++ "]" ++ post

/-- `struct crl_distribution_points` (x509.h:649). -/
structure crl_distribution_points where
  sequence : tlv
deriving DecidableEq, Repr

/-- `crl_distribution_points::crl_distribution_points(struct parser *p)` (x509.h:652). -/
def crl_distribution_points.parse (p : parser) : crl_distribution_points × parser :=
  (⟨(tlv.parse p 0).1⟩, (tlv.parse p 0).2)

/-- The loop of `crl_distribution_points::print_as_json` (x509.h:656-661). -/
def crl_distribution_points.print_loop (env : asn1) : Nat → String → parser → String
  | 0, _, _ => ""
  | fuel + 1, comma, p =>
    if parser_get_data_length p > 0 then
      (distribution_point.parse p).1.print_as_json env "crl_distribution_point" comma "\x7d"
      ++ crl_distribution_points.print_loop env fuel ",\x7b" (distribution_point.parse p).2
    else ""

/-- `crl_distribution_points::print_as_json` (x509.h:654-663). -/
def crl_distribution_points.print_as_json (env : asn1) (x : crl_distribution_points)
    (label pre post : String) : String :=
  pre ++ "\"" ++ label ++ "\":["
  ++ crl_distribution_points.print_loop env (parser_get_data_length x.sequence.value) "\x7b"
       x.sequence.value
  ++ "]" ++ post

/-- `struct authority_key_identifier` (x509.h:679). -/
structure authority_key_identifier where
  sequence : tlv
  key_identifier : tlv
  cert_issuer : general_name
  cert_serial_number : tlv
deriving DecidableEq, Repr

/-- The loop of `authority_key_identifier::parse` (x509.h:692-704). -/
def authority_key_identifier.parse_loop :
    Nat → authority_key_identifier → authority_key_identifier
  | 0, a => a
  | fuel + 1, a =>
    if parser_get_data_length a.sequence.value > 0 then
      let tmp := (tlv.parse a.sequence.value 0).1
      let a1 : authority_key_identifier :=
        { a with sequence := { a.sequence with value := (tlv.parse a.sequence.value 0).2 } }
      authority_key_identifier.parse_loop fuel
        (if tmp.tag = tlv.explicit_tag 0 then { a1 with key_identifier := tmp }
         else if tmp.tag = tlv.explicit_tag_constructed 1 then { a1 with cert_issuer := ⟨tmp⟩ }
         else if tmp.tag = tlv.explicit_tag 2 then { a1 with cert_serial_number := tmp }
         else a1)
    else a

/-- `authority_key_identifier::parse` (x509.h:690-705). -/
def authority_key_identifier.parse (p : parser) : authority_key_identifier × parser :=
  let s := (tlv.parse p tlv.SEQUENCE).1
  (authority_key_identifier.parse_loop (parser_get_data_length s.value)
     ⟨s, tlv.null, general_name.empty, tlv.null⟩,
   (tlv.parse p tlv.SEQUENCE).2)

/-- `authority_key_identifier::print_as_json` (x509.h:707-723). -/
def authority_key_identifier.print_as_json (env : asn1) (a : authority_key_identifier) :
    String :=
  ",\x7b\"authority_key_identifier\":\x7b"
  ++ (if a.key_identifier.is_not_null then
        env.print_as_json_hex a.key_identifier "key_identifier" false
      else "")
  ++ (if a.cert_issuer.explicit_tag.is_not_null then
        (if a.key_identifier.is_not_null then ",\"cert_issuer\":" else "\"cert_issuer\":")
        ++ (a.cert_issuer.print_as_json env).1
      else "")
  ++ (if a.cert_serial_number.is_not_null then
        env.print_as_json_hex a.cert_serial_number "cert_serial_number"
          (a.key_identifier.is_not_null || a.cert_issuer.explicit_tag.is_not_null)
      else "")
  ++ "\x7d\x7d"

/-- `struct general_subtree` (x509.h:743). -/
structure general_subtree where
  sequence : tlv
  base : general_name
  minimum : tlv
  maximum : tlv
deriving DecidableEq, Repr

/-- The loop of the constructor of `general_subtree` (x509.h:752-761): the cursor,
then `minimum` and `maximum`. -/
def general_subtree.parse_loop : Nat → parser → tlv → tlv → parser × tlv × tlv
  | 0, p, mn, mx => (p, mn, mx)
  | fuel + 1, p, mn, mx =>
    if parser_get_data_length p > 0 then
      general_subtree.parse_loop fuel (tlv.parse p 0).2
        (if (tlv.parse p 0).1.tag = tlv.explicit_tag 0 then (tlv.parse p 0).1 else mn)
        (if (tlv.parse p 0).1.tag = tlv.explicit_tag 1 then (tlv.parse p 0).1 else mx)
    else (p, mn, mx)

/-- `general_subtree::general_subtree(struct parser *p)` (x509.h:749-762). -/
def general_subtree.parse (p : parser) : general_subtree × parser :=
  let s := (tlv.parse p tlv.SEQUENCE).1
  let base := general_name.parse s.value 0
  let r := general_subtree.parse_loop (parser_get_data_length base.2) base.2 tlv.null tlv.null
  (⟨{ s with value := r.1 }, base.1, r.2.1, r.2.2⟩, (tlv.parse p tlv.SEQUENCE).2)

/-- `general_subtree::print_as_json` (x509.h:763-772). -/
def general_subtree.print_as_json (env : asn1) (g : general_subtree) (label pre post : String) :
    String :=
  pre ++ "\"" ++ label ++ "\":" ++ (g.base.print_as_json env).1
  ++ (if g.minimum.is_not_null then "" else ",\"minimum\":0") ++ post

/-- `struct name_constraints` (x509.h:780). -/
structure name_constraints where
  sequence : tlv
  permitted_subtrees : tlv
  excluded_subtrees : tlv
deriving DecidableEq, Repr

/-- The loop of the constructor of `name_constraints` (x509.h:787-795): the cursor,
then `permitted_subtrees` and `excluded_subtrees`. -/
def name_constraints.parse_loop : Nat → parser → tlv → tlv → parser × tlv × tlv
  | 0, p, pm, ex => (p, pm, ex)
  | fuel + 1, p, pm, ex =>
    if parser_get_data_length p > 0 then
      name_constraints.parse_loop fuel (tlv.parse p 0).2
        (if (tlv.parse p 0).1.tag = tlv.explicit_tag_constructed 0 then (tlv.parse p 0).1 else pm)
        (if (tlv.parse p 0).1.tag = tlv.explicit_tag_constructed 1 then (tlv.parse p 0).1 else ex)
    else (p, pm, ex)

/-- `name_constraints::name_constraints(struct parser *p)` (x509.h:785-796). -/
def name_constraints.parse (p : parser) : name_constraints × parser :=
  let s := (tlv.parse p tlv.SEQUENCE).1
  let r := name_constraints.parse_loop (parser_get_data_length s.value) s.value tlv.null tlv.null
  (⟨{ s with value := r.1 }, r.2.1, r.2.2⟩, (tlv.parse p tlv.SEQUENCE).2)

/-- `name_constraints::print_as_json` (x509.h:798-805). -/
def name_constraints.print_as_json (env : asn1) (x : name_constraints)
    (label pre post : String) : String :=
  pre ++ "\"" ++ label ++ "\":\x7b"
  ++ (if x.permitted_subtrees.is_not_null then
        (general_subtree.parse x.permitted_subtrees.value).1.print_as_json env
          "permitted_subtree" "" ""
      else "")
  ++ "\x7d" ++ post

/-- `struct signed_certificate_timestamp_list` (x509.h:1008). -/
structure signed_certificate_timestamp_list where
  serialized_sct : tlv
deriving DecidableEq, Repr

/-- The constructor of `signed_certificate_timestamp_list` (x509.h:1013-1015). -/
def signed_certificate_timestamp_list.parse (p : parser) :
    signed_certificate_timestamp_list × parser :=
  (⟨(tlv.parse p 0).1⟩, (tlv.parse p 0).2)

/-- `signed_certificate_timestamp_list::print_as_json` (x509.h:1016-1020). -/
def signed_certificate_timestamp_list.print_as_json (env : asn1)
    (x : signed_certificate_timestamp_list) (label pre post : String) : String :=
  pre ++ env.print_as_json_hex x.serialized_sct label false ++ post

/-! ## Rendering the certificate (`x509_cert::print_as_json`) -/

/-- The typed bodies of `x509_cert::print_as_json` (x509.h:1206-1255), in source
order: the name that `oid_string` is compared with, and the body of the `if`, which
builds the typed structure from the cursor `xtn.extnValue.value` and prints it to
`stdout`.  Each gives the text written and the cursor as it leaves it. -/
def x509_cert.typed_bodies (env : asn1) (fuel : Nat) :
    List (String × (parser → outcome (String × parser))) :=
  [("id-ce-SignedCertificateTimestampList", fun p =>
      outcome.done ((signed_certificate_timestamp_list.parse p).1.print_as_json env
        "signed_certificate_timestamp_list" ",\x7b" "\x7d", (signed_certificate_timestamp_list.parse p).2)),
   ("id-ce-nameConstraints", fun p =>
      outcome.done ((name_constraints.parse p).1.print_as_json env "name_constraints" ",\x7b" "\x7d",
        (name_constraints.parse p).2)),
   ("id-ce-cRLDistributionPoints", fun p =>
      outcome.done ((crl_distribution_points.parse p).1.print_as_json env
        "crl_distribution_points" ",\x7b" "\x7d", (crl_distribution_points.parse p).2)),
   ("id-ce-certificatePolicies", fun p =>
      ((certificate_policies.parse p).1.print_as_json env fuel "certificate_policies" ",\x7b" "\x7d").bind
        (fun t => outcome.done (t, (certificate_policies.parse p).2))),
   ("id-ce-privateKeyUsagePeriod", fun p =>
      outcome.done ((private_key_usage_period.parse p).1.print_as_json env
        "private_key_usage_period" true, (private_key_usage_period.parse p).2)),
   ("id-ce-basicConstraints", fun p =>
      outcome.done ((basic_constraints.parse p).1.print_as_json, (basic_constraints.parse p).2)),
   ("id-ce-keyUsage", fun p =>
      outcome.done ((key_usage.parse p).1.print_as_json env true, (key_usage.parse p).2)),
   ("id-ce-extKeyUsage", fun p =>
      outcome.done ((ext_key_usage.parse p).1.print_as_json env, (ext_key_usage.parse p).2)),
   ("id-ce-subjectAltName", fun p =>
      outcome.done ((subject_alt_name.parse p).1.print_as_json env "subject_alt_name",
        (subject_alt_name.parse p).2)),
   ("id-ce-issuerAltName", fun p =>
      outcome.done ((subject_alt_name.parse p).1.print_as_json env "issuer_alt_name",
        (subject_alt_name.parse p).2)),
   ("id-ce-authorityKeyIdentifier", fun p =>
      outcome.done ((authority_key_identifier.parse p).1.print_as_json env,
        (authority_key_identifier.parse p).2)),
   ("id-ce-subjectKeyIdentifier", fun p =>
      outcome.done (",\x7b" ++ env.print_as_json_hex (tlv.parse p 0).1 "subject_key_identifier" false
        ++ "\x7d", (tlv.parse p 0).2))]

/-- The chain of `if (oid_string && strcmp(name, oid_string) == 0) { ... }` of
x509.h:1206-1255 over the bodies `l`, from the text written so far and the cursor
`xtn.extnValue.value`; `oid_string = none` is the `NULL` of x509.h:1188. -/
def x509_cert.print_typed (oid_string : Option String) :
    List (String × (parser → outcome (String × parser))) → String × parser →
    outcome (String × parser)
  | [], s => outcome.done s
  | b :: l, s =>
    if oid_string = some b.1 then
      (b.2 s.2).bind (fun r => x509_cert.print_typed oid_string l (s.1 ++ r.1, r.2))
    else x509_cert.print_typed oid_string l s

/-- The `oid_string` of x509.h:1188-1193 for the entry `xtn`. -/
def extension.oid_string (env : asn1) (xtn : extension) : Option String :=
  if xtn.extnID.tag = tlv.OBJECT_IDENTIFIER then
    some (env.parser_get_oid_string xtn.extnID.value)
  else none

/-- The `critical_str` of x509.h:1189-1198 for the entry `xtn`. -/
def extension.critical_str (xtn : extension) : String :=
  if xtn.critical.tag = tlv.BOOLEAN then "true" else "false"

/-- The three writes of x509.h:1200-1202 for the entry `xtn`, without the leading
separator: the generic object.  `fprintf` is given `NULL` for `%s` when the extnID
is not an OBJECT IDENTIFIER; the text is the `(null)` that glibc writes. -/
def extension.generic_object (env : asn1) (xtn : extension) : String :=
  "\x7b\"" ++ (xtn.oid_string env).getD "(null)" ++ "\":\""
  ++ fprintf_raw_as_hex xtn.extnValue.value.bytes
  ++ "\",\"critical\":" ++ xtn.critical_str ++ "\x7d"

/-- The body of the loop of x509.h:1182-1257 for one entry, with the separator
`comma`: the text written to `stdout`, the separator for the next entry, and the
entry as the iteration leaves it. -/
def x509_cert.print_extension (env : asn1) (fuel : Nat) (comma : String)
    (xtn : Mercury.extension) : outcome (String × String × Mercury.extension) :=
  if xtn.sequence.is_constructed then
    (x509_cert.print_typed (xtn.oid_string env) (x509_cert.typed_bodies env fuel)
        (comma ++ xtn.generic_object env, xtn.extnValue.value)).bind
      (fun r => outcome.done
        (r.1, ",", { xtn with extnValue := { xtn.extnValue with value := r.2 } }))
  else outcome.done ("", comma, xtn)

/-- The loop of x509.h:1182-1257 over the extension list: the text written to
`stdout` and the list as the loop leaves it. -/
def x509_cert.print_extensions (env : asn1) (fuel : Nat) :
    String → List Mercury.extension → outcome (String × List Mercury.extension)
  | _, [] => outcome.done ("", [])
  | comma, xtn :: rest =>
    (x509_cert.print_extension env fuel comma xtn).bind (fun r =>
      (x509_cert.print_extensions env fuel r.2.1 rest).bind (fun rs =>
        outcome.done (r.1 ++ rs.1, r.2.2 :: rs.2)))

/-- The text written by one call of `x509_cert::print_as_json(f)`, stream by
stream: to the argument `f` and to `stdout`. -/
structure output where
  f : String
  stdout : String
deriving DecidableEq, Repr

/-- `x509_cert::print_as_json` (x509.h:1169-1268): the text written to each stream
and the certificate as the call leaves it.  `fuel` bounds the iterations of the
loop of `certificate_policies::print_as_json`. -/
def x509_cert.print_as_json (env : asn1) (fuel : Nat) (c : x509_cert) :
    outcome (output × x509_cert) :=
  (c.subjectPublicKeyInfo.print_as_json env "subject_public_key_info").bind (fun spki =>
    (if c.extension.length > 0 then
       (x509_cert.print_extensions env fuel "" c.extension).bind (fun r =>
         outcome.done (",\"extensions\":[" ++ r.1 ++ "]", r.2))
     else outcome.done ("", c.extension)).bind (fun exts =>
      outcome.done
        ({ f := "\x7b" ++ env.print_as_json_hex c.serial_number "serial_number" false
                ++ c.issuer.print_as_json env "issuer"
                ++ c.validity.print_as_json env
                ++ c.subject.print_as_json env "subject"
                ++ spki.1
                ++ ",\"signature_algorithm\":" ++ c.signature_algorithm.print_as_json env
                ++ ","
                ++ env.print_as_json_hex c.signature.remove_bitstring_encoding "signature" false
                ++ "\x7d\n",
           stdout := exts.1 },
         { c with subjectPublicKeyInfo := spki.2, extension := exts.2,
                  signature := c.signature.remove_bitstring_encoding })))

/-! ## A sample instance of the parameters -/

/-- Modelled from the spec: entries of the OID dictionary of section 4.3, DER content
bytes and symbolic name, for the names that `x509.h` compares with. -/
def oid_dictionary : List (List Nat × String) :=
  [([0x2b, 0x06, 0x01, 0x04, 0x01, 0xd6, 0x79, 0x02, 0x04, 0x02],
      "id-ce-SignedCertificateTimestampList"),
   ([0x55, 0x1d, 0x1e], "id-ce-nameConstraints"),
   ([0x55, 0x1d, 0x1f], "id-ce-cRLDistributionPoints"),
   ([0x55, 0x1d, 0x20], "id-ce-certificatePolicies"),
   ([0x55, 0x1d, 0x10], "id-ce-privateKeyUsagePeriod"),
   ([0x55, 0x1d, 0x13], "id-ce-basicConstraints"),
   ([0x55, 0x1d, 0x0f], "id-ce-keyUsage"),
   ([0x55, 0x1d, 0x25], "id-ce-extKeyUsage"),
   ([0x55, 0x1d, 0x11], "id-ce-subjectAltName"),
   ([0x55, 0x1d, 0x12], "id-ce-issuerAltName"),
   ([0x55, 0x1d, 0x23], "id-ce-authorityKeyIdentifier"),
   ([0x55, 0x1d, 0x0e], "id-ce-subjectKeyIdentifier"),
   ([0x2a, 0x86, 0x48, 0x86, 0xf7, 0x0d, 0x01, 0x01, 0x01], "rsaEncryption"),
   ([0x2a, 0x86, 0x48, 0x86, 0xf7, 0x0d, 0x01, 0x01, 0x0b], "sha256WithRSAEncryption"),
   ([0x2a, 0x86, 0x48, 0xce, 0x3d, 0x02, 0x01], "id-ecPublicKey"),
   ([0x55, 0x04, 0x03], "id-at-commonName"),
   ([0x2b, 0x06, 0x01, 0x05, 0x05, 0x07, 0x03, 0x01], "id-kp-serverAuth"),
   ([0x2a, 0x86, 0x48, 0xce, 0x3d, 0x03, 0x01, 0x01], "secp192r1"),
   ([0x2b, 0x81, 0x04, 0x00, 0x21], "secp224r1"),
   ([0x2a, 0x86, 0x48, 0xce, 0x3d, 0x03, 0x01, 0x07], "prime256v1")]

/-- Modelled from the spec: lookup "by exact byte equality; unknown OIDs return the
sentinel unknown_oid" (section 4.3). -/
def oid_lookup (bytes : List Nat) : List (List Nat × String) → String
  | [] => "unknown_oid"
  | e :: rest => if e.1 = bytes then e.2 else oid_lookup bytes rest

/-- Modelled from the spec: `tlv::print_as_json_hex(f, label, comma)`, the value as a
hex string under the key `label` (section 4.4; the form `"serial_number":"…"` of
section 6). -/
def sample_hex (t : tlv) (label : String) (comma : Bool) : String :=
  (if comma then "," else "") ++ "\"" ++ label ++ "\":\"" ++ fprintf_raw_as_hex t.value.bytes
  ++ "\""

/-- A number that stands for the address of the string with the text `s` when equal
texts are one object: the characters of `s` as the digits of a number. -/
def string_address (s : String) : Nat :=
  s.data.foldl (fun a c => a * 256 + c.toNat) 1

/-- Modelled from the spec: an instance of the parameters `asn1` for evaluating the
embedding on concrete inputs.  The dictionary is `oid_dictionary` and
`print_as_json_hex` is `sample_hex`; the renderers of the other types are stand-ins
that write the value as hex as well.  A name that the dictionary returns and the
string literal of `x509.h` with the same text are one object ("a known symbolic name
string (stable, literal) or a sentinel ... which callers detect by
reference-equality", section 3).  No statement about all inputs depends on it. -/
def asn1.sample : asn1 :=
  { parser_get_oid_string := fun p => oid_lookup p.bytes oid_dictionary,
    oid_string_address := fun p => string_address (oid_lookup p.bytes oid_dictionary),
    literal_address := string_address,
    print_as_json_hex := sample_hex,
    print_as_json_escaped_string := fun t label => sample_hex t label false,
    print_as_json_oid := fun t label => sample_hex t label false,
    print_as_json := fun t label => sample_hex t label false,
    print_as_json_generalized_time := fun t label => sample_hex t label false,
    print_as_json_ip_address := fun t label => sample_hex t label false,
    print_as_json_bitstring_flags := fun t label _ => sample_hex t label false }

/-! ## Sample inputs -/

/-- A certificate without extensions: version 3, serial number 5, issuer and
subject CN=a, an RSA key, then the outer signatureAlgorithm and a signature BIT
STRING with the content `00 aa bb`. -/
def cert_no_extensions : List Nat :=
  [48, 127, 48, 107, 160, 3, 2, 1, 2, 2, 1, 5, 48, 11, 6, 9, 42, 134, 72, 134, 247, 13, 1, 1,
   11, 48, 12, 49, 10, 48, 8, 6, 3, 85, 4, 3, 19, 1, 97, 48, 30, 23, 13, 50, 48, 48, 49, 48,
   49, 48, 48, 48, 48, 48, 48, 90, 23, 13, 50, 49, 48, 49, 48, 49, 48, 48, 48, 48, 48, 48, 90,
   48, 12, 49, 10, 48, 8, 6, 3, 85, 4, 3, 19, 1, 97, 48, 24, 48, 11, 6, 9, 42, 134, 72, 134,
   247, 13, 1, 1, 1, 3, 9, 0, 48, 6, 2, 1, 7, 2, 1, 3, 48, 11, 6, 9, 42, 134, 72, 134, 247,
   13, 1, 1, 11, 3, 3, 0, 170, 187]

/-- The certificate `cert_no_extensions` with one extension in a [3] EXPLICIT
element: basicConstraints (`55 1d 13`), critical BOOLEAN with the value byte `00`,
extnValue `30 03 01 01 ff`. -/
def cert_basic_constraints : List Nat :=
  [48, 129, 149, 48, 129, 128, 160, 3, 2, 1, 2, 2, 1, 5, 48, 11, 6, 9, 42, 134, 72, 134, 247,
   13, 1, 1, 11, 48, 12, 49, 10, 48, 8, 6, 3, 85, 4, 3, 19, 1, 97, 48, 30, 23, 13, 50, 48, 48,
   49, 48, 49, 48, 48, 48, 48, 48, 48, 90, 23, 13, 50, 49, 48, 49, 48, 49, 48, 48, 48, 48, 48,
   48, 90, 48, 12, 49, 10, 48, 8, 6, 3, 85, 4, 3, 19, 1, 97, 48, 24, 48, 11, 6, 9, 42, 134,
   72, 134, 247, 13, 1, 1, 1, 3, 9, 0, 48, 6, 2, 1, 7, 2, 1, 3, 163, 19, 48, 17, 48, 15, 6, 3,
   85, 29, 19, 1, 1, 0, 4, 5, 48, 3, 1, 1, 255, 48, 11, 6, 9, 42, 134, 72, 134, 247, 13, 1, 1,
   11, 3, 3, 0, 170, 187]

/-- The certificate `cert_no_extensions` with one extension in a [3] EXPLICIT
element: certificatePolicies (`55 1d 20`), extnValue `30 02 05 00`, a SEQUENCE that
holds a NULL element where a PolicyInformation SEQUENCE is expected. -/
def cert_policies_null : List Nat :=
  [48, 129, 144, 48, 124, 160, 3, 2, 1, 2, 2, 1, 5, 48, 11, 6, 9, 42, 134, 72, 134, 247, 13,
   1, 1, 11, 48, 12, 49, 10, 48, 8, 6, 3, 85, 4, 3, 19, 1, 97, 48, 30, 23, 13, 50, 48, 48, 49,
   48, 49, 48, 48, 48, 48, 48, 48, 90, 23, 13, 50, 49, 48, 49, 48, 49, 48, 48, 48, 48, 48, 48,
   90, 48, 12, 49, 10, 48, 8, 6, 3, 85, 4, 3, 19, 1, 97, 48, 24, 48, 11, 6, 9, 42, 134, 72,
   134, 247, 13, 1, 1, 1, 3, 9, 0, 48, 6, 2, 1, 7, 2, 1, 3, 163, 15, 48, 13, 48, 11, 6, 3, 85,
   29, 32, 4, 4, 48, 2, 5, 0, 48, 11, 6, 9, 42, 134, 72, 134, 247, 13, 1, 1, 11, 3, 3, 0, 170,
   187]

/-- The entry `y` is the entry `x` up to the cursor of its extnValue. -/
def extension.same_but_cursor (x y : extension) : Prop :=
  y.sequence = x.sequence ∧ y.extnID = x.extnID ∧ y.critical = x.critical
  ∧ y.extnValue.tag = x.extnValue.tag ∧ y.extnValue.length = x.extnValue.length

/-- The result of a rendering that ran to its last write. -/
def outcome.result {α : Type} : outcome α → Option α
  | outcome.done a => some a
  | outcome.fault => none
  | outcome.spin => none

/-! ## DER encoding of elements, for statements about well-formed input -/

/-- The length octets of a DER element with `n` content bytes: the short form below
128, else the long form with the fewest octets (section 4.2, read as an encoder). -/
def der_length (n : Nat) : List Nat :=
  if n < 128 then [n]
  else if n < 256 then [0x81, n]
  else if n < 65536 then [0x82, n / 256, n % 256]
  else if n < 16777216 then [0x83, n / 65536, n / 256 % 256, n % 256]
  else [0x84, n / 16777216, n / 65536 % 256, n / 256 % 256, n % 256]

/-- The DER encoding of one element: tag octet, length octets, content. -/
def der_element (tag : Nat) (content : List Nat) : List Nat :=
  tag :: (der_length content.length ++ content)

/-- The DER encoding of a sequence of elements `(tag, content)`, one after the other. -/
def der_elements : List (Nat × List Nat) → List Nat
  | [] => []
  | e :: rest => der_element e.1 e.2 ++ der_elements rest

/-- The entries that the elements `es`, encoded from offset `pos` on, stand for: each
is the entry that `x509_cert.parse_extension` builds from that element alone. -/
def extension_entries : Nat → List (Nat × List Nat) → List extension
  | _, [] => []
  | pos, e :: rest =>
    (x509_cert.parse_extension ⟨false, pos, der_element e.1 e.2⟩).1
      :: extension_entries (pos + (der_element e.1 e.2).length) rest

/-- The texts `(object, body)` written one after the other, the first after the
separator `comma` and every later one after `","`. -/
def separated : String → List (String × String) → String
  | _, [] => ""
  | comma, e :: rest => comma ++ e.1 ++ e.2 ++ separated "," rest

/-! ## Names and lists of elements, for statements about well-formed input -/

/-- The entries that the elements `es`, encoded from offset `pos` on, stand for: each
is the entry that `name.parse_rdn` builds from that element alone. -/
def rdn_entries : Nat → List (Nat × List Nat) → List Attribute
  | _, [] => []
  | pos, e :: rest =>
    (name.parse_rdn ⟨false, pos, der_element e.1 e.2⟩).1
      :: rdn_entries (pos + (der_element e.1 e.2).length) rest

/-- The texts one after the other, with a comma between two of them. -/
def comma_separated : List String → String
  | [] => ""
  | [a] => a
  | a :: b :: rest => a ++ "," ++ comma_separated (b :: rest)

/-- The certificate `cert_no_extensions` without the [0] EXPLICIT version element
and with the serial number INTEGER `02 01 00`, followed directly by the
AlgorithmIdentifier. -/
def cert_serial_zero : List Nat :=
  [48, 122, 48, 102, 2, 1, 0, 48, 11, 6, 9, 42, 134, 72, 134, 247, 13, 1, 1, 11, 48, 12, 49,
   10, 48, 8, 6, 3, 85, 4, 3, 19, 1, 97, 48, 30, 23, 13, 50, 48, 48, 49, 48, 49, 48, 48, 48,
   48, 48, 48, 90, 23, 13, 50, 49, 48, 49, 48, 49, 48, 48, 48, 48, 48, 48, 90, 48, 12, 49, 10,
   48, 8, 6, 3, 85, 4, 3, 19, 1, 97, 48, 24, 48, 11, 6, 9, 42, 134, 72, 134, 247, 13, 1, 1, 1,
   3, 9, 0, 48, 6, 2, 1, 7, 2, 1, 3, 48, 11, 6, 9, 42, 134, 72, 134, 247, 13, 1, 1, 11, 3, 3,
   0, 170, 187]

/-- A Name with one RDN SET that holds two AttributeTypeAndValue SEQUENCEs:
`55 04 03` (commonName) with the value `a`, and `55 04 0a` (organizationName) with
the value `b`. -/
def name_multi_valued : List Nat :=
  [48, 22, 49, 20, 48, 8, 6, 3, 85, 4, 3, 19, 1, 97, 48, 8, 6, 3, 85, 4, 10, 19, 1, 98]

/-- A SubjectPublicKeyInfo with the algorithm id-ecPublicKey, the parameters
prime256v1 and the BIT STRING content `00 04 11 22 33 44 55 66`: no unused bits, then
the point bytes `04 11 22 33 44 55 66`. -/
def spki_ec : List Nat :=
  [48, 31, 48, 19, 6, 7, 42, 134, 72, 206, 61, 2, 1, 6, 8, 42, 134, 72, 206, 61, 3, 1, 7, 3,
   8, 0, 4, 17, 34, 51, 68, 85, 102]

/-- The texts that `general_name::print_as_json` writes for the elements `es`,
encoded from offset `pos` on: each is rendered from the GeneralName whose
`explicit_tag` has the tag, the length and the content of that element. -/
def general_names (env : asn1) : Nat → List (Nat × List Nat) → List String
  | _, [] => []
  | pos, e :: rest =>
    (general_name.print_as_json env
        ⟨⟨e.1, e.2.length, ⟨false, pos + 1 + (der_length e.2.length).length, e.2⟩⟩⟩).1
      :: general_names env (pos + (der_element e.1 e.2).length) rest

/-- What a TLV holds, apart from the offset of its value in the input: tag, length,
whether it is null, and the bytes of the value. -/
def tlv.content (t : tlv) : Nat × Nat × Bool × List Nat :=
  (t.tag, t.length, t.value.null, t.value.bytes)

/-- What an extension entry holds, apart from offsets in the input. -/
def extension.content (e : extension) :
    (Nat × Nat × Bool × List Nat) × (Nat × Nat × Bool × List Nat)
      × (Nat × Nat × Bool × List Nat) × (Nat × Nat × Bool × List Nat) :=
  (e.sequence.content, e.extnID.content, e.critical.content, e.extnValue.content)

/-- The certificate `cert_basic_constraints` with its extensions SEQUENCE bare after
the SubjectPublicKeyInfo, without the [3] EXPLICIT element around it. -/
def cert_bare_extensions : List Nat :=
  [48, 129, 146, 48, 126, 160, 3, 2, 1, 2, 2, 1, 5, 48, 11, 6, 9, 42, 134, 72, 134, 247, 13,
   1, 1, 11, 48, 12, 49, 10, 48, 8, 6, 3, 85, 4, 3, 19, 1, 97, 48, 30, 23, 13, 50, 48, 48, 49,
   48, 49, 48, 48, 48, 48, 48, 48, 90, 23, 13, 50, 49, 48, 49, 48, 49, 48, 48, 48, 48, 48, 48,
   90, 48, 12, 49, 10, 48, 8, 6, 3, 85, 4, 3, 19, 1, 97, 48, 24, 48, 11, 6, 9, 42, 134, 72,
   134, 247, 13, 1, 1, 1, 3, 9, 0, 48, 6, 2, 1, 7, 2, 1, 3, 48, 17, 48, 15, 6, 3, 85, 29, 19,
   1, 1, 0, 4, 5, 48, 3, 1, 1, 255, 48, 11, 6, 9, 42, 134, 72, 134, 247, 13, 1, 1, 11, 3, 3,
   0, 170, 187]



/-! ## The weakness classifier (`x509_cert::is_weak`) -/

/-- The string literals of the set `weak_parameters` of `x509_cert::is_weak`
(x509.h:1274-1283). -/
def x509_cert.weak_parameters : List String :=
  ["secp192r1", "secp224r1", "prime192v1", "prime192v2", "prime192v3", "prime239v1",
   "prime239v2", "prime239v3"]

/-- `x509_cert::is_weak` (x509.h:1270-1289).  `strcmp` on the `NULL` that `type()`
returns for a null algorithm is the `fault`.  The set holds `const char *`, the
addresses of its eight literals, and `find` compares addresses; the `NULL` that
`get_parameters()` returns for null parameters (`none`) is not in the set. -/
def x509_cert.is_weak (env : asn1) (c : x509_cert) : outcome Bool :=
  match c.subjectPublicKeyInfo.algorithm.type env with
  | none => outcome.fault
  | some alg_type =>
    if alg_type = "id-ecPublicKey" then
      if c.subjectPublicKeyInfo.algorithm.get_parameters env
          ∈ x509_cert.weak_parameters.map (fun s => some (env.literal_address s)) then
        outcome.done true
      else outcome.done false
    else outcome.done false

/-- The constructor of `struct constructed_tlv`, a TLV that is handed on as the cursor
over its value.  The struct is declared in `asn1.h`, which is not at hand, and the
specification does not describe it: `x509_cert_prefix.parse_by` has the constructor
as a parameter, and here it is taken to decode one element as `tlv::parse` does. -/
def constructed_tlv (p : parser) (expected_tag : Nat) : tlv × parser :=
  tlv.parse p expected_tag

/-- `struct x509_cert_prefix` (x509.h:1292-1295).  A pointer into the input is its
offset from the start of the input, and `none` is `NULL`. -/
structure x509_cert_prefix where
  serial_number : tlv
  issuer : tlv
  data : Option Nat
  data_end : Option Nat
deriving DecidableEq, Repr

/-- `x509_cert_prefix::x509_cert_prefix()` (x509.h:1297). -/
def x509_cert_prefix.empty : x509_cert_prefix := ⟨tlv.null, tlv.null, none, none⟩

/-- `x509_cert_prefix::parse` (x509.h:1303-1341) on a default-constructed prefix,
statement by statement, with the constructor of `struct constructed_tlv` as the
parameter `decode`: from a cursor and an expected tag it gives the element and the
advanced cursor, and the element is handed on as the cursor over its value.  The
local `version` is not kept. -/
def x509_cert_prefix.parse_by (decode : parser → Nat → tlv × parser) (buffer : List Nat) :
    x509_cert_prefix :=
  let certificate := decode (parser_init buffer) tlv.SEQUENCE
  let tbs_certificate := decode certificate.1.value tlv.SEQUENCE
  let explicitly_tagged_version :=
    decode tbs_certificate.1.value (tlv.explicit_tag_constructed 0)
  let first : tlv × parser :=
    if explicitly_tagged_version.1.is_not_null then (tlv.null, explicitly_tagged_version.2)
    else
      let version_or_serial_number := tlv.parse explicitly_tagged_version.2 tlv.INTEGER
      if version_or_serial_number.1.length = 1
          ∧ version_or_serial_number.1.value.bytes.headD 0 < 3 then
        (tlv.null, version_or_serial_number.2)
      else (version_or_serial_number.1, version_or_serial_number.2)
  let serial_number : tlv × parser :=
    if first.1.is_null then tlv.parse first.2 tlv.INTEGER else first
  let algorithm_identifier := tlv.parse serial_number.2 0
  let issuer := tlv.parse algorithm_identifier.2 0
  if issuer.1.is_not_null then
    { serial_number := serial_number.1, issuer := issuer.1, data := some 0,
      data_end := some issuer.2.pos }
  else
    { serial_number := serial_number.1, issuer := issuer.1, data := none, data_end := none }

/-- `x509_cert_prefix::parse` (x509.h:1303-1341) with `constructed_tlv` for the
constructor. -/
def x509_cert_prefix.parse (buffer : List Nat) : x509_cert_prefix :=
  x509_cert_prefix.parse_by constructed_tlv buffer

/-- `x509_cert_prefix::get_length` (x509.h:1343-1348); the difference of two
pointers is the difference of their offsets. -/
def x509_cert_prefix.get_length (c : x509_cert_prefix) : Nat :=
  if c.issuer.is_null then 0 else c.data_end.getD 0 - c.data.getD 0

/-- `x509_cert_prefix::print_as_json_hex` (x509.h:1358-1364); `buffer` is the input
that `data` and `data_end` point into. -/
def x509_cert_prefix.print_as_json_hex (buffer : List Nat) (c : x509_cert_prefix) : String :=
  "\x7b\"cert_prefix\":\""
  ++ (match c.data, c.data_end with
      | some d, some e => fprintf_raw_as_hex ((buffer.drop d).take (e - d))
      | _, _ => "")
  ++ "\"\x7d\n"

/-- The offset of the end of a cursor from the start of the input. -/
def parser.data_end (p : parser) : Nat := p.pos + p.bytes.length

/-- The tag and length octets at the start of `bytes` as `tlv.parse` reads them: the
number of octets of the header and the decoded length, or `none` where `tlv.parse`
fails before it looks at the value. -/
def tlv.header (bytes : List Nat) : Option (Nat × Nat) :=
  match bytes with
  | _ :: l :: rest2 =>
    if l < 128 then some (2, l)
    else if l = 128 then none
    else if 4 < l % 128 then none
    else if rest2.length < l % 128 then none
    else some (2 + l % 128, be_uint (rest2.take (l % 128)))
  | _ => none

/-- The steps of x509.h:1332-1335 from the cursor of `tbs_certificate` after the
serial number: `algorithm_identifier` and then `issuer`, each decoded without an
expected tag.  The issuer and the cursor after it. -/
def x509_cert_prefix.issuer_step (tv : parser) : tlv × parser :=
  tlv.parse (tlv.parse (x509_cert.parse_version tv).2.2.2 0).2 0

/-! ## Counting the elements of an array text -/

/-- The number of commas of a JSON text at nesting depth 1 and outside strings:
`depth` counts the open brackets and braces, `in_string` tells that a string is open
and `escaped` that the last character was a backslash inside a string. -/
def json_commas : List Char → Nat → Bool → Bool → Nat
  | [], _, _, _ => 0
  | c :: rest, depth, in_string, escaped =>
    if escaped then json_commas rest depth in_string false
    else if in_string then
      if c.toNat = 92 then json_commas rest depth true true
      else if c.toNat = 34 then json_commas rest depth false false
      else json_commas rest depth true false
    else if c.toNat = 34 then json_commas rest depth true false
    else if c.toNat = 91 ∨ c.toNat = 123 then json_commas rest (depth + 1) false false
    else if c.toNat = 93 ∨ c.toNat = 125 then json_commas rest (depth - 1) false false
    else if c.toNat = 44 ∧ depth = 1 then 1 + json_commas rest depth false false
    else json_commas rest depth false false

/-- The number of elements of a JSON array text: none for the empty array, else one
more than the commas between its elements. -/
def json_array_size (text : List Char) : Nat :=
  match text with
  | a :: b :: _ =>
    if a.toNat = 91 ∧ b.toNat = 93 then 0 else 1 + json_commas text 0 false false
  | _ => 0

/-- The certificate `cert_no_extensions` with two extensions in a [3] EXPLICIT
element: basicConstraints (`55 1d 13`), critical, extnValue `30 03 01 01 ff`, and
the OID `2a 03 04`, which the dictionary does not hold, with the extnValue `05 00`. -/
def cert_two_extensions : List Nat :=
  [48, 129, 160, 48, 129, 139, 160, 3, 2, 1, 2, 2, 1, 5, 48, 11, 6, 9, 42, 134, 72, 134, 247,
   13, 1, 1, 11, 48, 12, 49, 10, 48, 8, 6, 3, 85, 4, 3, 19, 1, 97, 48, 30, 23, 13, 50, 48, 48,
   49, 48, 49, 48, 48, 48, 48, 48, 48, 90, 23, 13, 50, 49, 48, 49, 48, 49, 48, 48, 48, 48, 48,
   48, 90, 48, 12, 49, 10, 48, 8, 6, 3, 85, 4, 3, 19, 1, 97, 48, 24, 48, 11, 6, 9, 42, 134,
   72, 134, 247, 13, 1, 1, 1, 3, 9, 0, 48, 6, 2, 1, 7, 2, 1, 3, 163, 30, 48, 28, 48, 15, 6, 3,
   85, 29, 19, 1, 1, 255, 4, 5, 48, 3, 1, 1, 255, 48, 9, 6, 3, 42, 3, 4, 4, 2, 5, 0, 48, 11,
   6, 9, 42, 134, 72, 134, 247, 13, 1, 1, 11, 3, 3, 0, 170, 187]

/-- What `x509_cert::print_as_json` writes after the generic object of the entry
`x`: nothing when the extnID resolves to none of the typed names, and a text that
opens an object of its own after a comma when it resolves to one of them. -/
def extension.typed_text (env : asn1) (fuel : Nat) (x : extension) (t : String) : Prop :=
  ((∀ b ∈ x509_cert.typed_bodies env fuel, x.oid_string env ≠ some b.1) → t = "")
  ∧ ((∃ b ∈ x509_cert.typed_bodies env fuel, x.oid_string env = some b.1) →
      ∃ rest : String, t = ",\x7b" ++ rest)

/-! ## Sample inputs for the attribute, BasicConstraints and AuthorityKeyIdentifier -/

/-- A BasicConstraints value `30 06 01 01 ff 02 01 05`: cA TRUE and
pathLenConstraint 5. -/
def basic_constraints_path_len_5 : List Nat := [48, 6, 1, 1, 255, 2, 1, 5]

/-- An AuthorityKeyIdentifier value `30 0c 80 02 aa bb a1 06 82 04 61 2e 62 63`: the
keyIdentifier `aa bb` and an authorityCertIssuer with the dNSName `a.bc`. -/
def aki_with_issuer : List Nat := [48, 12, 128, 2, 170, 187, 161, 6, 130, 4, 97, 46, 98, 99]

/-- A DistributionPoint `30 12 a0 07 a0 05 86 03 61 62 63 a0 07 a0 05 86 03 64 65 66`
whose content holds two [0] elements, each with a fullName that is one URI (`abc`,
then `def`). -/
def distribution_point_two_names : List Nat :=
  [48, 18, 160, 7, 160, 5, 134, 3, 97, 98, 99, 160, 7, 160, 5, 134, 3, 100, 101, 102]

/-! ## NameConstraints values that differ in excludedSubtrees -/

/-- The renderers of one TLV write what the TLV holds: two TLVs with the same tag,
length and value bytes are written alike, at whatever offsets of the input their
values lie. -/
def asn1.reads_content (env : asn1) : Prop :=
  ∀ (s t : tlv) (label : String), s.content = t.content →
    (∀ comma : Bool, env.print_as_json_hex s label comma = env.print_as_json_hex t label comma)
    ∧ env.print_as_json_escaped_string s label = env.print_as_json_escaped_string t label
    ∧ env.print_as_json_oid s label = env.print_as_json_oid t label
    ∧ env.print_as_json_ip_address s label = env.print_as_json_ip_address t label

/-- What `permitted_subtrees` holds after the loop of the constructor of
`name_constraints` has run over the elements `es`, when it held `c` before: the
last element with the tag 0xa0, if there is one. -/
def name_constraints.permitted_of :
    List (Nat × List Nat) → Nat × Nat × Bool × List Nat → Nat × Nat × Bool × List Nat
  | [], c => c
  | e :: rest, c =>
    name_constraints.permitted_of rest (if e.1 = 0xa0 then (e.1, e.2.length, false, e.2) else c)

/-- A permittedSubtrees content `30 06 82 04 61 2e 62 63`: one GeneralSubtree with
the dNSName `a.bc` as base. -/
def permitted_a_bc : List Nat := [48, 6, 130, 4, 97, 46, 98, 99]

/-- An excludedSubtrees content `30 05 82 03 78 2e 79`: one GeneralSubtree with the
dNSName `x.y` as base. -/
def excluded_x_y : List Nat := [48, 5, 130, 3, 120, 46, 121]

/-- An excludedSubtrees content `30 0a 82 08 6c 6f 6e 67 2e 65 78 74`: one
GeneralSubtree with the dNSName `long.ext` as base. -/
def excluded_long_ext : List Nat := [48, 10, 130, 8, 108, 111, 110, 103, 46, 101, 120, 116]

/-! ## The command line (`mercury.c`) -/

/-- `EXIT_SUCCESS` of `stdlib.h`. -/
def EXIT_SUCCESS : Int := 0

/-- `EXIT_FAILURE` of `stdlib.h`. -/
def EXIT_FAILURE : Int := 1

/-- `O_TRUNC` of `fcntl.h` (Linux). -/
def O_TRUNC : Int := 512

/-- The fields of `struct mercury_config` that `main` reads or writes
(mercury.c:199-521).  The struct is declared in `mercury.h`: a `char *` is `none`
when it is `NULL`, an integer field is an `Int`, and the `float` `buffer_fraction` is
kept as the text that `strtof` converted (`none` before any conversion).
`num_threads` and `loop_count` are written with `%d` (mercury.c:495, 519): they are
`int`, and a `long` assigned to them is converted (`long_to_int`).  The type of
`rotate` does not show in `mercury.c`; it holds the value of `strtol` as it is. -/
structure mercury_config where
  read_filename : Option String
  write_filename : Option String
  working_dir : Option String
  capture_interface : Option String
  fingerprint_filename : Option String
  analysis : Bool
  flags : Int
  mode : Option String
  packet_filter_cfg : Option String
  filter : Int
  use_test_packet : Int
  num_threads : Int
  rotate : Int
  loop_count : Int
  adaptive : Int
  user : Option String
  buffer_fraction : Option String
  verbosity : Int
  resources : Option String
  output_block : Bool
deriving DecidableEq, Repr

/-- The fields of `global_vars` (defined in `config.c`) that `main` writes. -/
structure global_variables where
  dns_json_output : Bool
  certs_json_output : Bool
  metadata_output : Bool
  output_tcp_initial_data : Bool
  output_udp_initial_data : Bool
  do_analysis : Bool
deriving DecidableEq, Repr

/-- What `main` uses and `mercury.c` does not define, taken as parameters: the value
of `mercury_config_init()` and the initial `global_vars`, the configuration that
`mercury_config_read_from_file(&cfg, name)` leaves, the value of `analysis_init`,
`strtol(s, NULL, 10)` as its value and whether `errno` is set after the call,
`strtof(s, NULL)` as whether `errno` is set after the call and whether the value is
below 0.0 or above 1.0, and the value of `std::thread::hardware_concurrency()`. -/
structure runtime where
  mercury_config_init : mercury_config
  global_vars : global_variables
  mercury_config_read_from_file : mercury_config → String → mercury_config
  analysis_init : Int → Option String → Int
  strtol : String → Int × Bool
  strtof_errno : String → Bool
  strtof_outside : String → Bool
  hardware_concurrency : Int

/-- How the part of `main` that is embedded ends: `usage` was called, which prints
the error text, if any, and the help, and calls `exit(EXIT_FAILURE)`
(mercury.c:176-185); `main` returned a status; or `main` goes on with the
configuration `cfg` and the globals `global_vars`. -/
inductive main_result where
  | usage (err_string : Option String) (extended_help : Bool)
  | returns (status : Int)
  | continues (cfg : mercury_config) (global_vars : global_variables)
deriving DecidableEq, Repr

/-- The status that the process ends with, if it ends here. -/
def main_result.exit_status : main_result → Option Int
  | main_result.usage _ _ => some EXIT_FAILURE
  | main_result.returns status => some status
  | main_result.continues _ _ => none

/-- The conversion of a `long` to a 32-bit `int` as GCC defines it: the value
modulo 2^32 in the range of `int`. -/
def long_to_int (v : Int) : Int := (v + 2147483648) % 4294967296 - 2147483648

/-- `option_is_valid` (mercury.c:187-195). -/
def option_is_valid (opt : Option String) : Bool :=
  match opt with
  | none => false
  | some s => if s.data.head? = some '-' then false else true

/-- The value that `getopt_long` returns for the short option `c`. -/
def chr (c : Char) : Int := c.toNat

/-- `enum opt` (mercury.c:203): `config`. -/
def opt.config : Int := 1
/-- `enum opt` (mercury.c:203): `version`. -/
def opt.version : Int := 2
/-- `enum opt` (mercury.c:203): `license`. -/
def opt.license : Int := 3
/-- `enum opt` (mercury.c:203): `dns_json`. -/
def opt.dns_json : Int := 4
/-- `enum opt` (mercury.c:203): `certs_json`. -/
def opt.certs_json : Int := 5
/-- `enum opt` (mercury.c:203): `metadata`. -/
def opt.metadata : Int := 6
/-- `enum opt` (mercury.c:203): `resources`. -/
def opt.resources : Int := 7
/-- `enum opt` (mercury.c:203): `tcp_init_data`. -/
def opt.tcp_init_data : Int := 8
/-- `enum opt` (mercury.c:203): `udp_init_data`. -/
def opt.udp_init_data : Int := 9

/-- The `switch` of `main` (mercury.c:234-456) for one result `c` of `getopt_long`
with the argument `optarg`.  Texts written with `printf` are left out. -/
def main.option (env : runtime) (cfg : mercury_config) (g : global_variables) (c : Int)
    (optarg : Option String) : main_result :=
  if c = opt.config then
    if option_is_valid optarg then
      main_result.continues (env.mercury_config_read_from_file cfg (optarg.getD "")) g
    else main_result.usage (some "option config requires filename argument") false
  else if c = opt.resources then
    if option_is_valid optarg then main_result.continues { cfg with resources := optarg } g
    else main_result.usage (some "option resources requires directory argument") false
  else if c = opt.version then main_result.returns EXIT_SUCCESS
  else if c = opt.license then main_result.returns EXIT_SUCCESS
  else if c = opt.dns_json then
    if optarg.isSome then
      main_result.usage (some "option dns-json does not use an argument") false
    else main_result.continues cfg { g with dns_json_output := true }
  else if c = opt.certs_json then
    if optarg.isSome then
      main_result.usage (some "option certs-json does not use an argument") false
    else main_result.continues cfg { g with certs_json_output := true }
  else if c = opt.metadata then
    if optarg.isSome then
      main_result.usage (some "option metadata does not use an argument") false
    else main_result.continues cfg { g with metadata_output := true }
  else if c = opt.tcp_init_data then
    if optarg.isSome then
      main_result.usage (some "option nonselected-tcp-data does not use an argument") false
    else main_result.continues cfg { g with output_tcp_initial_data := true }
  else if c = opt.udp_init_data then
    if optarg.isSome then
      main_result.usage (some "option nonselected-udp-data does not use an argument") false
    else main_result.continues cfg { g with output_udp_initial_data := true }
  else if c = chr 'r' then
    if option_is_valid optarg then main_result.continues { cfg with read_filename := optarg } g
    else main_result.usage (some "option r or read requires filename argument") false
  else if c = chr 'w' then
    if option_is_valid optarg then main_result.continues { cfg with write_filename := optarg } g
    else main_result.usage (some "option w or write requires filename argument") false
  else if c = chr 'd' then
    if option_is_valid optarg then main_result.continues { cfg with working_dir := optarg } g
    else
      main_result.usage (some "option d or directory requires working directory argument") false
  else if c = chr 'c' then
    if option_is_valid optarg then
      main_result.continues { cfg with capture_interface := optarg } g
    else main_result.usage (some "option c or capture requires interface argument") false
  else if c = chr 'f' then
    if option_is_valid optarg then
      main_result.continues { cfg with fingerprint_filename := optarg } g
    else main_result.usage (some "option f or fingerprint requires filename argument") false
  else if c = chr 'a' then
    if optarg.isSome then
      main_result.usage (some "option a or analysis does not use an argument") false
    else main_result.continues { cfg with analysis := true } g
  else if c = chr 'o' then
    if optarg.isSome then
      main_result.usage (some "option o or overwrite does not use an argument") false
    else main_result.continues { cfg with flags := O_TRUNC, mode := some "w" } g
  else if c = chr 's' then
    if optarg.isSome then
      if cfg.packet_filter_cfg ≠ none then
        main_result.usage (some "option s or select used more than once") false
      else if option_is_valid optarg then
        main_result.continues { cfg with packet_filter_cfg := optarg, filter := 1 } g
      else
        main_result.usage
          (some "option s or select has the form -s\"filter\" or --select=\"filter\"") false
    else main_result.continues { cfg with filter := 1 } g
  else if c = chr 'h' then
    if optarg.isSome then
      main_result.usage (some "option h or help does not use an argument") true
    else main_result.usage none true
  else if c = chr 'T' then
    if optarg.isSome then
      main_result.usage (some "option T or test does not use an argument") false
    else main_result.continues { cfg with use_test_packet := 1 } g
  else if c = chr 't' then
    if option_is_valid optarg then
      if optarg = some "cpu" then main_result.continues { cfg with num_threads := -1 } g
      else if long_to_int (env.strtol (optarg.getD "")).1 = 0
          ∨ (env.strtol (optarg.getD "")).2 = true then
        main_result.usage (some "option t or threads requires a numeric argument") false
      else
        main_result.continues
          { cfg with num_threads := long_to_int (env.strtol (optarg.getD "")).1 } g
    else main_result.usage (some "option t or threads requires a numeric argument") false
  else if c = chr 'l' then
    if option_is_valid optarg then
      main_result.continues { cfg with rotate := (env.strtol (optarg.getD "")).1 } g
    else main_result.usage (some "option l or limit requires a numeric argument") false
  else if c = chr 'p' then
    if option_is_valid optarg then
      main_result.continues
        { cfg with loop_count := long_to_int (env.strtol (optarg.getD "")).1 } g
    else main_result.usage (some "option p or loop requires a numeric argument") false
  else if c = 0 then
    if optarg.isSome then
      main_result.usage (some "option --adaptive does not use an argument") false
    else main_result.continues { cfg with adaptive := 1 } g
  else if c = chr 'u' then
    if option_is_valid optarg then main_result.continues { cfg with user := optarg } g
    else main_result.usage (some "option u or user requires an argument") false
  else if c = chr 'b' then
    if option_is_valid optarg then
      if env.strtof_errno (optarg.getD "") = true then main_result.usage none false
      else if env.strtof_outside (optarg.getD "") = true then
        main_result.usage (some "buffer fraction must be between 0.0 and 1.0 inclusive") false
      else main_result.continues { cfg with buffer_fraction := optarg } g
    else main_result.usage (some "option b or buffer requires a numeric argument") false
  else if c = chr 'v' then
    if optarg.isSome then
      main_result.usage (some "option v or verbose does not use an argument") false
    else main_result.continues { cfg with verbosity := 1 } g
  else main_result.usage none false

/-- The loop of `main` (mercury.c:201-457) over the successive results `(c, optarg)`
of `getopt_long`; a negative `c`, or the end of the list, ends the loop. -/
def main.options (env : runtime) :
    List (Int × Option String) → mercury_config → global_variables → main_result
  | [], cfg, g => main_result.continues cfg g
  | o :: rest, cfg, g =>
    if o.1 < 0 then main_result.continues cfg g
    else
      match main.option env cfg g o.1 o.2 with
      | main_result.continues cfg1 g1 => main.options env rest cfg1 g1
      | r => r

/-- The step of mercury.c:466-468: without a file to read and without an interface to
capture from, the input is standard input. -/
def main.input_source (cfg : mercury_config) : mercury_config :=
  if cfg.read_filename = none ∧ cfg.capture_interface = none then
    { cfg with read_filename := some "-" }
  else cfg

/-- The step of mercury.c:476-478: blocking output when a file is read. -/
def main.output_block (cfg : mercury_config) : mercury_config :=
  if cfg.read_filename ≠ none then { cfg with output_block := true } else cfg

/-- The tests of `main` after the loop (mercury.c:458-505); `unused` holds the
arguments `argv[optind]` and following, so `optind < argc` is `unused ≠ []`.  The
call `set_percent_accept(30)` does not touch the configuration. -/
def main.validate (env : runtime) (cfg : mercury_config) (g : global_variables)
    (unused : List String) : main_result :=
  if unused ≠ [] then main_result.usage (some "unrecognized options") false
  else if (main.input_source cfg).read_filename ≠ none
      ∧ (main.input_source cfg).capture_interface ≠ none then
    main_result.usage
      (some "incompatible arguments read [r] and capture [c] specified on command line")
      false
  else if (main.input_source cfg).fingerprint_filename ≠ none
      ∧ (main.input_source cfg).write_filename ≠ none then
    main_result.usage (some "both fingerprint [f] and write [w] specified on command line")
      false
  else if (main.output_block (main.input_source cfg)).analysis = true
      ∧ env.analysis_init (main.output_block (main.input_source cfg)).verbosity
          (main.output_block (main.input_source cfg)).resources = -1 then
    main_result.returns EXIT_FAILURE
  else if (main.output_block (main.input_source cfg)).loop_count < 1 then
    main_result.usage (some "Invalid loop count, it should be >= 1") false
  else if (main.output_block (main.input_source cfg)).adaptive > 0
      ∧ ((main.output_block (main.input_source cfg)).write_filename = none
        ∨ (main.output_block (main.input_source cfg)).capture_interface = none) then
    main_result.usage
      (some "The option --adaptive requires options -c capture interface and -w pcap file.")
      false
  else
    main_result.continues (main.output_block (main.input_source cfg))
      (if (main.output_block (main.input_source cfg)).analysis = true then
         { g with do_analysis := true }
       else g)

/-- The step "set the number of threads, if needed" of `main` (mercury.c:514-521). -/
def main.set_threads (env : runtime) (cfg : mercury_config) : mercury_config :=
  if cfg.num_threads = -1 then { cfg with num_threads := env.hardware_concurrency } else cfg

/-- `main` (mercury.c:198-521) from the results `opts` of `getopt_long` and the
arguments `unused` that it leaves: the configuration with which `main` goes on to
start the output thread and to dispatch (mercury.c:523-557, not embedded), or how
the process ends before. -/
def main (env : runtime) (opts : List (Int × Option String)) (unused : List String) :
    main_result :=
  match main.options env opts env.mercury_config_init env.global_vars with
  | main_result.continues cfg g =>
    match main.validate env cfg g unused with
    | main_result.continues cfg1 g1 => main_result.continues (main.set_threads env cfg1) g1
    | r => r
  | r => r

/-- The white-space characters of `isspace` in the C locale. -/
def isspace (c : Char) : Bool :=
  c.toNat = 32 ∨ (9 ≤ c.toNat ∧ c.toNat ≤ 13)

/-- The value of a run of decimal digits that follows the value `acc`. -/
def strtol_digits : List Char → Nat → Nat
  | [], acc => acc
  | c :: rest, acc =>
    if 48 ≤ c.toNat ∧ c.toNat ≤ 57 then strtol_digits rest (acc * 10 + (c.toNat - 48)) else acc

/-- `strtol(s, NULL, 10)` as ISO C (7.22.1.4) describes it, for a 64-bit `long`:
white space is skipped, then an optional sign and the longest run of decimal digits
are converted; no digits give 0; a value out of range gives `LONG_MAX` or `LONG_MIN`
and sets `errno`.  The result is the value and whether `errno` is set. -/
def strtol_base_10 (s : String) : Int × Bool :=
  let t := s.data.dropWhile isspace
  let v : Int :=
    match t with
    | '-' :: rest => - (strtol_digits rest 0 : Int)
    | '+' :: rest => (strtol_digits rest 0 : Int)
    | _ => (strtol_digits t 0 : Int)
  if v > 9223372036854775807 then (9223372036854775807, true)
  else if v < -9223372036854775808 then (-9223372036854775808, true)
  else (v, false)

/-- An instance of the parameters for evaluating `main` on concrete command lines.
`mercury_config_init` and `global_vars` are defined in files that are not at hand: the
initial configuration here has no name set, one thread and the loop count 1 ("the
default condition", mercury.c:490), and reading a configuration file changes nothing.
`strtol` is `strtol_base_10`, and there are four processors. -/
def runtime.sample : runtime :=
  { mercury_config_init :=
      { read_filename := none, write_filename := none, working_dir := none,
        capture_interface := none, fingerprint_filename := none, analysis := false,
        flags := 0, mode := some "w", packet_filter_cfg := none, filter := 0,
        use_test_packet := 0, num_threads := 1, rotate := 0, loop_count := 1, adaptive := 0,
        user := none, buffer_fraction := none, verbosity := 0, resources := none,
        output_block := false },
    global_vars := ⟨false, false, false, false, false, false⟩,
    mercury_config_read_from_file := fun cfg _ => cfg,
    analysis_init := fun _ _ => 0,
    strtol := strtol_base_10,
    strtof_errno := fun _ => false,
    strtof_outside := fun _ => false,
    hardware_concurrency := 4 }

theorem tlv.take_snd_length_le (p : parser) (tag hdr len : Nat) (rest : List Nat) :
    (tlv.take p tag hdr len rest).2.bytes.length ≤ rest.length := by
  unfold tlv.take
  split <;> simp [parser.set_empty]

theorem tlv.parse_snd_length_le (p : parser) (e : Nat) :
    (tlv.parse p e).2.bytes.length ≤ p.bytes.length := by
  unfold tlv.parse
  split
  · simp [parser.set_empty]
  · rename_i t rest hb
    split
    · simp
    · split
      · simp [parser.set_empty]
      · rename_i l rest2
        have h2 : rest2.length ≤ p.bytes.length := by simp [hb]; omega
        have h3 : (rest2.drop (l % 128)).length ≤ p.bytes.length := by
          simp [hb]; omega
        split
        · exact le_trans (tlv.take_snd_length_le p _ _ _ _) h2
        · split
          · simp [parser.set_empty]
          · split
            · simp [parser.set_empty]
            · split
              · simp [parser.set_empty]
              · exact le_trans (tlv.take_snd_length_le p _ _ _ _) h3

theorem tlv.parse_any_shrinks (p : parser) (h : 0 < p.bytes.length) :
    (tlv.parse p 0).2.bytes.length < p.bytes.length := by
  unfold tlv.parse
  split
  · rename_i hb; simp [hb] at h
  · rename_i t rest hb
    rw [if_neg (by simp)]
    split
    · simp [parser.set_empty, hb]
    · rename_i l rest2
      have h2 : rest2.length ≤ p.bytes.length := by simp [hb]; omega
      have h3 : (rest2.drop (l % 128)).length ≤ p.bytes.length := by
        simp [hb]; omega
      have h4 : rest2.length < p.bytes.length := by simp [hb]; omega
      have h5 : (rest2.drop (l % 128)).length < p.bytes.length := by
        simp [hb]; omega
      split
      · exact lt_of_le_of_lt (tlv.take_snd_length_le p _ _ _ _) h4
      · split
        · simp [parser.set_empty, hb]
        · split
          · simp [parser.set_empty, hb]
          · split
            · simp [parser.set_empty, hb]
            · exact lt_of_le_of_lt (tlv.take_snd_length_le p _ _ _ _) h5

theorem tlv.parse_mismatch (p : parser) (e t : Nat) (r : List Nat) (hb : p.bytes = t :: r)
    (he : e ≠ 0) (hte : t ≠ e) : tlv.parse p e = (tlv.null, p) := by
  unfold tlv.parse
  rw [hb]
  simp [he, hte]

theorem tlv.parse_nil (p : parser) (e : Nat) (hb : p.bytes = []) :
    tlv.parse p e = (tlv.null, p.set_empty) := by
  unfold tlv.parse
  rw [hb]

theorem x509_cert.parse_version_field (buffer : List Nat) :
    (x509_cert.parse buffer).version = (x509_cert.parse_version (x509_cert.tbs_start buffer)).2.1
    ∧ (x509_cert.parse buffer).serial_number
        = (x509_cert.parse_version (x509_cert.tbs_start buffer)).2.2.1
    ∧ (x509_cert.parse buffer).algorithm_identifier
        = (algorithm_identifier.parse
            (x509_cert.parse_version (x509_cert.tbs_start buffer)).2.2.2).1 := by
  unfold x509_cert.parse
  simp only []
  split <;> simp [x509_cert.parse_tbs]

theorem x509_cert.parse_version_of_integer (tv : parser) (first : tlv) (rest : parser)
    (hno : tv.bytes.head? ≠ some 0xa0)
    (hint : tlv.parse tv tlv.INTEGER = (first, rest))
    (hnn : first.is_not_null = true) :
    x509_cert.parse_version tv =
      if first.length = 1 ∧ first.value.bytes.headD 0 < 3 then
        (tlv.null, first, (tlv.parse rest tlv.INTEGER).1, (tlv.parse rest tlv.INTEGER).2)
      else (tlv.null, tlv.null, first, rest) := by
  have hetv : tlv.parse tv (tlv.explicit_tag_constructed 0) = (tlv.null, tv) := by
    cases hb : tv.bytes with
    | nil =>
      rw [tlv.parse_nil tv _ hb] at hint
      have : first = tlv.null := (Prod.mk.inj hint).1.symm
      rw [this] at hnn
      simp [tlv.is_not_null, tlv.null, parser.nil] at hnn
    | cons t r =>
      apply tlv.parse_mismatch tv _ t r hb
      · simp [tlv.explicit_tag_constructed]
      · intro h
        rw [hb] at hno
        simp [tlv.explicit_tag_constructed] at h
        simp [h] at hno
  have hfn : first.is_null = false := by
    simp [tlv.is_not_null] at hnn
    simp [tlv.is_null, hnn]
  unfold x509_cert.parse_version
  simp only [hetv, hint]
  have h0 : tlv.null.is_not_null = false := by decide
  have h1 : tlv.null.is_null = true := by decide
  simp only [h0, Bool.false_eq_true, if_false]
  by_cases hc : first.length = 1 ∧ first.value.bytes.headD 0 < 3
  · rw [if_pos hc, if_pos hc, if_pos h1]
  · rw [if_neg hc, if_neg hc, if_neg (by simp [hfn])]

/-- C1. `x509_cert::parse`, version absent: when the tbsCertificate does not start with
tag `0xa0` and its first element decodes as an INTEGER `first`, then `first` is stored
as `version` if and only if it has length 1 and its content byte is below 3; in that
case `serial_number` is the INTEGER decoded from what follows and the
AlgorithmIdentifier is read after it; otherwise `first` is stored as `serial_number`,
`version` stays null and the AlgorithmIdentifier is read right after `first`. -/
theorem x509_cert.parse_version_absent (buffer : List Nat) (first : tlv) (rest : parser)
    (hno : (x509_cert.tbs_start buffer).bytes.head? ≠ some 0xa0)
    (hint : tlv.parse (x509_cert.tbs_start buffer) tlv.INTEGER = (first, rest))
    (hnn : first.is_not_null = true) :
    ((x509_cert.parse buffer).version = first
        ↔ (first.length = 1 ∧ first.value.bytes.headD 0 < 3))
    ∧ ((first.length = 1 ∧ first.value.bytes.headD 0 < 3) →
        (x509_cert.parse buffer).serial_number = (tlv.parse rest tlv.INTEGER).1
        ∧ (x509_cert.parse buffer).algorithm_identifier
            = (algorithm_identifier.parse (tlv.parse rest tlv.INTEGER).2).1)
    ∧ (¬ (first.length = 1 ∧ first.value.bytes.headD 0 < 3) →
        (x509_cert.parse buffer).serial_number = first
        ∧ (x509_cert.parse buffer).version = tlv.null
        ∧ (x509_cert.parse buffer).algorithm_identifier
            = (algorithm_identifier.parse rest).1) := by
  obtain ⟨hv, hs, ha⟩ := x509_cert.parse_version_field buffer
  rw [hv, hs, ha, x509_cert.parse_version_of_integer _ first rest hno hint hnn]
  have hne : tlv.null ≠ first := by
    intro h
    rw [← h] at hnn
    simp [tlv.is_not_null, tlv.null, parser.nil] at hnn
  by_cases hc : first.length = 1 ∧ first.value.bytes.headD 0 < 3
  · rw [if_pos hc]
    exact ⟨⟨fun _ => hc, fun _ => rfl⟩, fun _ => ⟨rfl, rfl⟩, fun h => absurd hc h⟩
  · rw [if_neg hc]
    exact ⟨⟨fun h => absurd h hne, fun h => absurd h hc⟩, fun h => absurd h hc,
      fun _ => ⟨rfl, rfl, rfl⟩⟩

theorem tlv.take_snd_suffix (p : parser) (tag hdr len : Nat) (rest : List Nat) :
    (tlv.take p tag hdr len rest).2.bytes <:+ rest := by
  unfold tlv.take
  split
  · exact List.drop_suffix _ _
  · exact List.nil_suffix

theorem tlv.parse_snd_suffix (p : parser) (e : Nat) :
    (tlv.parse p e).2.bytes <:+ p.bytes := by
  unfold tlv.parse
  split
  · exact List.nil_suffix
  · rename_i t rest hb
    split
    · exact List.suffix_refl _
    · split
      · exact List.nil_suffix
      · rename_i l rest2
        have h2 : rest2 <:+ p.bytes := by
          rw [hb]; exact ⟨[t, l], rfl⟩
        have h3 : rest2.drop (l % 128) <:+ p.bytes :=
          List.IsSuffix.trans (List.drop_suffix _ _) h2
        split
        · exact List.IsSuffix.trans (tlv.take_snd_suffix p _ _ _ _) h2
        · split
          · exact List.nil_suffix
          · split
            · exact List.nil_suffix
            · split
              · exact List.nil_suffix
              · exact List.IsSuffix.trans (tlv.take_snd_suffix p _ _ _ _) h3

theorem x509_cert.parse_extensions_mem (fuel : Nat) :
    ∀ (p : parser) (l : List Mercury.extension) (e : Mercury.extension),
      e ∈ (x509_cert.parse_extensions fuel p l).2 →
      e ∈ l ∨ ∃ q : parser, q.bytes <:+ p.bytes ∧ q.bytes ≠ []
        ∧ e = (x509_cert.parse_extension q).1 := by
  induction fuel with
  | zero => intro p l e h; exact Or.inl h
  | succ n ih =>
    intro p l e h
    unfold x509_cert.parse_extensions at h
    split at h
    · rename_i hlen
      rcases ih _ _ e h with h1 | ⟨q, hq, hne, he⟩
      · rcases List.mem_append.mp h1 with h2 | h2
        · exact Or.inl h2
        · refine Or.inr ⟨p, List.suffix_refl _, ?_, List.mem_singleton.mp h2⟩
          intro hb
          simp [parser_get_data_length, hb] at hlen
      · refine Or.inr ⟨q, List.IsSuffix.trans hq ?_, hne, he⟩
        exact tlv.parse_snd_suffix p 0
    · exact Or.inl h

theorem x509_cert.parse_extension_list (buffer : List Nat) :
    (x509_cert.parse buffer).extension =
      if parser_get_data_length (x509_cert.parse_tbs buffer).tbs_certificate.value = 0 then []
      else
        (x509_cert.parse_extensions
          (parser_get_data_length
            (x509_cert.parse_extensions_tlv (x509_cert.parse_tbs buffer).tbs_certificate.value).1.value)
          (x509_cert.parse_extensions_tlv (x509_cert.parse_tbs buffer).tbs_certificate.value).1.value
          []).2 := by
  unfold x509_cert.parse
  simp only []
  split
  · simp [x509_cert.parse_tbs, x509_cert.empty]
  · rfl

/-- C7. Extension decoding in `x509_cert::parse`: every constructed entry of the
extension list was decoded from an element at a cursor `q` inside the extensions
SEQUENCE; its extnID is the first inner element; when the second inner element has
tag BOOLEAN (`0x01`) it is stored as `critical` and the third inner element as
`extnValue`; otherwise the second inner element is stored as `extnValue` and
`critical` stays null. -/
theorem x509_cert.parse_extension_fields (buffer : List Nat) (e : Mercury.extension)
    (he : e ∈ (x509_cert.parse buffer).extension) (hc : e.sequence.is_constructed = true) :
    ∃ q : parser,
      q.bytes <:+ (x509_cert.parse_extensions_tlv
                    (x509_cert.parse_tbs buffer).tbs_certificate.value).1.value.bytes
      ∧ q.bytes ≠ []
      ∧ e.sequence.tag = (tlv.parse q 0).1.tag
      ∧ e.sequence.length = (tlv.parse q 0).1.length
      ∧ e.extnID = (tlv.parse (tlv.parse q 0).1.value 0).1
      ∧ ((tlv.parse (tlv.parse (tlv.parse q 0).1.value 0).2 0).1.tag = 0x01 →
          e.critical = (tlv.parse (tlv.parse (tlv.parse q 0).1.value 0).2 0).1
          ∧ e.extnValue
              = (tlv.parse (tlv.parse (tlv.parse (tlv.parse q 0).1.value 0).2 0).2 0).1)
      ∧ ((tlv.parse (tlv.parse (tlv.parse q 0).1.value 0).2 0).1.tag ≠ 0x01 →
          e.extnValue = (tlv.parse (tlv.parse (tlv.parse q 0).1.value 0).2 0).1
          ∧ e.critical = tlv.null) := by
  rw [x509_cert.parse_extension_list] at he
  split at he
  · simp at he
  · rcases x509_cert.parse_extensions_mem _ _ _ e he with h | ⟨q, hq, hne, heq⟩
    · simp at h
    · refine ⟨q, hq, hne, ?_⟩
      have hcq : (tlv.parse q 0).1.is_constructed = true := by
        rw [heq] at hc
        unfold x509_cert.parse_extension at hc
        simp only [] at hc
        split at hc
        · assumption
        · exact hc
      rw [heq]
      unfold x509_cert.parse_extension
      simp only [hcq, if_true]
      by_cases ht : (tlv.parse (tlv.parse (tlv.parse q 0).1.value 0).2 0).1.tag = 0x01
      · simp [ht]
      · simp [ht]

theorem tlv.take_exact (p : parser) (tag hdr : Nat) (content rest : List Nat) :
    tlv.take p tag hdr content.length (content ++ rest)
      = (⟨tag, content.length, ⟨false, p.pos + hdr, content⟩⟩,
         { p with pos := p.pos + hdr + content.length, bytes := rest }) := by
  unfold tlv.take
  simp

theorem tlv.parse_short (nl : Bool) (pos t : Nat) (content rest : List Nat)
    (hl : content.length < 128) :
    tlv.parse ⟨nl, pos, t :: content.length :: (content ++ rest)⟩ 0
      = (⟨t, content.length, ⟨false, pos + 2, content⟩⟩,
         ⟨nl, pos + 2 + content.length, rest⟩) := by
  unfold tlv.parse
  simp only [ne_eq, not_true_eq_false, false_and, if_false, hl, if_true]
  rw [tlv.take_exact]

theorem tlv.parse_long (nl : Bool) (pos t l : Nat) (lenbytes content rest : List Nat)
    (hl : 128 < l) (hn : l % 128 = lenbytes.length) (h4 : lenbytes.length ≤ 4)
    (hbe : be_uint lenbytes = content.length) :
    tlv.parse ⟨nl, pos, t :: l :: (lenbytes ++ (content ++ rest))⟩ 0
      = (⟨t, content.length, ⟨false, pos + (2 + lenbytes.length), content⟩⟩,
         ⟨nl, pos + (2 + lenbytes.length) + content.length, rest⟩) := by
  unfold tlv.parse
  have h1 : ¬ l < 128 := by omega
  have h2 : ¬ l = 128 := by omega
  have h3 : ¬ 4 < l % 128 := by omega
  have h5 : ¬ (lenbytes ++ (content ++ rest)).length < l % 128 := by
    rw [hn]; simp
  simp only [ne_eq, not_true_eq_false, false_and, if_false, h1, h2, h3, h5]
  rw [hn, List.take_left, List.drop_left, hbe, tlv.take_exact]

theorem tlv.parse_der_element (nl : Bool) (pos tag : Nat) (content rest : List Nat)
    (hlen : content.length < 4294967296) :
    tlv.parse ⟨nl, pos, der_element tag content ++ rest⟩ 0
      = (⟨tag, content.length, ⟨false, pos + 1 + (der_length content.length).length, content⟩⟩,
         ⟨nl, pos + (der_element tag content).length, rest⟩) := by
  unfold der_element der_length
  by_cases h1 : content.length < 128
  · rw [if_pos h1]
    have := tlv.parse_short nl pos tag content rest h1
    simp only [List.cons_append, List.nil_append, List.append_assoc, List.length_cons,
      List.length_append, List.length_nil] at this ⊢
    rw [this]
    congr 2; omega
  · rw [if_neg h1]
    by_cases h2 : content.length < 256
    · rw [if_pos h2]
      have := tlv.parse_long nl pos tag 0x81 [content.length] content rest (by omega)
        (by simp) (by simp) (by simp [be_uint])
      simp only [List.cons_append, List.nil_append, List.append_assoc, List.length_cons,
        List.length_append, List.length_nil] at this ⊢
      rw [this]
      congr 2; omega
    · rw [if_neg h2]
      by_cases h3 : content.length < 65536
      · rw [if_pos h3]
        have := tlv.parse_long nl pos tag 0x82 [content.length / 256, content.length % 256]
          content rest (by omega) (by simp) (by simp)
          (by simp only [be_uint, List.foldl]; omega)
        simp only [List.cons_append, List.nil_append, List.append_assoc, List.length_cons,
          List.length_append, List.length_nil] at this ⊢
        rw [this]
        congr 2; omega
      · rw [if_neg h3]
        by_cases h4 : content.length < 16777216
        · rw [if_pos h4]
          have := tlv.parse_long nl pos tag 0x83
            [content.length / 65536, content.length / 256 % 256, content.length % 256]
            content rest (by omega) (by simp) (by simp)
            (by simp only [be_uint, List.foldl]; omega)
          simp only [List.cons_append, List.nil_append, List.append_assoc, List.length_cons,
            List.length_append, List.length_nil] at this ⊢
          rw [this]
          congr 2; omega
        · rw [if_neg h4]
          have := tlv.parse_long nl pos tag 0x84
            [content.length / 16777216, content.length / 65536 % 256,
              content.length / 256 % 256, content.length % 256]
            content rest (by omega) (by simp) (by simp)
            (by simp only [be_uint, List.foldl]; omega)
          simp only [List.cons_append, List.nil_append, List.append_assoc, List.length_cons,
            List.length_append, List.length_nil] at this ⊢
          rw [this]
          congr 2; omega

/-! ## Loops run until their cursor is empty

Every loop that is given fuel decodes one TLV without an expected tag per iteration,
which consumes at least one byte of a non-empty cursor (`tlv.parse_any_shrinks`).  The
fuel it is called with, the number of bytes left, is therefore never used up before
the loop's own condition ends it. -/

theorem x509_cert.parse_extensions_exhausts (fuel : Nat) :
    ∀ (p : parser) (l : List Mercury.extension), p.bytes.length ≤ fuel →
      (x509_cert.parse_extensions fuel p l).1.bytes = [] := by
  induction fuel with
  | zero =>
    intro p l h
    exact List.length_eq_zero.mp (Nat.le_zero.mp h)
  | succ n ih =>
    intro p l h
    unfold x509_cert.parse_extensions
    split
    · rename_i hpos
      apply ih
      have := tlv.parse_any_shrinks p hpos
      simp only [x509_cert.parse_extension]
      omega
    · rename_i hpos
      exact List.length_eq_zero.mp (by simpa [parser_get_data_length] using hpos)

theorem name.parse_pairs_exhausts (fuel : Nat) :
    ∀ r : Attribute, r.sequence.value.bytes.length ≤ fuel →
      (name.parse_pairs fuel r).sequence.value.bytes = [] := by
  induction fuel with
  | zero =>
    intro r h
    exact List.length_eq_zero.mp (Nat.le_zero.mp h)
  | succ n ih =>
    intro r h
    unfold name.parse_pairs
    split
    · rename_i hpos
      have h1 := tlv.parse_any_shrinks r.sequence.value hpos
      simp only []
      split
      · apply ih
        have h2 := tlv.parse_snd_length_le (tlv.parse r.sequence.value 0).2 0
        simp only []
        omega
      · apply ih
        simp only []
        omega
    · rename_i hpos
      exact List.length_eq_zero.mp (by simpa [parser_get_data_length] using hpos)

theorem name.parse_rdns_exhausts (fuel : Nat) :
    ∀ (p : parser) (l : List Attribute), p.bytes.length ≤ fuel →
      (name.parse_rdns fuel p l).1.bytes = [] := by
  induction fuel with
  | zero =>
    intro p l h
    exact List.length_eq_zero.mp (Nat.le_zero.mp h)
  | succ n ih =>
    intro p l h
    unfold name.parse_rdns
    split
    · rename_i hpos
      apply ih
      have := tlv.parse_any_shrinks p hpos
      simp only [name.parse_rdn, Attribute.parse]
      omega
    · rename_i hpos
      exact List.length_eq_zero.mp (by simpa [parser_get_data_length] using hpos)

theorem name.parse_outer_of_empty (fuel : Nat) (p : parser) (l : List Attribute)
    (h : p.bytes = []) : name.parse_outer fuel p l = (p, l) := by
  cases fuel with
  | zero => rfl
  | succ n =>
    unfold name.parse_outer
    rw [if_neg (by simp [parser_get_data_length, h])]

theorem name.parse_outer_exhausts (fuel : Nat) (p : parser) (l : List Attribute)
    (h : p.bytes.length ≤ fuel) : (name.parse_outer fuel p l).1.bytes = [] := by
  cases fuel with
  | zero => exact List.length_eq_zero.mp (Nat.le_zero.mp h)
  | succ n =>
    unfold name.parse_outer
    split
    · have e := name.parse_rdns_exhausts (parser_get_data_length p) p l (le_refl _)
      rw [name.parse_outer_of_empty n _ _ e]
      exact e
    · rename_i hpos
      exact List.length_eq_zero.mp (by simpa [parser_get_data_length] using hpos)

theorem ext_key_usage.parse_ids_exhausts (fuel : Nat) :
    ∀ (p : parser) (l : List tlv), p.bytes.length ≤ fuel →
      (ext_key_usage.parse_ids fuel p l).1.bytes = [] := by
  induction fuel with
  | zero =>
    intro p l h
    exact List.length_eq_zero.mp (Nat.le_zero.mp h)
  | succ n ih =>
    intro p l h
    unfold ext_key_usage.parse_ids
    split
    · rename_i hpos
      apply ih
      have := tlv.parse_any_shrinks p hpos
      omega
    · rename_i hpos
      exact List.length_eq_zero.mp (by simpa [parser_get_data_length] using hpos)

theorem private_key_usage_period.period_loop_exhausts (fuel : Nat) :
    ∀ (p : parser) (nb na : tlv), p.bytes.length ≤ fuel →
      (private_key_usage_period.parse_loop fuel p nb na).1.bytes = [] := by
  induction fuel with
  | zero =>
    intro p nb na h
    exact List.length_eq_zero.mp (Nat.le_zero.mp h)
  | succ n ih =>
    intro p nb na h
    unfold private_key_usage_period.parse_loop
    split
    · rename_i hpos
      apply ih
      have := tlv.parse_any_shrinks p hpos
      omega
    · rename_i hpos
      exact List.length_eq_zero.mp (by simpa [parser_get_data_length] using hpos)

theorem general_subtree.subtree_loop_exhausts (fuel : Nat) :
    ∀ (p : parser) (mn mx : tlv), p.bytes.length ≤ fuel →
      (general_subtree.parse_loop fuel p mn mx).1.bytes = [] := by
  induction fuel with
  | zero =>
    intro p mn mx h
    exact List.length_eq_zero.mp (Nat.le_zero.mp h)
  | succ n ih =>
    intro p mn mx h
    unfold general_subtree.parse_loop
    split
    · rename_i hpos
      apply ih
      have := tlv.parse_any_shrinks p hpos
      omega
    · rename_i hpos
      exact List.length_eq_zero.mp (by simpa [parser_get_data_length] using hpos)

theorem name_constraints.constraints_loop_exhausts (fuel : Nat) :
    ∀ (p : parser) (pm ex : tlv), p.bytes.length ≤ fuel →
      (name_constraints.parse_loop fuel p pm ex).1.bytes = [] := by
  induction fuel with
  | zero =>
    intro p pm ex h
    exact List.length_eq_zero.mp (Nat.le_zero.mp h)
  | succ n ih =>
    intro p pm ex h
    unfold name_constraints.parse_loop
    split
    · rename_i hpos
      apply ih
      have := tlv.parse_any_shrinks p hpos
      omega
    · rename_i hpos
      exact List.length_eq_zero.mp (by simpa [parser_get_data_length] using hpos)

theorem authority_key_identifier.identifier_loop_exhausts (fuel : Nat) :
    ∀ a : authority_key_identifier, a.sequence.value.bytes.length ≤ fuel →
      (authority_key_identifier.parse_loop fuel a).sequence.value.bytes = [] := by
  induction fuel with
  | zero =>
    intro a h
    exact List.length_eq_zero.mp (Nat.le_zero.mp h)
  | succ n ih =>
    intro a h
    unfold authority_key_identifier.parse_loop
    split
    · rename_i hpos
      apply ih
      have := tlv.parse_any_shrinks a.sequence.value hpos
      simp only []
      split
      · simp only []; omega
      · split
        · simp only []; omega
        · split
          · simp only []; omega
          · simp only []; omega
    · rename_i hpos
      exact List.length_eq_zero.mp (by simpa [parser_get_data_length] using hpos)

theorem subject_alt_name.print_names_fuel (env : asn1) (fuel : Nat) :
    ∀ (comma : String) (p : parser), p.bytes.length ≤ fuel →
      subject_alt_name.print_names env (fuel + 1) comma p
        = subject_alt_name.print_names env fuel comma p := by
  induction fuel with
  | zero =>
    intro comma p h
    have hb : ¬ parser_get_data_length p > 0 := by
      unfold parser_get_data_length; omega
    simp [subject_alt_name.print_names, hb]
  | succ n ih =>
    intro comma p h
    rw [subject_alt_name.print_names]
    conv => rhs; rw [subject_alt_name.print_names]
    split
    · rename_i hpos
      have := tlv.parse_any_shrinks p hpos
      rw [ih]
      simp only [general_name.parse]
      omega
    · rfl

theorem distribution_point.point_loop_fuel (env : asn1) (fuel : Nat) :
    ∀ (p : parser) (d : Mercury.distribution_point_name), p.bytes.length ≤ fuel →
      distribution_point.print_loop env (fuel + 1) p d
        = distribution_point.print_loop env fuel p d := by
  induction fuel with
  | zero =>
    intro p d h
    have hb : ¬ parser_get_data_length p > 0 := by
      unfold parser_get_data_length; omega
    simp [distribution_point.print_loop, hb]
  | succ n ih =>
    intro p d h
    rw [distribution_point.print_loop]
    conv => rhs; rw [distribution_point.print_loop]
    split
    · rename_i hpos
      have := tlv.parse_any_shrinks p hpos
      simp only []
      split
      · rw [ih _ _ (by omega)]
      · rw [ih _ _ (by omega)]
    · rfl

theorem crl_distribution_points.points_loop_fuel (env : asn1) (fuel : Nat) :
    ∀ (comma : String) (p : parser), p.bytes.length ≤ fuel →
      crl_distribution_points.print_loop env (fuel + 1) comma p
        = crl_distribution_points.print_loop env fuel comma p := by
  induction fuel with
  | zero =>
    intro comma p h
    have hb : ¬ parser_get_data_length p > 0 := by
      unfold parser_get_data_length; omega
    simp [crl_distribution_points.print_loop, hb]
  | succ n ih =>
    intro comma p h
    rw [crl_distribution_points.print_loop]
    conv => rhs; rw [crl_distribution_points.print_loop]
    split
    · rename_i hpos
      have := tlv.parse_any_shrinks p hpos
      rw [ih]
      simp only [distribution_point.parse]
      omega
    · rfl

/-! ## The extension list and its rendering -/

theorem x509_cert.parse_extension_der (nl : Bool) (pos tag : Nat) (content rest : List Nat)
    (hlen : content.length < 4294967296) :
    x509_cert.parse_extension ⟨nl, pos, der_element tag content ++ rest⟩
      = ((x509_cert.parse_extension ⟨false, pos, der_element tag content⟩).1,
         ⟨nl, pos + (der_element tag content).length, rest⟩) := by
  have h1 := tlv.parse_der_element nl pos tag content rest hlen
  have h2 := tlv.parse_der_element false pos tag content [] hlen
  rw [List.append_nil] at h2
  unfold x509_cert.parse_extension
  rw [h1, h2]

theorem x509_cert.parse_extensions_der (es : List (Nat × List Nat)) :
    ∀ (fuel : Nat) (nl : Bool) (pos : Nat) (l : List Mercury.extension),
      (∀ e ∈ es, e.2.length < 4294967296) → es.length ≤ fuel →
      x509_cert.parse_extensions fuel ⟨nl, pos, der_elements es⟩ l
        = (⟨nl, pos + (der_elements es).length, []⟩, l ++ extension_entries pos es) := by
  induction es with
  | nil =>
    intro fuel nl pos l _ _
    cases fuel <;> simp [x509_cert.parse_extensions, der_elements, extension_entries,
      parser_get_data_length]
  | cons e rest ih =>
    intro fuel nl pos l hes hfuel
    cases fuel with
    | zero => simp at hfuel
    | succ n =>
      have he : e.2.length < 4294967296 := hes e (List.mem_cons_self _ _)
      have hrest : ∀ x ∈ rest, x.2.length < 4294967296 :=
        fun x hx => hes x (List.mem_cons_of_mem _ hx)
      have hpos : parser_get_data_length ⟨nl, pos, der_elements (e :: rest)⟩ > 0 := by
        simp [parser_get_data_length, der_elements, der_element]
      unfold x509_cert.parse_extensions
      rw [if_pos hpos]
      simp only [der_elements]
      rw [x509_cert.parse_extension_der nl pos e.1 e.2 _ he]
      simp only []
      rw [ih n nl _ _ hrest (by simpa using hfuel)]
      simp [extension_entries, Nat.add_assoc]

theorem der_elements_length (es : List (Nat × List Nat)) :
    es.length ≤ (der_elements es).length := by
  induction es with
  | nil => simp
  | cons e rest ih => simp [der_elements, der_element]; omega

theorem extension_entries_sequence (es : List (Nat × List Nat))
    (hes : ∀ e ∈ es, e.2.length < 4294967296) :
    ∀ pos : Nat, (extension_entries pos es).map (fun x => (x.sequence.tag, x.sequence.length))
      = es.map (fun e => (e.1, e.2.length)) := by
  induction es with
  | nil => intro pos; rfl
  | cons e rest ih =>
    intro pos
    have he : e.2.length < 4294967296 := hes e (List.mem_cons_self _ _)
    have hrest : ∀ x ∈ rest, x.2.length < 4294967296 :=
      fun x hx => hes x (List.mem_cons_of_mem _ hx)
    have h2 := tlv.parse_der_element false pos e.1 e.2 [] he
    rw [List.append_nil] at h2
    simp only [extension_entries, List.map_cons, ih hrest]
    congr 1
    unfold x509_cert.parse_extension
    rw [h2]
    simp only []
    split
    · split <;> rfl
    · rfl

theorem x509_cert.print_typed_appends (o : Option String)
    (bodies : List (String × (parser → outcome (String × parser)))) :
    ∀ (s r : String × parser), x509_cert.print_typed o bodies s = outcome.done r →
      ∃ t : String, r.1 = s.1 ++ t := by
  induction bodies with
  | nil =>
    intro s r h
    simp [x509_cert.print_typed] at h
    exact ⟨"", by rw [← h, String.append_empty]⟩
  | cons b l ih =>
    intro s r h
    unfold x509_cert.print_typed at h
    split at h
    · cases hb : b.2 s.2 with
      | done a =>
        rw [hb] at h
        simp only [outcome.bind] at h
        obtain ⟨t, ht⟩ := ih _ r h
        exact ⟨a.1 ++ t, by rw [ht, String.append_assoc]⟩
      | fault => rw [hb] at h; simp [outcome.bind] at h
      | spin => rw [hb] at h; simp [outcome.bind] at h
    · exact ih s r h

theorem x509_cert.print_extension_shape (env : asn1) (fuel : Nat) (comma : String)
    (xtn : Mercury.extension) (r : String × String × Mercury.extension)
    (h : x509_cert.print_extension env fuel comma xtn = outcome.done r) :
    (xtn.sequence.is_constructed = true →
      r.2.1 = "," ∧ ∃ t : String, r.1 = comma ++ xtn.generic_object env ++ t)
    ∧ (xtn.sequence.is_constructed = false → r.2.1 = comma ∧ r.1 = "") := by
  unfold x509_cert.print_extension at h
  split at h
  · rename_i hc
    refine ⟨fun _ => ?_, fun hn => by simp [hc] at hn⟩
    cases hp : x509_cert.print_typed (xtn.oid_string env) (x509_cert.typed_bodies env fuel)
        (comma ++ xtn.generic_object env, xtn.extnValue.value) with
    | done a =>
      rw [hp] at h
      simp only [outcome.bind, outcome.done.injEq] at h
      obtain ⟨t, ht⟩ := x509_cert.print_typed_appends _ _ _ a hp
      rw [← h]
      exact ⟨rfl, t, ht⟩
    | fault => rw [hp] at h; simp [outcome.bind] at h
    | spin => rw [hp] at h; simp [outcome.bind] at h
  · rename_i hc
    simp only [outcome.done.injEq] at h
    refine ⟨fun hn => absurd hn hc, fun _ => ?_⟩
    rw [← h]
    exact ⟨rfl, rfl⟩

theorem x509_cert.print_extensions_shape (env : asn1) (fuel : Nat)
    (l : List Mercury.extension) :
    ∀ (comma : String) (r : String × List Mercury.extension),
      x509_cert.print_extensions env fuel comma l = outcome.done r →
      ∃ typed : List String,
        typed.length = (l.filter (fun x => x.sequence.is_constructed)).length
        ∧ r.1 = separated comma
            (((l.filter (fun x => x.sequence.is_constructed)).map
              (fun x => x.generic_object env)).zip typed) := by
  induction l with
  | nil =>
    intro comma r h
    simp only [x509_cert.print_extensions, outcome.done.injEq] at h
    exact ⟨[], rfl, by rw [← h]; rfl⟩
  | cons x rest ih =>
    intro comma r h
    unfold x509_cert.print_extensions at h
    cases hx : x509_cert.print_extension env fuel comma x with
    | done a =>
      rw [hx] at h
      simp only [outcome.bind] at h
      cases hr : x509_cert.print_extensions env fuel a.2.1 rest with
      | done b =>
        rw [hr] at h
        simp only [outcome.done.injEq] at h
        obtain ⟨typed, hlen, hout⟩ := ih _ b hr
        obtain ⟨hc1, hc2⟩ := x509_cert.print_extension_shape env fuel comma x a hx
        cases hc : x.sequence.is_constructed with
        | true =>
          obtain ⟨hcomma, t, ht⟩ := hc1 hc
          refine ⟨t :: typed, by simp [hc, hlen], ?_⟩
          rw [← h]
          simp only [List.filter_cons, hc, if_true, List.map_cons, List.zip_cons_cons, separated]
          simp only [ht, hout, hcomma, String.append_assoc]
        | false =>
          obtain ⟨hcomma, ht⟩ := hc2 hc
          refine ⟨typed, by simp [hc, hlen], ?_⟩
          rw [← h]
          simp only [List.filter_cons, hc, Bool.false_eq_true, if_false]
          rw [ht, hout, hcomma, String.empty_append]
      | fault => rw [hr] at h; simp at h
      | spin => rw [hr] at h; simp at h
    | fault => rw [hx] at h; simp [outcome.bind] at h
    | spin => rw [hx] at h; simp [outcome.bind] at h

theorem der_elements_eq_nil (es : List (Nat × List Nat)) (h : der_elements es = []) :
    es = [] := by
  cases es with
  | nil => rfl
  | cons e rest => simp [der_elements, der_element] at h

theorem x509_cert.parse_extensions_tlv_nil (tv : parser) (h : tv.bytes = []) :
    (x509_cert.parse_extensions_tlv tv).1.value.bytes = [] := by
  unfold x509_cert.parse_extensions_tlv
  simp only [tlv.parse_nil tv _ h]
  have h0 : tlv.null.is_not_null = false := by decide
  simp only [h0, Bool.false_eq_true, if_false]
  rw [tlv.parse_nil _ _ (by simp [parser.set_empty])]
  rfl

theorem x509_cert.print_stdout (env : asn1) (fuel : Nat) (c : x509_cert)
    (r : output × x509_cert) (h : x509_cert.print_as_json env fuel c = outcome.done r) :
    (c.extension.length = 0 ∧ r.1.stdout = "")
    ∨ (c.extension.length > 0 ∧ ∃ x : String × List Mercury.extension,
        x509_cert.print_extensions env fuel "" c.extension = outcome.done x
        ∧ r.1.stdout = ",\"extensions\":[" ++ x.1 ++ "]") := by
  unfold x509_cert.print_as_json at h
  cases hs : c.subjectPublicKeyInfo.print_as_json env "subject_public_key_info" with
  | done a =>
    rw [hs] at h
    simp only [outcome.bind] at h
    by_cases hl : c.extension.length > 0
    · rw [if_pos hl] at h
      cases hx : x509_cert.print_extensions env fuel "" c.extension with
      | done x =>
        rw [hx] at h
        simp only [outcome.done.injEq] at h
        exact Or.inr ⟨hl, x, rfl, by rw [← h]⟩
      | fault => rw [hx] at h; simp at h
      | spin => rw [hx] at h; simp at h
    · rw [if_neg hl] at h
      simp only [outcome.done.injEq] at h
      exact Or.inl ⟨by omega, by rw [← h]⟩
  | fault => rw [hs] at h; simp [outcome.bind] at h
  | spin => rw [hs] at h; simp [outcome.bind] at h

/-! ## Dispatch on the extnID -/

theorem x509_cert.print_typed_none (o : Option String)
    (l : List (String × (parser → outcome (String × parser))))
    (h : ∀ b ∈ l, o ≠ some b.1) (s : String × parser) :
    x509_cert.print_typed o l s = outcome.done s := by
  induction l with
  | nil => rfl
  | cons b rest ih =>
    unfold x509_cert.print_typed
    rw [if_neg (h b (List.mem_cons_self _ _))]
    exact ih (fun x hx => h x (List.mem_cons_of_mem _ hx))

theorem outcome.bind_done {α : Type} (x : outcome α) : x.bind outcome.done = x := by
  cases x <;> rfl

theorem x509_cert.print_typed_one (o : Option String)
    (l : List (String × (parser → outcome (String × parser))))
    (hnd : (l.map (fun b => b.1)).Nodup)
    (b : String × (parser → outcome (String × parser))) (hb : b ∈ l) (ho : o = some b.1)
    (s : String × parser) :
    x509_cert.print_typed o l s
      = (b.2 s.2).bind (fun r => outcome.done (s.1 ++ r.1, r.2)) := by
  induction l with
  | nil => simp at hb
  | cons a rest ih =>
    rw [List.map_cons, List.nodup_cons] at hnd
    unfold x509_cert.print_typed
    rcases List.mem_cons.mp hb with hba | hbr
    · subst hba
      rw [if_pos ho]
      have hrest : ∀ x ∈ rest, o ≠ some x.1 := by
        intro x hx hox
        rw [ho] at hox
        exact hnd.1 (by rw [Option.some.inj hox]; exact List.mem_map_of_mem _ hx)
      congr 1
      funext r
      exact x509_cert.print_typed_none o rest hrest _
    · have hne : o ≠ some a.1 := by
        intro hoa
        rw [ho] at hoa
        exact hnd.1 (by rw [← Option.some.inj hoa]; exact List.mem_map_of_mem _ hbr)
      rw [if_neg hne]
      exact ih hnd.2 hbr

theorem x509_cert.typed_bodies_names (env : asn1) (fuel : Nat) :
    (x509_cert.typed_bodies env fuel).map (fun b => b.1)
      = ["id-ce-SignedCertificateTimestampList", "id-ce-nameConstraints",
         "id-ce-cRLDistributionPoints", "id-ce-certificatePolicies",
         "id-ce-privateKeyUsagePeriod", "id-ce-basicConstraints", "id-ce-keyUsage",
         "id-ce-extKeyUsage", "id-ce-subjectAltName", "id-ce-issuerAltName",
         "id-ce-authorityKeyIdentifier", "id-ce-subjectKeyIdentifier"] := rfl

theorem x509_cert.typed_bodies_nodup (env : asn1) (fuel : Nat) :
    ((x509_cert.typed_bodies env fuel).map (fun b => b.1)).Nodup := by
  rw [x509_cert.typed_bodies_names]
  decide

/-- C9. OID dispatch in `x509_cert::print_as_json`: the typed bodies are those of
the twelve recognised names; for a constructed entry whose extnID resolves to one
of these names, what is written is the generic object followed by the body of that
name and of no other; for a constructed entry whose extnID resolves to none of them
(or is not an OBJECT IDENTIFIER), only the generic object is written and the
extnValue cursor stays where it was. -/
theorem x509_cert.oid_dispatch (env : asn1) (fuel : Nat) (comma : String)
    (xtn : Mercury.extension) (hc : xtn.sequence.is_constructed = true) :
    (x509_cert.typed_bodies env fuel).map (fun b => b.1)
      = ["id-ce-SignedCertificateTimestampList", "id-ce-nameConstraints",
         "id-ce-cRLDistributionPoints", "id-ce-certificatePolicies",
         "id-ce-privateKeyUsagePeriod", "id-ce-basicConstraints", "id-ce-keyUsage",
         "id-ce-extKeyUsage", "id-ce-subjectAltName", "id-ce-issuerAltName",
         "id-ce-authorityKeyIdentifier", "id-ce-subjectKeyIdentifier"]
    ∧ (∀ b ∈ x509_cert.typed_bodies env fuel, xtn.oid_string env = some b.1 →
        x509_cert.print_extension env fuel comma xtn
          = (b.2 xtn.extnValue.value).bind (fun r => outcome.done
              (comma ++ xtn.generic_object env ++ r.1, ",",
               { xtn with extnValue := { xtn.extnValue with value := r.2 } })))
    ∧ ((∀ b ∈ x509_cert.typed_bodies env fuel, xtn.oid_string env ≠ some b.1) →
        x509_cert.print_extension env fuel comma xtn
          = outcome.done (comma ++ xtn.generic_object env, ",", xtn)) := by
  refine ⟨rfl, ?_, ?_⟩
  · intro b hb ho
    unfold x509_cert.print_extension
    rw [if_pos hc, x509_cert.print_typed_one _ _ (x509_cert.typed_bodies_nodup env fuel) b hb ho]
    cases b.2 xtn.extnValue.value <;> rfl
  · intro hno
    unfold x509_cert.print_extension
    rw [if_pos hc, x509_cert.print_typed_none _ _ hno]
    rfl

/-! ## What a rendering leaves behind -/

theorem subject_public_key_info.print_key_frame (env : asn1) (s : subject_public_key_info)
    (label : String) (r : String × subject_public_key_info)
    (h : s.print_as_json env label = outcome.done r) :
    r.2.sequence = s.sequence ∧ r.2.algorithm = s.algorithm
    ∧ r.2.subject_public_key.tag = s.subject_public_key.tag := by
  unfold subject_public_key_info.print_as_json at h
  simp only [] at h
  split at h
  · simp at h
  · split at h
    · simp only [outcome.done.injEq] at h
      rw [← h]
      refine ⟨rfl, rfl, ?_⟩
      simp only [tlv.remove_bitstring_encoding]
      split <;> rfl
    · split at h
      · simp only [outcome.done.injEq] at h
        rw [← h]
        exact ⟨rfl, rfl, rfl⟩
      · simp only [outcome.done.injEq] at h
        rw [← h]
        exact ⟨rfl, rfl, rfl⟩

theorem x509_cert.print_extension_frame (env : asn1) (fuel : Nat) (comma : String)
    (xtn : Mercury.extension) (r : String × String × Mercury.extension)
    (h : x509_cert.print_extension env fuel comma xtn = outcome.done r) :
    extension.same_but_cursor xtn r.2.2 := by
  unfold x509_cert.print_extension at h
  split at h
  · cases hp : x509_cert.print_typed (xtn.oid_string env) (x509_cert.typed_bodies env fuel)
        (comma ++ xtn.generic_object env, xtn.extnValue.value) with
    | done a =>
      rw [hp] at h
      simp only [outcome.bind, outcome.done.injEq] at h
      rw [← h]
      exact ⟨rfl, rfl, rfl, rfl, rfl⟩
    | fault => rw [hp] at h; simp [outcome.bind] at h
    | spin => rw [hp] at h; simp [outcome.bind] at h
  · simp only [outcome.done.injEq] at h
    rw [← h]
    exact ⟨rfl, rfl, rfl, rfl, rfl⟩

theorem x509_cert.print_extensions_frame (env : asn1) (fuel : Nat)
    (l : List Mercury.extension) :
    ∀ (comma : String) (r : String × List Mercury.extension),
      x509_cert.print_extensions env fuel comma l = outcome.done r →
      List.Forall₂ extension.same_but_cursor l r.2 := by
  induction l with
  | nil =>
    intro comma r h
    simp only [x509_cert.print_extensions, outcome.done.injEq] at h
    rw [← h]
    exact List.Forall₂.nil
  | cons x rest ih =>
    intro comma r h
    unfold x509_cert.print_extensions at h
    cases hx : x509_cert.print_extension env fuel comma x with
    | done a =>
      rw [hx] at h
      simp only [outcome.bind] at h
      cases hr : x509_cert.print_extensions env fuel a.2.1 rest with
      | done b =>
        rw [hr] at h
        simp only [outcome.done.injEq] at h
        rw [← h]
        exact List.Forall₂.cons (x509_cert.print_extension_frame env fuel comma x a hx)
          (ih _ b hr)
      | fault => rw [hr] at h; simp at h
      | spin => rw [hr] at h; simp at h
    | fault => rw [hx] at h; simp [outcome.bind] at h
    | spin => rw [hx] at h; simp [outcome.bind] at h

theorem x509_cert.print_f_shape (env : asn1) (fuel : Nat) (c : x509_cert)
    (r : output × x509_cert) (h : x509_cert.print_as_json env fuel c = outcome.done r) :
    ∃ key : String,
      r.1.f = "\x7b" ++ env.print_as_json_hex c.serial_number "serial_number" false
                ++ c.issuer.print_as_json env "issuer"
                ++ c.validity.print_as_json env
                ++ c.subject.print_as_json env "subject"
                ++ key
                ++ ",\"signature_algorithm\":" ++ c.signature_algorithm.print_as_json env
                ++ ","
                ++ env.print_as_json_hex c.signature.remove_bitstring_encoding "signature" false
                ++ "\x7d\n" := by
  unfold x509_cert.print_as_json at h
  cases hs : c.subjectPublicKeyInfo.print_as_json env "subject_public_key_info" with
  | done a =>
    rw [hs] at h
    simp only [outcome.bind] at h
    by_cases hl : c.extension.length > 0
    · rw [if_pos hl] at h
      cases hx : x509_cert.print_extensions env fuel "" c.extension with
      | done x =>
        rw [hx] at h
        simp only [outcome.done.injEq] at h
        exact ⟨a.1, by rw [← h]⟩
      | fault => rw [hx] at h; simp at h
      | spin => rw [hx] at h; simp at h
    · rw [if_neg hl] at h
      simp only [outcome.done.injEq] at h
      exact ⟨a.1, by rw [← h]⟩
  | fault => rw [hs] at h; simp [outcome.bind] at h
  | spin => rw [hs] at h; simp [outcome.bind] at h

theorem x509_cert.rendering_keeps_fields (env : asn1) (fuel : Nat) (c : x509_cert)
    (r : output × x509_cert) (h : x509_cert.print_as_json env fuel c = outcome.done r) :
    r.2 = { c with subjectPublicKeyInfo := r.2.subjectPublicKeyInfo,
                   extension := r.2.extension,
                   signature := c.signature.remove_bitstring_encoding }
    ∧ r.2.subjectPublicKeyInfo.sequence = c.subjectPublicKeyInfo.sequence
    ∧ r.2.subjectPublicKeyInfo.algorithm = c.subjectPublicKeyInfo.algorithm
    ∧ r.2.subjectPublicKeyInfo.subject_public_key.tag
        = c.subjectPublicKeyInfo.subject_public_key.tag
    ∧ List.Forall₂ extension.same_but_cursor c.extension r.2.extension := by
  unfold x509_cert.print_as_json at h
  cases hs : c.subjectPublicKeyInfo.print_as_json env "subject_public_key_info" with
  | done a =>
    rw [hs] at h
    simp only [outcome.bind] at h
    obtain ⟨h1, h2, h3⟩ := subject_public_key_info.print_key_frame env _ _ a hs
    by_cases hl : c.extension.length > 0
    · rw [if_pos hl] at h
      cases hx : x509_cert.print_extensions env fuel "" c.extension with
      | done x =>
        rw [hx] at h
        simp only [outcome.done.injEq] at h
        rw [← h]
        exact ⟨rfl, h1, h2, h3, x509_cert.print_extensions_frame env fuel _ "" x hx⟩
      | fault => rw [hx] at h; simp at h
      | spin => rw [hx] at h; simp at h
    · rw [if_neg hl] at h
      simp only [outcome.done.injEq] at h
      rw [← h]
      have hnil : c.extension = [] := List.length_eq_zero.mp (by omega)
      refine ⟨rfl, h1, h2, h3, ?_⟩
      simp only [hnil]
      exact List.Forall₂.nil
  | fault => rw [hs] at h; simp [outcome.bind] at h
  | spin => rw [hs] at h; simp [outcome.bind] at h


/-- C5 (amended). A completed `x509_cert::print_as_json` changes at most the subject
public key, the extension entries and the signature: every other field of the
certificate is as before, the signature is the one before with its first content
byte removed, the SubjectPublicKeyInfo keeps its sequence, its algorithm and the tag
of the key, and each extension entry keeps everything but the cursor of its
extnValue.  A second rendering writes to `f` the same text as the first up to the
subject public key member and the signature value. -/
theorem x509_cert.print_frame (env : asn1) (fuel : Nat) (c : x509_cert)
    (r : output × x509_cert) (h : x509_cert.print_as_json env fuel c = outcome.done r) :
    r.2 = { c with subjectPublicKeyInfo := r.2.subjectPublicKeyInfo,
                   extension := r.2.extension,
                   signature := c.signature.remove_bitstring_encoding }
    ∧ r.2.subjectPublicKeyInfo.sequence = c.subjectPublicKeyInfo.sequence
    ∧ r.2.subjectPublicKeyInfo.algorithm = c.subjectPublicKeyInfo.algorithm
    ∧ r.2.subjectPublicKeyInfo.subject_public_key.tag
        = c.subjectPublicKeyInfo.subject_public_key.tag
    ∧ List.Forall₂ extension.same_but_cursor c.extension r.2.extension
    ∧ ∀ r' : output × x509_cert, x509_cert.print_as_json env fuel r.2 = outcome.done r' →
        ∃ key sig key' sig' : String,
          r.1.f = "\x7b" ++ env.print_as_json_hex c.serial_number "serial_number" false
                    ++ c.issuer.print_as_json env "issuer"
                    ++ c.validity.print_as_json env
                    ++ c.subject.print_as_json env "subject"
                    ++ key
                    ++ ",\"signature_algorithm\":" ++ c.signature_algorithm.print_as_json env
                    ++ "," ++ sig ++ "\x7d\n"
          ∧ r'.1.f = "\x7b" ++ env.print_as_json_hex c.serial_number "serial_number" false
                    ++ c.issuer.print_as_json env "issuer"
                    ++ c.validity.print_as_json env
                    ++ c.subject.print_as_json env "subject"
                    ++ key'
                    ++ ",\"signature_algorithm\":" ++ c.signature_algorithm.print_as_json env
                    ++ "," ++ sig' ++ "\x7d\n" := by
  obtain ⟨hf, h1, h2, h3, h4⟩ := x509_cert.rendering_keeps_fields env fuel c r h
  refine ⟨hf, h1, h2, h3, h4, ?_⟩
  intro r' h'
  obtain ⟨key, hk⟩ := x509_cert.print_f_shape env fuel c r h
  obtain ⟨key', hk'⟩ := x509_cert.print_f_shape env fuel r.2 r' h'
  have e1 : r.2.serial_number = c.serial_number := by rw [hf]
  have e2 : r.2.issuer = c.issuer := by rw [hf]
  have e3 : r.2.validity = c.validity := by rw [hf]
  have e4 : r.2.subject = c.subject := by rw [hf]
  have e5 : r.2.signature_algorithm = c.signature_algorithm := by rw [hf]
  refine ⟨key, env.print_as_json_hex c.signature.remove_bitstring_encoding "signature" false,
    key', env.print_as_json_hex r.2.signature.remove_bitstring_encoding "signature" false,
    hk, ?_⟩
  rw [hk', e1, e2, e3, e4, e5]

/-! ## Evaluations at sample inputs -/

set_option maxRecDepth 1000000

/-- C3. On the empty input buffer, and on the input `30 05 30 03 02 01 05` (a
certificate that ends after its serial number), `x509_cert::parse` followed by
`x509_cert::print_as_json` faults, whatever the dictionary and the renderers:
`algorithm.type()` is `NULL` and `subject_public_key_info::print_as_json` passes it
to `strcmp`. -/
theorem x509_cert.print_faults_on_empty_input (env : asn1) (fuel : Nat) :
    x509_cert.print_as_json env fuel (x509_cert.parse []) = outcome.fault
    ∧ x509_cert.print_as_json env fuel (x509_cert.parse [48, 5, 48, 3, 2, 1, 5])
        = outcome.fault :=
  ⟨rfl, rfl⟩

/-- C2. For `cert_no_extensions` the tbsCertificate is followed, inside the outer
SEQUENCE, by a signatureAlgorithm and a signature BIT STRING (they decode from the
cursor that `x509_cert::parse` leaves in `certificate.value`), and yet
`signature_algorithm` and `signature` are null after `x509_cert::parse`: the return
of x509.h:1125-1127 comes before they are read. -/
theorem x509_cert.no_extensions_no_signature :
    (x509_cert.parse cert_no_extensions).signature = tlv.null
    ∧ (x509_cert.parse cert_no_extensions).signature_algorithm = algorithm_identifier.empty
    ∧ (x509_cert.parse cert_no_extensions).certificate.value.bytes
        = [48, 11, 6, 9, 42, 134, 72, 134, 247, 13, 1, 1, 11, 3, 3, 0, 170, 187]
    ∧ (algorithm_identifier.parse
        (x509_cert.parse cert_no_extensions).certificate.value).1.algorithm
        = ⟨6, 9, ⟨false, 115, [42, 134, 72, 134, 247, 13, 1, 1, 11]⟩⟩
    ∧ (tlv.parse (algorithm_identifier.parse
        (x509_cert.parse cert_no_extensions).certificate.value).2 tlv.BIT_STRING).1
        = ⟨3, 3, ⟨false, 126, [0, 170, 187]⟩⟩ := by
  decide

/-- C8. The extension of `cert_basic_constraints` carries a critical BOOLEAN with the
value byte `00`, and the `critical` text of `x509_cert::print_as_json` for it is
`true`. -/
theorem x509_cert.critical_zero_rendered_true :
    (x509_cert.parse cert_basic_constraints).extension.map
        (fun x => (x.critical.tag, x.critical.value.bytes, x.critical_str))
      = [(1, [0], "true")] := by
  decide

/-- C6. For `cert_basic_constraints` the text that `x509_cert::print_as_json(f)`
writes to `f` holds no `extensions` member: the whole `extensions` array is written
to `stdout`. -/
theorem x509_cert.extensions_written_to_stdout :
    (x509_cert.print_as_json asn1.sample 0 (x509_cert.parse cert_basic_constraints)).bind
        (fun r => outcome.done r.1)
      = outcome.done
          { f := "\x7b\"serial_number\":\"05\",\"issuer\":[\x7b\"id-at-commonName\":\"61\"\x7d],\"validity\":[\x7b\"notBefore\":\"3230303130313030303030305a\"\x7d,\x7b\"notAfter\":\"3231303130313030303030305a\"\x7d],\"subject\":[\x7b\"id-at-commonName\":\"61\"\x7d],\"subject_public_key_info\":\x7b\"algorithm\":\x7b\"algorithm\":\"rsaEncryption\"\x7d,\"subject_public_key\":\x7b\"modulus\":\"07\",\"exponent\":\"03\"\x7d\x7d,\"signature_algorithm\":\x7b\"algorithm\":\"sha256WithRSAEncryption\"\x7d,\"signature\":\"aabb\"\x7d\n",
            stdout := ",\"extensions\":[\x7b\"id-ce-basicConstraints\":\"30030101ff\",\"critical\":true\x7d,\x7b\"BasicConstraints\":\x7b\"ca\":true,\"pathLenConstraint\":0\x7d\x7d]" } := by
  decide

theorem certificate_policies.print_step_stuck (env : asn1) (c : String) (p : parser)
    (t : Nat) (r : List Nat) (hb : p.bytes = t :: r) (ht : t ≠ tlv.SEQUENCE) :
    (certificate_policies.print_step env c p).2 = p := by
  unfold certificate_policies.print_step policy_information.parse
  simp only []
  rw [tlv.parse_mismatch p _ t r hb (by decide) ht]

theorem certificate_policies.print_loop_spins (env : asn1) (p : parser)
    (t : Nat) (r : List Nat) (hb : p.bytes = t :: r) (ht : t ≠ tlv.SEQUENCE) (fuel : Nat) :
    ∀ c : String, certificate_policies.print_loop env fuel c p = outcome.spin := by
  have hlen : parser_get_data_length p > 0 := by simp [parser_get_data_length, hb]
  induction fuel with
  | zero => intro c; simp [certificate_policies.print_loop, hlen]
  | succ n ih =>
    intro c
    unfold certificate_policies.print_loop
    rw [if_pos hlen, certificate_policies.print_step_stuck env c p t r hb ht, ih]
    rfl

theorem x509_cert.print_policies_null_spins (fuel : Nat) :
    x509_cert.print_as_json asn1.sample fuel (x509_cert.parse cert_policies_null)
      = outcome.spin := by
  have hs : ∃ a, (x509_cert.parse cert_policies_null).subjectPublicKeyInfo.print_as_json
      asn1.sample "subject_public_key_info" = outcome.done a := by
    have hsome : ((x509_cert.parse cert_policies_null).subjectPublicKeyInfo.print_as_json
      asn1.sample "subject_public_key_info").result.isSome = true := by decide
    cases h : (x509_cert.parse cert_policies_null).subjectPublicKeyInfo.print_as_json
      asn1.sample "subject_public_key_info" with
    | done a => exact ⟨a, rfl⟩
    | fault => rw [h] at hsome; simp [outcome.result] at hsome
    | spin => rw [h] at hsome; simp [outcome.result] at hsome
  obtain ⟨a, ha⟩ := hs
  have hx : (x509_cert.parse cert_policies_null).extension
      = [⟨⟨48, 11, ⟨false, 129, []⟩⟩, ⟨6, 3, ⟨false, 120, [85, 29, 32]⟩⟩, tlv.null,
          ⟨4, 4, ⟨false, 125, [48, 2, 5, 0]⟩⟩⟩] := by decide
  have hbody : ("id-ce-certificatePolicies", fun p =>
      ((certificate_policies.parse p).1.print_as_json asn1.sample fuel "certificate_policies"
          ",\x7b" "\x7d").bind
        (fun t => outcome.done (t, (certificate_policies.parse p).2)))
      ∈ x509_cert.typed_bodies asn1.sample fuel := by
    simp [x509_cert.typed_bodies]
  have hparse : (certificate_policies.parse ⟨false, 125, [48, 2, 5, 0]⟩).1
      = ⟨⟨0x30, 2, ⟨false, 127, [0x05, 0x00]⟩⟩⟩ := by decide
  have ho : extension.oid_string asn1.sample
      ⟨⟨48, 11, ⟨false, 129, []⟩⟩, ⟨6, 3, ⟨false, 120, [85, 29, 32]⟩⟩, tlv.null,
        ⟨4, 4, ⟨false, 125, [48, 2, 5, 0]⟩⟩⟩ = some "id-ce-certificatePolicies" := by decide
  have hext : x509_cert.print_extension asn1.sample fuel ""
      ⟨⟨48, 11, ⟨false, 129, []⟩⟩, ⟨6, 3, ⟨false, 120, [85, 29, 32]⟩⟩, tlv.null,
        ⟨4, 4, ⟨false, 125, [48, 2, 5, 0]⟩⟩⟩ = outcome.spin := by
    unfold x509_cert.print_extension
    rw [if_pos (by decide), x509_cert.print_typed_one _ _
      (x509_cert.typed_bodies_nodup asn1.sample fuel) _ hbody ho]
    simp only []
    rw [hparse]
    unfold certificate_policies.print_as_json
    rw [certificate_policies.print_loop_spins asn1.sample _ 5 [0] rfl (by decide)]
    rfl
  unfold x509_cert.print_as_json
  rw [ha, hx]
  simp only [outcome.bind, List.length_singleton, gt_iff_lt, Nat.lt_one_iff, if_true]
  unfold x509_cert.print_extensions
  rw [hext]
  rfl

/-- C4. Rendering CertificatePolicies does not terminate on the extnValue
`30 02 05 00` (the extension of `cert_policies_null`): the iteration of the loop of
`certificate_policies::print_as_json` on the cursor `05 00` leaves the cursor as it
was, so the loop is still running after any number of iterations, and so is
`x509_cert::print_as_json` on that certificate. -/
theorem certificate_policies.print_never_ends (env : asn1) (fuel : Nat) :
    (x509_cert.parse cert_policies_null).extension.map (fun x => x.extnValue.value.bytes)
      = [[0x30, 0x02, 0x05, 0x00]]
    ∧ (certificate_policies.print_step env "\x7b" ⟨false, 2, [0x05, 0x00]⟩).2
        = ⟨false, 2, [0x05, 0x00]⟩
    ∧ (certificate_policies.parse ⟨false, 0, [0x30, 0x02, 0x05, 0x00]⟩).1.print_as_json
        env fuel "certificate_policies" ",\x7b" "\x7d" = outcome.spin
    ∧ x509_cert.print_as_json asn1.sample fuel (x509_cert.parse cert_policies_null)
        = outcome.spin := by
  refine ⟨by decide, ?_, ?_, ?_⟩
  · exact certificate_policies.print_step_stuck env "\x7b" _ 5 [0] rfl (by decide)
  · have hp : (certificate_policies.parse ⟨false, 0, [0x30, 0x02, 0x05, 0x00]⟩).1
        = ⟨⟨0x30, 2, ⟨false, 2, [0x05, 0x00]⟩⟩⟩ := by decide
    rw [hp]
    unfold certificate_policies.print_as_json
    rw [certificate_policies.print_loop_spins env _ 5 [0] rfl (by decide)]
    rfl
  · exact x509_cert.print_policies_null_spins fuel

/-- C1, witness: the tbsCertificate `02 01 01 02 01 05`, whose first INTEGER has length
1 and value 1, so that it is stored as `version` and the next INTEGER as
`serial_number`. -/
theorem x509_cert.parse_version_absent_witness :
    (x509_cert.tbs_start [48, 8, 48, 6, 2, 1, 1, 2, 1, 5]).bytes.head? ≠ some 0xa0
    ∧ tlv.parse (x509_cert.tbs_start [48, 8, 48, 6, 2, 1, 1, 2, 1, 5]) tlv.INTEGER
        = (⟨2, 1, ⟨false, 6, [1]⟩⟩, ⟨false, 7, [2, 1, 5]⟩)
    ∧ (⟨2, 1, ⟨false, 6, [1]⟩⟩ : tlv).is_not_null = true
    ∧ (x509_cert.parse [48, 8, 48, 6, 2, 1, 1, 2, 1, 5]).version = ⟨2, 1, ⟨false, 6, [1]⟩⟩
    ∧ (x509_cert.parse [48, 8, 48, 6, 2, 1, 1, 2, 1, 5]).serial_number
        = (tlv.parse ⟨false, 7, [2, 1, 5]⟩ tlv.INTEGER).1 :=
  ⟨by decide, by decide, by decide,
   (x509_cert.parse_version_absent [48, 8, 48, 6, 2, 1, 1, 2, 1, 5] ⟨2, 1, ⟨false, 6, [1]⟩⟩
      ⟨false, 7, [2, 1, 5]⟩ (by decide) (by decide) (by decide)).1.mpr (by decide),
   ((x509_cert.parse_version_absent [48, 8, 48, 6, 2, 1, 1, 2, 1, 5] ⟨2, 1, ⟨false, 6, [1]⟩⟩
      ⟨false, 7, [2, 1, 5]⟩ (by decide) (by decide) (by decide)).2.1 (by decide)).1⟩

/-- C7, witness: the basicConstraints entry of `cert_basic_constraints`. -/
theorem x509_cert.parse_extension_fields_witness :
    (⟨⟨48, 15, ⟨false, 134, []⟩⟩, ⟨6, 3, ⟨false, 121, [85, 29, 19]⟩⟩,
        ⟨1, 1, ⟨false, 126, [0]⟩⟩, ⟨4, 5, ⟨false, 129, [48, 3, 1, 1, 255]⟩⟩⟩ : Mercury.extension)
      ∈ (x509_cert.parse cert_basic_constraints).extension
    ∧ (⟨48, 15, ⟨false, 134, []⟩⟩ : tlv).is_constructed = true
    ∧ ∃ q : parser,
        q.bytes <:+ (x509_cert.parse_extensions_tlv
                      (x509_cert.parse_tbs cert_basic_constraints).tbs_certificate.value).1.value.bytes
        ∧ q.bytes ≠ []
        ∧ 48 = (tlv.parse q 0).1.tag
        ∧ 15 = (tlv.parse q 0).1.length
        ∧ (⟨6, 3, ⟨false, 121, [85, 29, 19]⟩⟩ : tlv) = (tlv.parse (tlv.parse q 0).1.value 0).1
        ∧ ((tlv.parse (tlv.parse (tlv.parse q 0).1.value 0).2 0).1.tag = 0x01 →
            (⟨1, 1, ⟨false, 126, [0]⟩⟩ : tlv)
              = (tlv.parse (tlv.parse (tlv.parse q 0).1.value 0).2 0).1
            ∧ (⟨4, 5, ⟨false, 129, [48, 3, 1, 1, 255]⟩⟩ : tlv)
              = (tlv.parse (tlv.parse (tlv.parse (tlv.parse q 0).1.value 0).2 0).2 0).1)
        ∧ ((tlv.parse (tlv.parse (tlv.parse q 0).1.value 0).2 0).1.tag ≠ 0x01 →
            (⟨4, 5, ⟨false, 129, [48, 3, 1, 1, 255]⟩⟩ : tlv)
              = (tlv.parse (tlv.parse (tlv.parse q 0).1.value 0).2 0).1
            ∧ (⟨1, 1, ⟨false, 126, [0]⟩⟩ : tlv) = tlv.null) :=
  ⟨by decide, by decide,
   x509_cert.parse_extension_fields cert_basic_constraints
     ⟨⟨48, 15, ⟨false, 134, []⟩⟩, ⟨6, 3, ⟨false, 121, [85, 29, 19]⟩⟩,
        ⟨1, 1, ⟨false, 126, [0]⟩⟩, ⟨4, 5, ⟨false, 129, [48, 3, 1, 1, 255]⟩⟩⟩
     (by decide) (by decide)⟩

/-- C9, witness: the basicConstraints entry of `cert_basic_constraints` under the
sample dictionary. -/
theorem x509_cert.oid_dispatch_witness :
    (⟨48, 15, ⟨false, 134, []⟩⟩ : tlv).is_constructed = true
    ∧ x509_cert.print_extension asn1.sample 0 ""
        ⟨⟨48, 15, ⟨false, 134, []⟩⟩, ⟨6, 3, ⟨false, 121, [85, 29, 19]⟩⟩,
          ⟨1, 1, ⟨false, 126, [0]⟩⟩, ⟨4, 5, ⟨false, 129, [48, 3, 1, 1, 255]⟩⟩⟩
      = outcome.done
          ("\x7b\"id-ce-basicConstraints\":\"30030101ff\",\"critical\":true\x7d,\x7b\"BasicConstraints\":\x7b\"ca\":true,\"pathLenConstraint\":0\x7d\x7d",
           ",",
           ⟨⟨48, 15, ⟨false, 134, []⟩⟩, ⟨6, 3, ⟨false, 121, [85, 29, 19]⟩⟩,
            ⟨1, 1, ⟨false, 126, [0]⟩⟩, ⟨4, 5, ⟨false, 134, []⟩⟩⟩) :=
  ⟨by decide,
   ((x509_cert.oid_dispatch asn1.sample 0 ""
      ⟨⟨48, 15, ⟨false, 134, []⟩⟩, ⟨6, 3, ⟨false, 121, [85, 29, 19]⟩⟩,
        ⟨1, 1, ⟨false, 126, [0]⟩⟩, ⟨4, 5, ⟨false, 129, [48, 3, 1, 1, 255]⟩⟩⟩ (by decide)).2.1
      ("id-ce-basicConstraints", fun p =>
        outcome.done ((basic_constraints.parse p).1.print_as_json, (basic_constraints.parse p).2))
      (by simp [x509_cert.typed_bodies]) (by decide)).trans (by decide)⟩

/-- C5, counterexample: two successive renderings of `cert_basic_constraints` write
different text, and the first rendering changes the signature, the subject public
key and the extnValue cursor. -/
theorem x509_cert.second_rendering_differs :
    (x509_cert.print_as_json asn1.sample 0 (x509_cert.parse cert_basic_constraints)).result.map
        (fun r => (r.1.f, r.1.stdout))
      = some
          ("\x7b\"serial_number\":\"05\",\"issuer\":[\x7b\"id-at-commonName\":\"61\"\x7d],\"validity\":[\x7b\"notBefore\":\"3230303130313030303030305a\"\x7d,\x7b\"notAfter\":\"3231303130313030303030305a\"\x7d],\"subject\":[\x7b\"id-at-commonName\":\"61\"\x7d],\"subject_public_key_info\":\x7b\"algorithm\":\x7b\"algorithm\":\"rsaEncryption\"\x7d,\"subject_public_key\":\x7b\"modulus\":\"07\",\"exponent\":\"03\"\x7d\x7d,\"signature_algorithm\":\x7b\"algorithm\":\"sha256WithRSAEncryption\"\x7d,\"signature\":\"aabb\"\x7d\n",
           ",\"extensions\":[\x7b\"id-ce-basicConstraints\":\"30030101ff\",\"critical\":true\x7d,\x7b\"BasicConstraints\":\x7b\"ca\":true,\"pathLenConstraint\":0\x7d\x7d]")
    ∧ (x509_cert.print_as_json asn1.sample 0 (x509_cert.parse cert_basic_constraints)).result.bind
        (fun r => (x509_cert.print_as_json asn1.sample 0 r.2).result.map
          (fun r' => (r'.1.f, r'.1.stdout)))
      = some
          ("\x7b\"serial_number\":\"05\",\"issuer\":[\x7b\"id-at-commonName\":\"61\"\x7d],\"validity\":[\x7b\"notBefore\":\"3230303130313030303030305a\"\x7d,\x7b\"notAfter\":\"3231303130313030303030305a\"\x7d],\"subject\":[\x7b\"id-at-commonName\":\"61\"\x7d],\"subject_public_key_info\":\x7b\"algorithm\":\x7b\"algorithm\":\"rsaEncryption\"\x7d,\"subject_public_key\":\x7b\x7d\x7d,\"signature_algorithm\":\x7b\"algorithm\":\"sha256WithRSAEncryption\"\x7d,\"signature\":\"bb\"\x7d\n",
           ",\"extensions\":[\x7b\"id-ce-basicConstraints\":\"\",\"critical\":true\x7d,\x7b\"BasicConstraints\":\x7b\"ca\":false,\"pathLenConstraint\":0\x7d\x7d]")
    ∧ ((x509_cert.parse cert_basic_constraints).signature.value.bytes,
       (x509_cert.parse cert_basic_constraints).subjectPublicKeyInfo.subject_public_key.value.bytes,
       (x509_cert.parse cert_basic_constraints).extension.map (fun x => x.extnValue.value.bytes))
      = ([0, 170, 187], [0, 48, 6, 2, 1, 7, 2, 1, 3], [[48, 3, 1, 1, 255]])
    ∧ (x509_cert.print_as_json asn1.sample 0 (x509_cert.parse cert_basic_constraints)).result.map
        (fun r => (r.2.signature.value.bytes,
                   r.2.subjectPublicKeyInfo.subject_public_key.value.bytes,
                   r.2.extension.map (fun x => x.extnValue.value.bytes)))
      = some ([170, 187], [], [[]])
    ∧ (x509_cert.print_as_json asn1.sample 0 (x509_cert.parse cert_basic_constraints)).result.map
        (fun r => (r.1.f, r.1.stdout))
      ≠ (x509_cert.print_as_json asn1.sample 0 (x509_cert.parse cert_basic_constraints)).result.bind
        (fun r => (x509_cert.print_as_json asn1.sample 0 r.2).result.map
          (fun r' => (r'.1.f, r'.1.stdout))) := by
  decide

/-- C5, witness: the first rendering of `cert_basic_constraints`. -/
theorem x509_cert.print_frame_witness :
    ∃ r : output × x509_cert,
      x509_cert.print_as_json asn1.sample 0 (x509_cert.parse cert_basic_constraints)
        = outcome.done r
      ∧ r.2.subjectPublicKeyInfo.algorithm
          = (x509_cert.parse cert_basic_constraints).subjectPublicKeyInfo.algorithm
      ∧ List.Forall₂ extension.same_but_cursor
          (x509_cert.parse cert_basic_constraints).extension r.2.extension := by
  have hsome : (x509_cert.print_as_json asn1.sample 0
      (x509_cert.parse cert_basic_constraints)).result.isSome = true := by decide
  cases h : x509_cert.print_as_json asn1.sample 0 (x509_cert.parse cert_basic_constraints) with
  | done r =>
    exact ⟨r, rfl,
      (x509_cert.print_frame asn1.sample 0 (x509_cert.parse cert_basic_constraints) r h).2.2.1,
      (x509_cert.print_frame asn1.sample 0 (x509_cert.parse cert_basic_constraints) r h).2.2.2.2.1⟩
  | fault => rw [h] at hsome; simp [outcome.result] at hsome
  | spin => rw [h] at hsome; simp [outcome.result] at hsome

/-! ## Names -/

theorem tlv.parse_own_tag (p : parser) (t : Nat) (r : List Nat) (hb : p.bytes = t :: r) :
    tlv.parse p t = tlv.parse p 0 := by
  unfold tlv.parse
  rw [hb]
  simp

theorem tlv.parse_der_element_tagged (nl : Bool) (pos tag : Nat) (content rest : List Nat)
    (hlen : content.length < 4294967296) :
    tlv.parse ⟨nl, pos, der_element tag content ++ rest⟩ tag
      = (⟨tag, content.length, ⟨false, pos + 1 + (der_length content.length).length, content⟩⟩,
         ⟨nl, pos + (der_element tag content).length, rest⟩) := by
  rw [tlv.parse_own_tag _ tag (der_length content.length ++ content ++ rest)
    (by simp [der_element])]
  exact tlv.parse_der_element nl pos tag content rest hlen

theorem name.parse_rdn_der (nl : Bool) (pos tag : Nat) (content rest : List Nat)
    (hlen : content.length < 4294967296) :
    name.parse_rdn ⟨nl, pos, der_element tag content ++ rest⟩
      = ((name.parse_rdn ⟨false, pos, der_element tag content⟩).1,
         ⟨nl, pos + (der_element tag content).length, rest⟩) := by
  have h1 := tlv.parse_der_element nl pos tag content rest hlen
  have h2 := tlv.parse_der_element false pos tag content [] hlen
  rw [List.append_nil] at h2
  unfold name.parse_rdn Attribute.parse
  rw [h1, h2]

theorem name.parse_rdns_der (es : List (Nat × List Nat)) :
    ∀ (fuel : Nat) (nl : Bool) (pos : Nat) (l : List Attribute),
      (∀ e ∈ es, e.2.length < 4294967296) → es.length ≤ fuel →
      name.parse_rdns fuel ⟨nl, pos, der_elements es⟩ l
        = (⟨nl, pos + (der_elements es).length, []⟩, l ++ rdn_entries pos es) := by
  induction es with
  | nil =>
    intro fuel nl pos l _ _
    cases fuel <;> simp [name.parse_rdns, der_elements, rdn_entries, parser_get_data_length]
  | cons e rest ih =>
    intro fuel nl pos l hes hfuel
    cases fuel with
    | zero => simp at hfuel
    | succ n =>
      have he : e.2.length < 4294967296 := hes e (List.mem_cons_self _ _)
      have hrest : ∀ x ∈ rest, x.2.length < 4294967296 :=
        fun x hx => hes x (List.mem_cons_of_mem _ hx)
      have hpos : parser_get_data_length ⟨nl, pos, der_elements (e :: rest)⟩ > 0 := by
        simp [parser_get_data_length, der_elements, der_element]
      unfold name.parse_rdns
      rw [if_pos hpos]
      simp only [der_elements]
      rw [name.parse_rdn_der nl pos e.1 e.2 _ he]
      simp only []
      rw [ih n nl _ _ hrest (by simpa using hfuel)]
      simp [rdn_entries, Nat.add_assoc]

theorem name.parse_outer_der (es : List (Nat × List Nat)) (nl : Bool) (pos : Nat)
    (hes : ∀ e ∈ es, e.2.length < 4294967296) :
    (name.parse_outer (der_elements es).length ⟨nl, pos, der_elements es⟩ []).2
      = rdn_entries pos es := by
  cases hn : (der_elements es).length with
  | zero =>
    have := der_elements_eq_nil es (List.length_eq_zero.mp hn)
    subst this
    rfl
  | succ n =>
    unfold name.parse_outer
    have hpos : parser_get_data_length ⟨nl, pos, der_elements es⟩ > 0 := by
      simp [parser_get_data_length, hn]
    rw [if_pos hpos]
    have hr := name.parse_rdns_der es (parser_get_data_length ⟨nl, pos, der_elements es⟩) nl pos []
      hes (by simpa [parser_get_data_length] using der_elements_length es)
    rw [hr, name.parse_outer_of_empty n _ _ rfl]
    simp

theorem name.parse_pairs_set (fuel : Nat) :
    ∀ r : Attribute, (name.parse_pairs fuel r).set = r.set := by
  induction fuel with
  | zero => intro r; rfl
  | succ n ih =>
    intro r
    unfold name.parse_pairs
    split
    · simp only []
      split
      · rw [ih]
      · rw [ih]
    · rfl

theorem rdn_entries_set (es : List (Nat × List Nat))
    (hes : ∀ e ∈ es, e.2.length < 4294967296) :
    ∀ pos : Nat, (rdn_entries pos es).map (fun a => (a.set.tag, a.set.length))
      = es.map (fun e => (e.1, e.2.length)) := by
  induction es with
  | nil => intro pos; rfl
  | cons e rest ih =>
    intro pos
    have he : e.2.length < 4294967296 := hes e (List.mem_cons_self _ _)
    have hrest : ∀ x ∈ rest, x.2.length < 4294967296 :=
      fun x hx => hes x (List.mem_cons_of_mem _ hx)
    have h2 := tlv.parse_der_element false pos e.1 e.2 [] he
    rw [List.append_nil] at h2
    simp only [rdn_entries, List.map_cons, ih hrest]
    congr 1
    unfold name.parse_rdn Attribute.parse
    rw [h2]
    simp only []
    split
    · rw [name.parse_pairs_set]
    · rfl

theorem name.print_rdns_first (env : asn1) (l : List Attribute) :
    name.print_rdns env true l = comma_separated (l.map (fun a => a.print_as_json env))
    ∧ (l ≠ [] → name.print_rdns env false l
        = "," ++ comma_separated (l.map (fun a => a.print_as_json env))) := by
  induction l with
  | nil => exact ⟨rfl, fun h => absurd rfl h⟩
  | cons a rest ih =>
    cases rest with
    | nil =>
      refine ⟨?_, fun _ => ?_⟩
      · simp [name.print_rdns, comma_separated]
      · simp [name.print_rdns, comma_separated]
    | cons b rest' =>
      have h2 := ih.2 (by simp)
      refine ⟨?_, fun _ => ?_⟩
      · rw [name.print_rdns, h2]
        simp [comma_separated, String.append_assoc]
      · rw [name.print_rdns, h2]
        simp [comma_separated, String.append_assoc]

/-- C11. Name ordering: when the content of the RDNSequence is the encoding of the
elements `es`, the list `rdn` of `name::parse` holds one entry per element, in input
order, each decoded from its element (with that element's tag and length), and
`name::print_as_json` writes nothing when there is no element and otherwise one
array with the objects of the entries in list order, separated by commas. -/
theorem name.rdn_order (nl : Bool) (pos : Nat) (es : List (Nat × List Nat)) (rest : List Nat)
    (hes : ∀ e ∈ es, e.2.length < 4294967296)
    (hlen : (der_elements es).length < 4294967296) :
    (name.parse ⟨nl, pos, der_element 0x30 (der_elements es) ++ rest⟩).1.rdn
        = rdn_entries (pos + 1 + (der_length (der_elements es).length).length) es
    ∧ (name.parse ⟨nl, pos, der_element 0x30 (der_elements es) ++ rest⟩).1.rdn.map
          (fun a => (a.set.tag, a.set.length))
        = es.map (fun e => (e.1, e.2.length))
    ∧ ∀ (env : asn1) (label : String),
        (name.parse ⟨nl, pos, der_element 0x30 (der_elements es) ++ rest⟩).1.print_as_json
            env label
          = if es = [] then ""
            else ",\"" ++ label ++ "\":["
              ++ comma_separated
                  ((name.parse ⟨nl, pos, der_element 0x30 (der_elements es) ++ rest⟩).1.rdn.map
                    (fun a => a.print_as_json env))
              ++ "]" := by
  have hrdn : (name.parse ⟨nl, pos, der_element 0x30 (der_elements es) ++ rest⟩).1.rdn
      = rdn_entries (pos + 1 + (der_length (der_elements es).length).length) es := by
    unfold name.parse
    simp only []
    have h := tlv.parse_der_element_tagged nl pos 0x30 (der_elements es) rest hlen
    simp only [tlv.SEQUENCE]
    rw [h]
    exact name.parse_outer_der es false _ hes
  refine ⟨hrdn, ?_, ?_⟩
  · rw [hrdn]
    exact rdn_entries_set es hes _
  · intro env label
    unfold name.print_as_json
    rw [hrdn]
    cases es with
    | nil => simp [rdn_entries]
    | cons e es' =>
      rw [if_pos (by simp [rdn_entries]), if_neg (by simp), (name.print_rdns_first env _).1]

/-! ## Version and serial number -/


theorem x509_cert.parse_version_of_tagged (tv : parser) (etv : tlv) (rest : parser)
    (h : tlv.parse tv (tlv.explicit_tag_constructed 0) = (etv, rest))
    (hnn : etv.is_not_null = true) :
    x509_cert.parse_version tv
      = ({ etv with value := (tlv.parse etv.value tlv.INTEGER).2 },
         (tlv.parse etv.value tlv.INTEGER).1,
         (tlv.parse rest tlv.INTEGER).1, (tlv.parse rest tlv.INTEGER).2) := by
  have h1 : tlv.null.is_null = true := by decide
  unfold x509_cert.parse_version
  simp only [h, hnn, if_true]
  rw [if_pos h1]

/-- C15. `x509_cert::parse`, version present: when the tbsCertificate starts with an
element of tag `0xa0`, `version` is the INTEGER decoded inside that element,
`serial_number` is the INTEGER decoded right after the element, whatever its length
and value, and the AlgorithmIdentifier is read after it. -/
theorem x509_cert.parse_version_present (buffer : List Nat) (etv : tlv) (rest : parser)
    (h : tlv.parse (x509_cert.tbs_start buffer) (tlv.explicit_tag_constructed 0) = (etv, rest))
    (hnn : etv.is_not_null = true) :
    (x509_cert.parse buffer).version = (tlv.parse etv.value tlv.INTEGER).1
    ∧ (x509_cert.parse buffer).serial_number = (tlv.parse rest tlv.INTEGER).1
    ∧ (x509_cert.parse buffer).algorithm_identifier
        = (algorithm_identifier.parse (tlv.parse rest tlv.INTEGER).2).1 := by
  obtain ⟨hv, hs, ha⟩ := x509_cert.parse_version_field buffer
  rw [hv, hs, ha, x509_cert.parse_version_of_tagged _ etv rest h hnn]
  exact ⟨rfl, rfl, rfl⟩

/-- C15, witness: the tbsCertificate `a0 03 02 01 02 02 01 01`, version 2 and the
serial number 1 (one byte, below 3). -/
theorem x509_cert.parse_version_present_witness :
    tlv.parse (x509_cert.tbs_start [48, 10, 48, 8, 160, 3, 2, 1, 2, 2, 1, 1])
        (tlv.explicit_tag_constructed 0)
      = (⟨160, 3, ⟨false, 6, [2, 1, 2]⟩⟩, ⟨false, 9, [2, 1, 1]⟩)
    ∧ (⟨160, 3, ⟨false, 6, [2, 1, 2]⟩⟩ : tlv).is_not_null = true
    ∧ (x509_cert.parse [48, 10, 48, 8, 160, 3, 2, 1, 2, 2, 1, 1]).version
        = (tlv.parse ⟨false, 6, [2, 1, 2]⟩ tlv.INTEGER).1
    ∧ (x509_cert.parse [48, 10, 48, 8, 160, 3, 2, 1, 2, 2, 1, 1]).serial_number
        = (tlv.parse ⟨false, 9, [2, 1, 1]⟩ tlv.INTEGER).1
    ∧ (x509_cert.parse [48, 10, 48, 8, 160, 3, 2, 1, 2, 2, 1, 1]).algorithm_identifier
        = (algorithm_identifier.parse (tlv.parse ⟨false, 9, [2, 1, 1]⟩ tlv.INTEGER).2).1 :=
  ⟨by decide, by decide,
   x509_cert.parse_version_present [48, 10, 48, 8, 160, 3, 2, 1, 2, 2, 1, 1]
     ⟨160, 3, ⟨false, 6, [2, 1, 2]⟩⟩ ⟨false, 9, [2, 1, 1]⟩ (by decide) (by decide)⟩

/-- C16, counterexample: in `cert_serial_zero` the tbsCertificate starts with the
INTEGER `02 01 00` followed by the AlgorithmIdentifier, and after
`x509_cert::parse` the field `serial_number` is null; the INTEGER is in `version`. -/
theorem x509_cert.serial_zero_taken_for_version :
    (x509_cert.tbs_start cert_serial_zero).bytes.take 5 = [2, 1, 0, 48, 11]
    ∧ (x509_cert.parse cert_serial_zero).serial_number = tlv.null
    ∧ (x509_cert.parse cert_serial_zero).version = ⟨2, 1, ⟨false, 6, [0]⟩⟩ := by
  decide

/-- C16 (amended). When the [0] EXPLICIT version element is omitted and the first
element is a one-byte INTEGER with a value below 3 that is followed directly by an
element that is no INTEGER (the AlgorithmIdentifier), `x509_cert::parse` stores that
INTEGER as `version`, leaves `serial_number` null and decodes the
AlgorithmIdentifier from the element that follows. -/
theorem x509_cert.parse_small_serial (buffer : List Nat) (first : tlv) (rest : parser)
    (next : Nat) (more : List Nat)
    (hno : (x509_cert.tbs_start buffer).bytes.head? ≠ some 0xa0)
    (hint : tlv.parse (x509_cert.tbs_start buffer) tlv.INTEGER = (first, rest))
    (hnn : first.is_not_null = true)
    (hlen : first.length = 1) (hval : first.value.bytes.headD 0 < 3)
    (hrest : rest.bytes = next :: more) (hnext : next ≠ tlv.INTEGER) :
    (x509_cert.parse buffer).version = first
    ∧ (x509_cert.parse buffer).serial_number = tlv.null
    ∧ (x509_cert.parse buffer).algorithm_identifier = (algorithm_identifier.parse rest).1 := by
  obtain ⟨hv, hs, ha⟩ := x509_cert.parse_version_field buffer
  rw [hv, hs, ha, x509_cert.parse_version_of_integer _ first rest hno hint hnn,
    if_pos ⟨hlen, hval⟩, tlv.parse_mismatch rest _ next more hrest (by decide) hnext]
  exact ⟨rfl, rfl, rfl⟩

/-- C16, witness: `cert_serial_zero`. -/
theorem x509_cert.parse_small_serial_witness :
    (x509_cert.tbs_start cert_serial_zero).bytes.head? ≠ some 0xa0
    ∧ tlv.parse (x509_cert.tbs_start cert_serial_zero) tlv.INTEGER
        = (⟨2, 1, ⟨false, 6, [0]⟩⟩, ⟨false, 7, (x509_cert.tbs_start cert_serial_zero).bytes.drop 3⟩)
    ∧ (x509_cert.parse cert_serial_zero).version = ⟨2, 1, ⟨false, 6, [0]⟩⟩
    ∧ (x509_cert.parse cert_serial_zero).serial_number = tlv.null
    ∧ (x509_cert.parse cert_serial_zero).algorithm_identifier.algorithm
        = ⟨6, 9, ⟨false, 11, [42, 134, 72, 134, 247, 13, 1, 1, 11]⟩⟩ := by
  have h := x509_cert.parse_small_serial cert_serial_zero ⟨2, 1, ⟨false, 6, [0]⟩⟩
    ⟨false, 7, (x509_cert.tbs_start cert_serial_zero).bytes.drop 3⟩ 48
    ((x509_cert.tbs_start cert_serial_zero).bytes.drop 4)
    (by decide) (by decide) (by decide) (by decide) (by decide) (by decide) (by decide)
  refine ⟨by decide, by decide, h.1, h.2.1, ?_⟩
  rw [h.2.2]
  decide

/-! ## Attributes, BasicConstraints, GeneralName, EC keys -/


/-- C11, witness: a Name of two RDNs, commonName `a` and organizationName `b`. -/
theorem name.rdn_order_witness :
    (∀ e ∈ [((49 : Nat), [48, 8, 6, 3, 85, 4, 3, 19, 1, 97]),
            (49, [48, 8, 6, 3, 85, 4, 10, 19, 1, 98])], e.2.length < 4294967296)
    ∧ (der_elements [((49 : Nat), [48, 8, 6, 3, 85, 4, 3, 19, 1, 97]),
            (49, [48, 8, 6, 3, 85, 4, 10, 19, 1, 98])]).length < 4294967296
    ∧ (name.parse ⟨false, 0, der_element 0x30 (der_elements
          [((49 : Nat), [48, 8, 6, 3, 85, 4, 3, 19, 1, 97]),
           (49, [48, 8, 6, 3, 85, 4, 10, 19, 1, 98])]) ++ []⟩).1.rdn.map
          (fun a => (a.set.tag, a.set.length, a.attribute_type.value.bytes,
                     a.attribute_value.value.bytes))
        = [(49, 10, [85, 4, 3], [97]), (49, 10, [85, 4, 10], [98])]
    ∧ (name.parse ⟨false, 0, der_element 0x30 (der_elements
          [((49 : Nat), [48, 8, 6, 3, 85, 4, 3, 19, 1, 97]),
           (49, [48, 8, 6, 3, 85, 4, 10, 19, 1, 98])]) ++ []⟩).1.print_as_json
          asn1.sample "issuer"
        = ",\"issuer\":[\x7b\"id-at-commonName\":\"61\"\x7d,\x7b\"unknown_oid\":\"62\"\x7d]" := by
  have h := name.rdn_order false 0
    [((49 : Nat), [48, 8, 6, 3, 85, 4, 3, 19, 1, 97]), (49, [48, 8, 6, 3, 85, 4, 10, 19, 1, 98])]
    [] (by decide) (by decide)
  refine ⟨by decide, by decide, ?_, ?_⟩
  · rw [h.1]
    decide
  · rw [h.2.2 asn1.sample "issuer", h.1]
    decide

/-- C12. For `name_multi_valued`, one RDN SET that holds two AttributeTypeAndValue
SEQUENCEs, `name::parse` yields one entry with the pair of the first SEQUENCE; the
second SEQUENCE stays unread in the cursor of the SET, and `name::print_as_json`
writes the object of the first pair only. -/
theorem name.second_pair_dropped :
    (name.parse ⟨false, 0, name_multi_valued⟩).1.rdn.map
        (fun a => (a.attribute_type.value.bytes, a.attribute_value.value.bytes))
      = [([85, 4, 3], [97])]
    ∧ (name.parse ⟨false, 0, name_multi_valued⟩).1.rdn.map (fun a => a.set.value.bytes)
      = [[48, 8, 6, 3, 85, 4, 10, 19, 1, 98]]
    ∧ ∀ env : asn1,
        (name.parse ⟨false, 0, name_multi_valued⟩).1.print_as_json env "subject"
          = ",\"subject\":["
            ++ Attribute.print_as_json env
                ⟨⟨49, 20, ⟨false, 14, [48, 8, 6, 3, 85, 4, 10, 19, 1, 98]⟩⟩,
                 ⟨48, 8, ⟨false, 14, []⟩⟩, ⟨6, 3, ⟨false, 8, [85, 4, 3]⟩⟩,
                 ⟨19, 1, ⟨false, 13, [97]⟩⟩⟩
            ++ "]" := by
  have hr : (name.parse ⟨false, 0, name_multi_valued⟩).1.rdn
      = [⟨⟨49, 20, ⟨false, 14, [48, 8, 6, 3, 85, 4, 10, 19, 1, 98]⟩⟩,
          ⟨48, 8, ⟨false, 14, []⟩⟩, ⟨6, 3, ⟨false, 8, [85, 4, 3]⟩⟩,
          ⟨19, 1, ⟨false, 13, [97]⟩⟩⟩] := by decide
  refine ⟨by decide, by decide, fun env => ?_⟩
  unfold name.print_as_json
  rw [hr]
  simp [name.print_rdns]

/-- C13. For an attribute whose `attribute_type` or `attribute_value` has length 0,
`attribute::print_as_json` writes the placeholder of an empty object and nothing
else, whatever the dictionary and the renderers. -/
theorem Attribute.print_placeholder (env : asn1) (a : Attribute)
    (h : a.attribute_type.length = 0 ∨ a.attribute_value.length = 0) :
    a.print_as_json env = "\x7b\x7d" := by
  unfold Attribute.print_as_json
  rw [if_pos h]

/-- C13, witness: a commonName attribute whose value has length 0. -/
theorem Attribute.print_placeholder_witness :
    ((⟨⟨49, 7, ⟨false, 9, []⟩⟩, ⟨48, 5, ⟨false, 9, []⟩⟩, ⟨6, 3, ⟨false, 4, [85, 4, 3]⟩⟩,
        ⟨19, 0, ⟨false, 9, []⟩⟩⟩ : Attribute).attribute_type.length = 0
      ∨ (⟨⟨49, 7, ⟨false, 9, []⟩⟩, ⟨48, 5, ⟨false, 9, []⟩⟩, ⟨6, 3, ⟨false, 4, [85, 4, 3]⟩⟩,
        ⟨19, 0, ⟨false, 9, []⟩⟩⟩ : Attribute).attribute_value.length = 0)
    ∧ Attribute.print_as_json asn1.sample
        ⟨⟨49, 7, ⟨false, 9, []⟩⟩, ⟨48, 5, ⟨false, 9, []⟩⟩, ⟨6, 3, ⟨false, 4, [85, 4, 3]⟩⟩,
          ⟨19, 0, ⟨false, 9, []⟩⟩⟩ = "\x7b\x7d" :=
  ⟨by decide,
   Attribute.print_placeholder asn1.sample
     ⟨⟨49, 7, ⟨false, 9, []⟩⟩, ⟨48, 5, ⟨false, 9, []⟩⟩, ⟨6, 3, ⟨false, 4, [85, 4, 3]⟩⟩,
       ⟨19, 0, ⟨false, 9, []⟩⟩⟩ (by decide)⟩

/-- C17. For the BasicConstraints value `30 03 01 01 00`, cA present with the value
byte `00`, `basic_constraints::print_as_json` writes `ca` as `true`, as it does for
the value byte `ff`; it writes `false` when cA is absent. -/
theorem basic_constraints.ca_zero_rendered_true :
    (basic_constraints.parse ⟨false, 0, [48, 3, 1, 1, 0]⟩).1.ca = ⟨1, 1, ⟨false, 4, [0]⟩⟩
    ∧ (basic_constraints.parse ⟨false, 0, [48, 3, 1, 1, 0]⟩).1.print_as_json
        = ",\x7b\"BasicConstraints\":\x7b\"ca\":true,\"pathLenConstraint\":0\x7d\x7d"
    ∧ (basic_constraints.parse ⟨false, 0, [48, 3, 1, 1, 255]⟩).1.print_as_json
        = ",\x7b\"BasicConstraints\":\x7b\"ca\":true,\"pathLenConstraint\":0\x7d\x7d"
    ∧ (basic_constraints.parse ⟨false, 0, [48, 0]⟩).1.print_as_json
        = ",\x7b\"BasicConstraints\":\x7b\"ca\":false,\"pathLenConstraint\":0\x7d\x7d" := by
  decide

/-- C18. For a GeneralName of tag `84` or `a4` (directoryName), `85` or `a5`
(ediPartyName), or `88` (registeredID), `general_name::print_as_json` writes the
placeholder with the tag in hex, whatever the renderers. -/
theorem general_name.declared_tags_get_placeholder (env : asn1) :
    [0x84, 0xa4, 0x85, 0xa5, 0x88].map
        (fun t => ((general_name.parse ⟨false, 0, [t, 2, 42, 3]⟩ 0).1.print_as_json env).1)
      = ["\x7b\"SAN explicit tag\": \"84\"\x7d", "\x7b\"SAN explicit tag\": \"a4\"\x7d",
         "\x7b\"SAN explicit tag\": \"85\"\x7d", "\x7b\"SAN explicit tag\": \"a5\"\x7d",
         "\x7b\"SAN explicit tag\": \"88\"\x7d"] := by
  rfl

/-- C20. For `spki_ec`, an id-ecPublicKey key whose BIT STRING content is
`00 04 11 22 33 44 55 66`, the TLV that `subject_public_key_info::print_as_json`
hands to the renderer is decoded from that content with the unused-bits byte as
tag and the next byte as length: its value is `11 22 33 44`, not the point bytes
`04 11 22 33 44 55 66`. -/
theorem subject_public_key_info.ec_point_not_rendered :
    (subject_public_key_info.parse ⟨false, 0, spki_ec⟩).1.subject_public_key.value.bytes
      = [0, 4, 17, 34, 51, 68, 85, 102]
    ∧ (ec_public_key.parse
        (subject_public_key_info.parse ⟨false, 0, spki_ec⟩).1.subject_public_key.value).1.tmp
      = ⟨0, 4, ⟨false, 27, [17, 34, 51, 68]⟩⟩
    ∧ ((subject_public_key_info.parse ⟨false, 0, spki_ec⟩).1.print_as_json asn1.sample
        "subject_public_key_info").result.map (fun r => r.1)
      = some ",\"subject_public_key_info\":\x7b\"algorithm\":\x7b\"algorithm\":\"id-ecPublicKey\",\"parameters\":\"2a8648ce3d030107\"\x7d,\"subject_public_key\":\"11223344\"\x7d" := by
  decide

/-! ## SubjectAltName -/


theorem general_names_length (env : asn1) (es : List (Nat × List Nat)) :
    ∀ pos : Nat, (general_names env pos es).length = es.length := by
  induction es with
  | nil => intro pos; rfl
  | cons e rest ih => intro pos; simp [general_names, ih]

theorem subject_alt_name.print_names_der (env : asn1) (es : List (Nat × List Nat)) :
    ∀ (fuel : Nat) (comma : String) (nl : Bool) (pos : Nat),
      (∀ e ∈ es, e.2.length < 4294967296) → es.length ≤ fuel →
      subject_alt_name.print_names env fuel comma ⟨nl, pos, der_elements es⟩
        = if es = [] then "" else comma ++ comma_separated (general_names env pos es) := by
  induction es with
  | nil =>
    intro fuel comma nl pos _ _
    cases fuel <;> simp [subject_alt_name.print_names, der_elements, parser_get_data_length]
  | cons e rest ih =>
    intro fuel comma nl pos hes hfuel
    cases fuel with
    | zero => simp at hfuel
    | succ n =>
      have he : e.2.length < 4294967296 := hes e (List.mem_cons_self _ _)
      have hrest : ∀ x ∈ rest, x.2.length < 4294967296 :=
        fun x hx => hes x (List.mem_cons_of_mem _ hx)
      have hpos : parser_get_data_length ⟨nl, pos, der_elements (e :: rest)⟩ > 0 := by
        simp [parser_get_data_length, der_elements, der_element]
      unfold subject_alt_name.print_names
      rw [if_pos hpos, if_neg (by simp)]
      simp only [der_elements, general_name.parse]
      rw [tlv.parse_der_element nl pos e.1 e.2 _ he]
      simp only []
      rw [ih n "," nl _ hrest (by simpa using hfuel)]
      cases rest with
      | nil => simp [general_names, comma_separated]
      | cons b rest' =>
        simp [general_names, comma_separated, String.append_assoc]

/-- C19. SubjectAltName ordering: when the value is an element whose content is the
encoding of the `n` elements `es`, `subject_alt_name::print_as_json` writes one
array of `n` texts separated by commas, the i-th rendered by
`general_name::print_as_json` from the i-th element. -/
theorem subject_alt_name.names_order (env : asn1) (nl : Bool) (pos tag : Nat)
    (es : List (Nat × List Nat)) (rest : List Nat) (label : String)
    (hes : ∀ e ∈ es, e.2.length < 4294967296)
    (hlen : (der_elements es).length < 4294967296) :
    (subject_alt_name.parse ⟨nl, pos, der_element tag (der_elements es) ++ rest⟩).1.print_as_json
        env label
      = ",\x7b\"" ++ label ++ "\":["
        ++ comma_separated
            (general_names env (pos + 1 + (der_length (der_elements es).length).length) es)
        ++ "]\x7d"
    ∧ (general_names env (pos + 1 + (der_length (der_elements es).length).length) es).length
        = es.length := by
  refine ⟨?_, general_names_length env es _⟩
  unfold subject_alt_name.print_as_json subject_alt_name.parse
  simp only []
  rw [tlv.parse_der_element nl pos tag (der_elements es) rest hlen]
  simp only [parser_get_data_length]
  rw [subject_alt_name.print_names_der env es _ "" false _ hes (der_elements_length es)]
  cases es with
  | nil => simp [general_names, comma_separated]
  | cons e es' => simp

/-- C19, witness: the dNSNames `a.example` and `b.example`, rendered in that order. -/
theorem subject_alt_name.names_order_witness :
    (∀ e ∈ [((0x82 : Nat), [97, 46, 101, 120, 97, 109, 112, 108, 101]),
            (0x82, [98, 46, 101, 120, 97, 109, 112, 108, 101])], e.2.length < 4294967296)
    ∧ (der_elements [((0x82 : Nat), [97, 46, 101, 120, 97, 109, 112, 108, 101]),
            (0x82, [98, 46, 101, 120, 97, 109, 112, 108, 101])]).length < 4294967296
    ∧ (subject_alt_name.parse ⟨false, 0, der_element 0x30 (der_elements
          [((0x82 : Nat), [97, 46, 101, 120, 97, 109, 112, 108, 101]),
           (0x82, [98, 46, 101, 120, 97, 109, 112, 108, 101])]) ++ []⟩).1.print_as_json
          asn1.sample "subject_alt_name"
        = ",\x7b\"subject_alt_name\":[\x7b\"dns_name\":\"612e6578616d706c65\"\x7d,\x7b\"dns_name\":\"622e6578616d706c65\"\x7d]\x7d" := by
  have h := subject_alt_name.names_order asn1.sample false 0 0x30
    [((0x82 : Nat), [97, 46, 101, 120, 97, 109, 112, 108, 101]),
     (0x82, [98, 46, 101, 120, 97, 109, 112, 108, 101])] [] "subject_alt_name"
    (by decide) (by decide)
  refine ⟨by decide, by decide, ?_⟩
  rw [h.1]
  decide

/-! ## The tolerant path for extensions -/


theorem tlv.take_content (p q : parser) (tag hdr hdr' len : Nat) (rest : List Nat) :
    (tlv.take p tag hdr len rest).1.content = (tlv.take q tag hdr' len rest).1.content
    ∧ (tlv.take p tag hdr len rest).2.bytes = (tlv.take q tag hdr' len rest).2.bytes := by
  unfold tlv.take
  split <;> simp [tlv.content, parser.set_empty, tlv.null]

theorem tlv.parse_content (p q : parser) (e : Nat) (h : p.bytes = q.bytes) :
    (tlv.parse p e).1.content = (tlv.parse q e).1.content
    ∧ (tlv.parse p e).2.bytes = (tlv.parse q e).2.bytes := by
  unfold tlv.parse
  rw [h]
  split
  · simp [tlv.content, parser.set_empty]
  · split
    · exact ⟨rfl, h⟩
    · split
      · simp [tlv.content, parser.set_empty]
      · split
        · exact tlv.take_content p q _ _ _ _ _
        · split
          · simp [tlv.content, parser.set_empty]
          · split
            · simp [tlv.content, parser.set_empty]
            · split
              · simp [tlv.content, parser.set_empty]
              · exact tlv.take_content p q _ _ _ _ _

theorem tlv.parse_snd_null (p : parser) (e : Nat) : (tlv.parse p e).2.null = p.null := by
  unfold tlv.parse
  split
  · rfl
  · split
    · rfl
    · split
      · rfl
      · split
        · unfold tlv.take; split <;> rfl
        · split
          · rfl
          · split
            · rfl
            · split
              · rfl
              · unfold tlv.take; split <;> rfl

theorem tlv.content_eq (s t : tlv) (h : s.content = t.content) :
    s.tag = t.tag ∧ s.length = t.length ∧ s.value.null = t.value.null
    ∧ s.value.bytes = t.value.bytes := by
  simpa [tlv.content] using h

theorem x509_cert.parse_extension_content (p q : parser) (h : p.bytes = q.bytes) :
    (x509_cert.parse_extension p).1.content = (x509_cert.parse_extension q).1.content
    ∧ (x509_cert.parse_extension p).2.bytes = (x509_cert.parse_extension q).2.bytes := by
  obtain ⟨hs, hr⟩ := tlv.parse_content p q 0 h
  obtain ⟨hs1, hs2, hs3, hs4⟩ := tlv.content_eq _ _ hs
  obtain ⟨hid, hidr⟩ := tlv.parse_content _ _ 0 hs4
  obtain ⟨hv, hvr⟩ := tlv.parse_content _ _ 0 hidr
  obtain ⟨hw, hwr⟩ := tlv.parse_content _ _ 0 hvr
  have hv1 := (tlv.content_eq _ _ hv).1
  have hc : (tlv.parse p 0).1.is_constructed = (tlv.parse q 0).1.is_constructed := by
    simp [tlv.is_constructed, hs1]
  refine ⟨?_, hr⟩
  unfold x509_cert.parse_extension
  simp only []
  rw [hc, hv1]
  split
  · split
    · simp only [extension.content, tlv.content, hs1, hs2, hs3, hwr, tlv.parse_snd_null]
      simp only [tlv.content] at hid hv hw
      rw [hid, hv, hw]
    · simp only [extension.content, tlv.content, hs1, hs2, hs3, hvr, tlv.parse_snd_null]
      simp only [tlv.content] at hid hv
      rw [hid, hv]
  · simp only [extension.content]
    rw [hs]

theorem x509_cert.parse_extensions_content (fuel : Nat) :
    ∀ (p q : parser) (l l' : List Mercury.extension), p.bytes = q.bytes →
      l.map extension.content = l'.map extension.content →
      (x509_cert.parse_extensions fuel p l).2.map extension.content
        = (x509_cert.parse_extensions fuel q l').2.map extension.content := by
  induction fuel with
  | zero => intro p q l l' _ hl; exact hl
  | succ n ih =>
    intro p q l l' h hl
    unfold x509_cert.parse_extensions
    have hlen : parser_get_data_length p = parser_get_data_length q := by
      simp [parser_get_data_length, h]
    rw [hlen]
    split
    · obtain ⟨he, hr⟩ := x509_cert.parse_extension_content p q h
      apply ih _ _ _ _ hr
      simp [hl, he]
    · exact hl

theorem x509_cert.parse_extensions_tlv_bare (tv : parser) (content : List Nat)
    (hc : content.length < 4294967296) (h : tv.bytes = der_element 0x30 content) :
    (x509_cert.parse_extensions_tlv tv).1.value.bytes = content := by
  obtain ⟨nl, pos, bytes⟩ := tv
  simp only at h
  subst h
  have hm : tlv.parse ⟨nl, pos, der_element 0x30 content⟩ 0xa3
      = (tlv.null, ⟨nl, pos, der_element 0x30 content⟩) :=
    tlv.parse_mismatch _ _ 0x30 (der_length content.length ++ content) rfl (by decide)
      (by decide)
  have hd := tlv.parse_der_element nl pos 0x30 content [] hc
  rw [List.append_nil] at hd
  have h0 : tlv.null.is_not_null = false := by decide
  unfold x509_cert.parse_extensions_tlv
  simp only [hm, h0, Bool.false_eq_true, if_false, hd]

theorem x509_cert.parse_extensions_tlv_wrapped (tv : parser) (content : List Nat)
    (hc : content.length < 4294967296)
    (hE : (der_element 0x30 content).length < 4294967296)
    (h : tv.bytes = der_element 0xa3 (der_element 0x30 content)) :
    (x509_cert.parse_extensions_tlv tv).1.value.bytes = content := by
  obtain ⟨nl, pos, bytes⟩ := tv
  simp only at h
  subst h
  have hw := tlv.parse_der_element_tagged nl pos 0xa3 (der_element 0x30 content) [] hE
  rw [List.append_nil] at hw
  have hd := tlv.parse_der_element false
    (pos + 1 + (der_length (der_element 0x30 content).length).length) 0x30 content [] hc
  rw [List.append_nil] at hd
  unfold x509_cert.parse_extensions_tlv
  simp only [hw, tlv.is_not_null, Bool.not_false, if_true, hd]

/-- C14. Tolerant extensions path: when the bytes left in the tbsCertificate after the
SubjectPublicKeyInfo are the encoded SEQUENCE `E` in one input and `E` wrapped in
a [3] EXPLICIT element (tag `0xa3`) in the other, whatever precedes them,
`x509_cert::parse` yields the same extension list for both: the same entries in
the same order, each with the same sequence, extnID, critical and extnValue up to
offsets in the input. -/
theorem x509_cert.tolerant_extensions (bare wrapped content : List Nat)
    (hc : content.length < 4294967296)
    (hE : (der_element 0x30 content).length < 4294967296)
    (hb : (x509_cert.parse_tbs bare).tbs_certificate.value.bytes = der_element 0x30 content)
    (hw : (x509_cert.parse_tbs wrapped).tbs_certificate.value.bytes
            = der_element 0xa3 (der_element 0x30 content)) :
    (x509_cert.parse bare).extension.map extension.content
      = (x509_cert.parse wrapped).extension.map extension.content := by
  have h1 := x509_cert.parse_extensions_tlv_bare _ content hc hb
  have h2 := x509_cert.parse_extensions_tlv_wrapped _ content hc hE hw
  have hb0 : ¬ parser_get_data_length (x509_cert.parse_tbs bare).tbs_certificate.value = 0 := by
    simp [parser_get_data_length, hb, der_element]
  have hw0 : ¬ parser_get_data_length (x509_cert.parse_tbs wrapped).tbs_certificate.value = 0 := by
    simp [parser_get_data_length, hw, der_element]
  rw [x509_cert.parse_extension_list, x509_cert.parse_extension_list, if_neg hb0, if_neg hw0]
  have hfuel : parser_get_data_length
      (x509_cert.parse_extensions_tlv (x509_cert.parse_tbs bare).tbs_certificate.value).1.value
      = parser_get_data_length
      (x509_cert.parse_extensions_tlv (x509_cert.parse_tbs wrapped).tbs_certificate.value).1.value := by
    simp [parser_get_data_length, h1, h2]
  rw [hfuel]
  exact x509_cert.parse_extensions_content _ _ _ [] [] (by rw [h1, h2]) rfl

/-- C14, witness: `cert_bare_extensions` and `cert_basic_constraints`. -/
theorem x509_cert.tolerant_extensions_witness :
    [6, 3, 85, 29, 19, 1, 1, 0, 4, 5, 48, 3, 1, 1, 255].length < 4294967296
    ∧ (x509_cert.parse_tbs cert_bare_extensions).tbs_certificate.value.bytes
        = der_element 0x30 [48, 15, 6, 3, 85, 29, 19, 1, 1, 0, 4, 5, 48, 3, 1, 1, 255]
    ∧ (x509_cert.parse_tbs cert_basic_constraints).tbs_certificate.value.bytes
        = der_element 0xa3
            (der_element 0x30 [48, 15, 6, 3, 85, 29, 19, 1, 1, 0, 4, 5, 48, 3, 1, 1, 255])
    ∧ (x509_cert.parse cert_bare_extensions).extension.map extension.content
        = (x509_cert.parse cert_basic_constraints).extension.map extension.content
    ∧ (x509_cert.parse cert_basic_constraints).extension.map extension.content
        = [((48, 15, false, []), (6, 3, false, [85, 29, 19]), (1, 1, false, [0]),
            (4, 5, false, [48, 3, 1, 1, 255]))] :=
  ⟨by decide, by decide, by decide,
   x509_cert.tolerant_extensions cert_bare_extensions cert_basic_constraints
     [48, 15, 6, 3, 85, 29, 19, 1, 1, 0, 4, 5, 48, 3, 1, 1, 255]
     (by decide) (by decide) (by decide) (by decide),
   by rfl⟩

/-! ## RSA keys, ExtKeyUsage, AlgorithmIdentifier -/

/-- The text of `rsa_public_key::print_as_json` is the empty object unless both
INTEGERs were decoded. -/
theorem rsa_public_key.print_empty (env : asn1) (k : rsa_public_key) (label : String)
    (h : k.modulus.is_null = true ∨ k.exponent.is_null = true) :
    k.print_as_json env label true = ",\"" ++ label ++ "\":\x7b" ++ "\x7d" := by
  unfold rsa_public_key.print_as_json
  have hn : ¬ (k.modulus.is_not_null = true ∧ k.exponent.is_not_null = true) := by
    unfold tlv.is_not_null
    unfold tlv.is_null at h
    rcases h with h | h <;> simp [h]
  rw [if_neg hn]
  simp

/-- `rsa_public_key::parse` on the encoding of SEQUENCE { INTEGER n, INTEGER e }. -/
theorem rsa_public_key.parse_der (nl : Bool) (pos : Nat) (n e : List Nat)
    (hn : n.length < 4294967296) (he : e.length < 4294967296)
    (hs : (der_element 2 n ++ der_element 2 e).length < 4294967296) :
    (rsa_public_key.parse
        ⟨nl, pos, der_element 0x30 (der_element 2 n ++ der_element 2 e)⟩).1.modulus
      = ⟨2, n.length,
          ⟨false, pos + 1 + (der_length (der_element 2 n ++ der_element 2 e).length).length
            + 1 + (der_length n.length).length, n⟩⟩
    ∧ (rsa_public_key.parse
        ⟨nl, pos, der_element 0x30 (der_element 2 n ++ der_element 2 e)⟩).1.exponent
      = ⟨2, e.length,
          ⟨false, pos + 1 + (der_length (der_element 2 n ++ der_element 2 e).length).length
            + (der_element 2 n).length + 1 + (der_length e.length).length, e⟩⟩ := by
  have h1 := tlv.parse_der_element_tagged nl pos 0x30 (der_element 2 n ++ der_element 2 e) [] hs
  rw [List.append_nil] at h1
  have h2 := tlv.parse_der_element_tagged false
    (pos + 1 + (der_length (der_element 2 n ++ der_element 2 e).length).length) 2 n
    (der_element 2 e) hn
  have h3 := tlv.parse_der_element_tagged false
    (pos + 1 + (der_length (der_element 2 n ++ der_element 2 e).length).length
      + (der_element 2 n).length) 2 e [] he
  rw [List.append_nil] at h3
  unfold rsa_public_key.parse
  simp only [tlv.SEQUENCE, tlv.INTEGER]
  rw [h1]
  simp only
  rw [h2]
  simp only
  rw [h3]
  simp

/-- C21. For a SubjectPublicKeyInfo whose algorithm resolves to rsaEncryption and
whose BIT STRING content is one unused-bits byte followed by the encoding of
SEQUENCE { INTEGER n, INTEGER e }, `subject_public_key_info::print_as_json` writes
the object `subject_public_key` with the modulus rendered from the content bytes of
`n` and the exponent rendered from the content bytes of `e`.  For every key of that
algorithm, when either INTEGER is not decoded the object is written empty. -/
theorem subject_public_key_info.rsa_key_fields (env : asn1) (s : subject_public_key_info)
    (label : String) (hty : s.algorithm.type env = some "rsaEncryption") :
    (∀ (u : Nat) (n e : List Nat), n.length < 4294967296 → e.length < 4294967296 →
      (der_element 2 n ++ der_element 2 e).length < 4294967296 →
      s.subject_public_key.value.bytes
        = u :: der_element 0x30 (der_element 2 n ++ der_element 2 e) →
      ∃ (pm pe : Nat) (s1 : subject_public_key_info),
        s.print_as_json env label
          = outcome.done
              (",\"" ++ label ++ "\":\x7b" ++ "\"algorithm\":" ++ s.algorithm.print_as_json env
                ++ (",\"subject_public_key\":\x7b"
                    ++ (env.print_as_json_hex ⟨2, n.length, ⟨false, pm, n⟩⟩ "modulus" false
                        ++ env.print_as_json_hex ⟨2, e.length, ⟨false, pe, e⟩⟩ "exponent" true)
                    ++ "\x7d")
                ++ "\x7d", s1))
    ∧ ((rsa_public_key.parse s.subject_public_key.remove_bitstring_encoding.value).1.modulus.is_null
          = true
        ∨ (rsa_public_key.parse
            s.subject_public_key.remove_bitstring_encoding.value).1.exponent.is_null = true →
      ∃ s1 : subject_public_key_info,
        s.print_as_json env label
          = outcome.done
              (",\"" ++ label ++ "\":\x7b" ++ "\"algorithm\":" ++ s.algorithm.print_as_json env
                ++ (",\"subject_public_key\":\x7b" ++ "\x7d") ++ "\x7d", s1)) := by
  constructor
  · intro u n e hn he hs hkey
    have hv : s.subject_public_key.remove_bitstring_encoding.value
        = ⟨s.subject_public_key.value.null, s.subject_public_key.value.pos + 1,
            der_element 0x30 (der_element 2 n ++ der_element 2 e)⟩ := by
      unfold tlv.remove_bitstring_encoding
      rw [hkey]
    have hp := rsa_public_key.parse_der s.subject_public_key.value.null
      (s.subject_public_key.value.pos + 1) n e hn he hs
    rw [← hv] at hp
    unfold subject_public_key_info.print_as_json
    rw [hty]
    simp only [if_true]
    unfold rsa_public_key.print_as_json
    rw [hp.1, hp.2]
    simp only [tlv.is_not_null, Bool.not_false, and_self, if_true]
    exact ⟨_, _, _, rfl⟩
  · intro h
    unfold subject_public_key_info.print_as_json
    rw [hty]
    simp only [if_true]
    rw [rsa_public_key.print_empty env _ _ h]
    exact ⟨_, rfl⟩

/-- C21, witness: the key of `cert_no_extensions`, modulus `07` and exponent `03`,
and the same key with the second INTEGER cut off. -/
theorem subject_public_key_info.rsa_key_fields_witness :
    (subject_public_key_info.parse
        ⟨false, 0, [48, 24, 48, 11, 6, 9, 42, 134, 72, 134, 247, 13, 1, 1, 1, 3, 9, 0, 48, 6,
          2, 1, 7, 2, 1, 3]⟩).1.algorithm.type asn1.sample = some "rsaEncryption"
    ∧ ((subject_public_key_info.parse
        ⟨false, 0, [48, 24, 48, 11, 6, 9, 42, 134, 72, 134, 247, 13, 1, 1, 1, 3, 9, 0, 48, 6,
          2, 1, 7, 2, 1, 3]⟩).1.print_as_json asn1.sample "subject_public_key_info").result.map
          (fun r => r.1)
        = some ",\"subject_public_key_info\":\x7b\"algorithm\":\x7b\"algorithm\":\"rsaEncryption\"\x7d,\"subject_public_key\":\x7b\"modulus\":\"07\",\"exponent\":\"03\"\x7d\x7d"
    ∧ ((subject_public_key_info.parse
        ⟨false, 0, [48, 21, 48, 11, 6, 9, 42, 134, 72, 134, 247, 13, 1, 1, 1, 3, 6, 0, 48, 3,
          2, 1, 7]⟩).1.print_as_json asn1.sample "subject_public_key_info").result.map
          (fun r => r.1)
        = some ",\"subject_public_key_info\":\x7b\"algorithm\":\x7b\"algorithm\":\"rsaEncryption\"\x7d,\"subject_public_key\":\x7b\x7d\x7d" := by
  refine ⟨by decide, ?_, ?_⟩
  · obtain ⟨pm, pe, s1, h⟩ := (subject_public_key_info.rsa_key_fields asn1.sample
      (subject_public_key_info.parse
        ⟨false, 0, [48, 24, 48, 11, 6, 9, 42, 134, 72, 134, 247, 13, 1, 1, 1, 3, 9, 0, 48, 6,
          2, 1, 7, 2, 1, 3]⟩).1 "subject_public_key_info" (by decide)).1
      0 [7] [3] (by decide) (by decide) (by decide) (by decide)
    rw [h]
    rfl
  · obtain ⟨s1, h⟩ := (subject_public_key_info.rsa_key_fields asn1.sample
      (subject_public_key_info.parse
        ⟨false, 0, [48, 21, 48, 11, 6, 9, 42, 134, 72, 134, 247, 13, 1, 1, 1, 3, 6, 0, 48, 3,
          2, 1, 7]⟩).1 "subject_public_key_info" (by decide)).2 (by decide)
    rw [h]
    rfl

/-- The loop of `ext_key_usage::print_as_json` writes, for each KeyPurposeId in list
order, the text that `parser_get_oid_string` returns for it, in quotes. -/
theorem ext_key_usage.print_ids_names (env : asn1) (l : List tlv) :
    ext_key_usage.print_ids env true l
      = comma_separated (l.map (fun x => "\"" ++ env.parser_get_oid_string x.value ++ "\""))
    ∧ (l ≠ [] → ext_key_usage.print_ids env false l
        = "," ++ comma_separated
            (l.map (fun x => "\"" ++ env.parser_get_oid_string x.value ++ "\""))) := by
  have hq : ∀ X : String, "\"" ++ ("," ++ X) = "\"," ++ X := fun X => by
    rw [← String.append_assoc]
    rfl
  have hc : ∀ X : String, ",\"" ++ X = "," ++ ("\"" ++ X) := fun X => by
    rw [← String.append_assoc]
    rfl
  induction l with
  | nil => exact ⟨rfl, fun h => absurd rfl h⟩
  | cons a rest ih =>
    cases rest with
    | nil =>
      refine ⟨?_, fun _ => ?_⟩
      · simp [ext_key_usage.print_ids, comma_separated]
      · simp [ext_key_usage.print_ids, comma_separated, String.append_assoc, hc]
    | cons b rest' =>
      have h2 := ih.2 (by simp)
      refine ⟨?_, fun _ => ?_⟩
      · rw [ext_key_usage.print_ids, h2]
        simp [comma_separated, String.append_assoc, hq]
      · rw [ext_key_usage.print_ids, h2]
        simp [comma_separated, String.append_assoc, hq, hc]

/-- C22. `ext_key_usage::print_as_json` writes for every KeyPurposeId the text that
`parser_get_oid_string` returns for it, in quotes, and nothing else: for the value
`30 0f 06 08 2b 06 01 05 05 07 03 01 06 03 2a 03 04`, serverAuth and then an OID
that the dictionary does not hold, it writes the name of the first and, for the
second, the text `unknown_oid` rather than the hex `2a0304` of its content. -/
theorem ext_key_usage.unknown_oid_not_hex :
    (∀ (env : asn1) (e : ext_key_usage),
      e.print_as_json env
        = ",\x7b\"ext_key_usage\":["
          ++ comma_separated
              (e.key_purpose_id.map (fun x => "\"" ++ env.parser_get_oid_string x.value ++ "\""))
          ++ "]\x7d")
    ∧ (ext_key_usage.parse
        ⟨false, 0, [48, 15, 6, 8, 43, 6, 1, 5, 5, 7, 3, 1, 6, 3, 42, 3, 4]⟩).1.key_purpose_id
      = [⟨6, 8, ⟨false, 4, [43, 6, 1, 5, 5, 7, 3, 1]⟩⟩, ⟨6, 3, ⟨false, 14, [42, 3, 4]⟩⟩]
    ∧ (ext_key_usage.parse
        ⟨false, 0, [48, 15, 6, 8, 43, 6, 1, 5, 5, 7, 3, 1, 6, 3, 42, 3, 4]⟩).1.print_as_json
        asn1.sample
      = ",\x7b\"ext_key_usage\":[\"id-kp-serverAuth\",\"unknown_oid\"]\x7d" := by
  refine ⟨fun env e => ?_, by decide, by decide⟩
  unfold ext_key_usage.print_as_json
  rw [(ext_key_usage.print_ids_names env e.key_purpose_id).1]

/-- C30. `algorithm_identifier::parse` leaves `parameters` null when no byte
remains in the SEQUENCE after the algorithm OID and decodes it from the next
element otherwise; `algorithm_identifier::print_as_json` writes no `parameters`
field when `parameters` is null, the OID rendering when its tag is `06`, and the
hex rendering for every other tag. -/
theorem algorithm_identifier.parameters_by_tag (env : asn1) :
    (∀ p : parser,
      ((tlv.parse (tlv.parse p tlv.SEQUENCE).1.value tlv.OBJECT_IDENTIFIER).2.bytes = [] →
        (algorithm_identifier.parse p).1.parameters = tlv.null)
      ∧ ((tlv.parse (tlv.parse p tlv.SEQUENCE).1.value tlv.OBJECT_IDENTIFIER).2.bytes ≠ [] →
        (algorithm_identifier.parse p).1.parameters
          = (tlv.parse (tlv.parse (tlv.parse p tlv.SEQUENCE).1.value
              tlv.OBJECT_IDENTIFIER).2 0).1))
    ∧ (∀ a : algorithm_identifier,
      (a.parameters.is_null = true →
        a.print_as_json env
          = "\x7b" ++ "\"algorithm\":\"" ++ env.parser_get_oid_string a.algorithm.value ++ "\""
            ++ "\x7d")
      ∧ (a.parameters.is_null = false → a.parameters.tag = 0x06 →
        a.print_as_json env
          = "\x7b" ++ "\"algorithm\":\"" ++ env.parser_get_oid_string a.algorithm.value ++ "\""
            ++ ("," ++ env.print_as_json_oid a.parameters "parameters") ++ "\x7d")
      ∧ (a.parameters.is_null = false → a.parameters.tag ≠ 0x06 →
        a.print_as_json env
          = "\x7b" ++ "\"algorithm\":\"" ++ env.parser_get_oid_string a.algorithm.value ++ "\""
            ++ ("," ++ env.print_as_json_hex a.parameters "parameters" false) ++ "\x7d")) := by
  refine ⟨fun p => ⟨fun h => ?_, fun h => ?_⟩, fun a => ⟨fun h => ?_, fun h ht => ?_, fun h ht => ?_⟩⟩
  · have h0 : ¬ ((tlv.parse (tlv.parse p tlv.SEQUENCE).1.value
        tlv.OBJECT_IDENTIFIER).2.bytes.length > 0) := by
      rw [h]
      decide
    unfold algorithm_identifier.parse
    simp only [parser_get_data_length]
    rw [if_neg h0]
  · unfold algorithm_identifier.parse
    simp only [parser_get_data_length]
    rw [if_pos (List.length_pos.mpr h)]
  · unfold algorithm_identifier.print_as_json tlv.is_not_null
    unfold tlv.is_null at h
    rw [h]
    simp only [Bool.not_true, Bool.false_eq_true, if_false, String.append_empty]
  · unfold algorithm_identifier.print_as_json tlv.is_not_null
    unfold tlv.is_null at h
    rw [h]
    simp only [Bool.not_false, if_true, tlv.OBJECT_IDENTIFIER]
    rw [if_pos ht]
  · unfold algorithm_identifier.print_as_json tlv.is_not_null
    unfold tlv.is_null at h
    rw [h]
    simp only [Bool.not_false, if_true, tlv.OBJECT_IDENTIFIER]
    rw [if_neg ht]

/-- C30, witness: the AlgorithmIdentifier of `cert_no_extensions` (rsaEncryption
alone), that of `spki_ec` (id-ecPublicKey with an OID as parameters), and
rsaEncryption followed by a NULL element. -/
theorem algorithm_identifier.parameters_by_tag_witness :
    (algorithm_identifier.parse
        ⟨false, 0, [48, 11, 6, 9, 42, 134, 72, 134, 247, 13, 1, 1, 1]⟩).1.parameters = tlv.null
    ∧ (algorithm_identifier.parse
        ⟨false, 0, [48, 11, 6, 9, 42, 134, 72, 134, 247, 13, 1, 1, 1]⟩).1.print_as_json
          asn1.sample = "\x7b\"algorithm\":\"rsaEncryption\"\x7d"
    ∧ (algorithm_identifier.parse
        ⟨false, 0, [48, 19, 6, 7, 42, 134, 72, 206, 61, 2, 1, 6, 8, 42, 134, 72, 206, 61, 3, 1,
          7]⟩).1.parameters = ⟨6, 8, ⟨false, 13, [42, 134, 72, 206, 61, 3, 1, 7]⟩⟩
    ∧ (algorithm_identifier.parse
        ⟨false, 0, [48, 19, 6, 7, 42, 134, 72, 206, 61, 2, 1, 6, 8, 42, 134, 72, 206, 61, 3, 1,
          7]⟩).1.print_as_json asn1.sample
        = "\x7b\"algorithm\":\"id-ecPublicKey\","
          ++ asn1.sample.print_as_json_oid ⟨6, 8, ⟨false, 13, [42, 134, 72, 206, 61, 3, 1, 7]⟩⟩
              "parameters" ++ "\x7d"
    ∧ (algorithm_identifier.parse
        ⟨false, 0, [48, 13, 6, 9, 42, 134, 72, 134, 247, 13, 1, 1, 1, 5, 0]⟩).1.print_as_json
          asn1.sample
        = "\x7b\"algorithm\":\"rsaEncryption\","
          ++ asn1.sample.print_as_json_hex ⟨5, 0, ⟨false, 15, []⟩⟩ "parameters" false ++ "\x7d" := by
  have hp := (algorithm_identifier.parameters_by_tag asn1.sample).1
  have hq := (algorithm_identifier.parameters_by_tag asn1.sample).2
  refine ⟨(hp _).1 (by decide), ?_, ?_, ?_, ?_⟩
  · rw [((hq _).1 (by decide))]
    decide
  · rw [(hp _).2 (by decide)]
    decide
  · rw [((hq _).2.1 (by decide) (by decide))]
    decide
  · rw [((hq _).2.2 (by decide) (by decide))]
    decide

/-! ## The weakness classifier -/

/-- C24. `x509_cert::is_weak` hands the `NULL` that `type()` returns for a null
algorithm to `strcmp`: it does so for a default-constructed certificate, for the
certificate parsed from an empty input, and for the one parsed from
`30 05 30 03 02 01 05`, where the tbsCertificate ends after the serial number. -/
theorem x509_cert.is_weak_faults_on_null_algorithm (env : asn1) :
    x509_cert.empty.is_weak env = outcome.fault
    ∧ (x509_cert.parse []).is_weak env = outcome.fault
    ∧ (x509_cert.parse [48, 5, 48, 3, 2, 1, 5]).subjectPublicKeyInfo.algorithm.algorithm
        = tlv.null
    ∧ (x509_cert.parse [48, 5, 48, 3, 2, 1, 5]).is_weak env = outcome.fault :=
  ⟨rfl, rfl, by decide, rfl⟩

/-! ## The certificate prefix -/

/-- The serial number and the cursor that the statements of x509.h:1314-1330 leave,
in terms of the step `x509_cert.parse_version` of `x509_cert::parse`. -/
theorem x509_cert_prefix.parse_by_eq (buffer : List Nat) :
    x509_cert_prefix.parse_by tlv.parse buffer
      = (let certificate := (tlv.parse (parser_init buffer) tlv.SEQUENCE).1
         let tbs_certificate := (tlv.parse certificate.value tlv.SEQUENCE).1
         let vs := x509_cert.parse_version tbs_certificate.value
         let algorithm_identifier := tlv.parse vs.2.2.2 0
         let issuer := tlv.parse algorithm_identifier.2 0
         if issuer.1.is_not_null then
           { serial_number := vs.2.2.1, issuer := issuer.1, data := some 0,
             data_end := some issuer.2.pos }
         else
           { serial_number := vs.2.2.1, issuer := issuer.1, data := none, data_end := none }) := by
  have key : ∀ tv : parser,
      (x509_cert.parse_version tv).2.2
        = (let etv := tlv.parse tv (tlv.explicit_tag_constructed 0)
           let first : tlv × parser :=
             if etv.1.is_not_null then (tlv.null, etv.2)
             else
               let version_or_serial_number := tlv.parse etv.2 tlv.INTEGER
               if version_or_serial_number.1.length = 1
                   ∧ version_or_serial_number.1.value.bytes.headD 0 < 3 then
                 (tlv.null, version_or_serial_number.2)
               else (version_or_serial_number.1, version_or_serial_number.2)
           if first.1.is_null then tlv.parse first.2 tlv.INTEGER else first) := by
    intro tv
    unfold x509_cert.parse_version
    simp only
    by_cases h1 : (tlv.parse tv (tlv.explicit_tag_constructed 0)).1.is_not_null = true
    · rw [if_pos h1, if_pos h1]
      simp only
      rw [if_pos (by decide), if_pos (by decide)]
    · rw [if_neg h1, if_neg h1]
      by_cases h2 : (tlv.parse (tlv.parse tv (tlv.explicit_tag_constructed 0)).2
            tlv.INTEGER).1.length = 1
          ∧ (tlv.parse (tlv.parse tv (tlv.explicit_tag_constructed 0)).2
            tlv.INTEGER).1.value.bytes.headD 0 < 3
      · rw [if_pos h2, if_pos h2]
        simp only
        rw [if_pos (by decide), if_pos (by decide)]
      · rw [if_neg h2, if_neg h2]
        simp only
        split <;> rfl
  unfold x509_cert_prefix.parse_by
  simp only
  rw [key]

/-- `x509_cert_prefix::parse` in terms of the step `x509_cert.parse_version`. -/
theorem x509_cert_prefix.parse_unfold (buffer : List Nat) :
    x509_cert_prefix.parse buffer
      = (let certificate := (tlv.parse (parser_init buffer) tlv.SEQUENCE).1
         let tbs_certificate := (tlv.parse certificate.value tlv.SEQUENCE).1
         let vs := x509_cert.parse_version tbs_certificate.value
         let algorithm_identifier := tlv.parse vs.2.2.2 0
         let issuer := tlv.parse algorithm_identifier.2 0
         if issuer.1.is_not_null then
           { serial_number := vs.2.2.1, issuer := issuer.1, data := some 0,
             data_end := some issuer.2.pos }
         else
           { serial_number := vs.2.2.1, issuer := issuer.1, data := none, data_end := none }) :=
  x509_cert_prefix.parse_by_eq buffer

/-- The issuer of `x509_cert_prefix::parse` is the element decoded after the
AlgorithmIdentifier. -/
theorem x509_cert_prefix.parse_issuer (buffer : List Nat) :
    ( x509_cert_prefix.parse buffer).issuer
      = (tlv.parse (tlv.parse (x509_cert.parse_version (x509_cert.tbs_start buffer)).2.2.2 0).2
          0).1 := by
  rw [ x509_cert_prefix.parse_unfold]
  unfold x509_cert.tbs_start
  simp only
  split <;> rfl

/-- C26. When the issuer is null after `x509_cert_prefix::parse`, `get_length`
returns 0 and `print_as_json_hex` writes the object with the empty text and a
newline. -/
theorem x509_cert_prefix.null_issuer_empty (buffer : List Nat)
    (h : ( x509_cert_prefix.parse buffer).issuer.is_null = true) :
    ( x509_cert_prefix.parse buffer).get_length = 0
    ∧ ( x509_cert_prefix.parse buffer).print_as_json_hex buffer = "\x7b\"cert_prefix\":\"\"\x7d\n" := by
  have hi := x509_cert_prefix.parse_issuer buffer
  rw [hi] at h
  have hn : ¬ ((tlv.parse (tlv.parse (x509_cert.parse_version
      (x509_cert.tbs_start buffer)).2.2.2 0).2 0).1.is_not_null = true) := by
    unfold tlv.is_not_null
    unfold tlv.is_null at h
    rw [h]
    decide
  constructor
  · unfold x509_cert_prefix.get_length
    rw [hi, if_pos h]
  · rw [ x509_cert_prefix.parse_unfold]
    unfold x509_cert.tbs_start at *
    simp only at hn ⊢
    rw [if_neg hn]
    rfl

/-- C26, witness: the empty input, and `30 05 30 03 02 01 05`, a tbsCertificate that
ends after the serial number. -/
theorem x509_cert_prefix.null_issuer_empty_witness :
    ( x509_cert_prefix.parse []).issuer.is_null = true
    ∧ ( x509_cert_prefix.parse []).get_length = 0
    ∧ ( x509_cert_prefix.parse []).print_as_json_hex [] = "\x7b\"cert_prefix\":\"\"\x7d\n"
    ∧ ( x509_cert_prefix.parse [48, 5, 48, 3, 2, 1, 5]).issuer.is_null = true
    ∧ ( x509_cert_prefix.parse [48, 5, 48, 3, 2, 1, 5]).print_as_json_hex
        [48, 5, 48, 3, 2, 1, 5] = "\x7b\"cert_prefix\":\"\"\x7d\n" :=
  ⟨by decide, ( x509_cert_prefix.null_issuer_empty [] (by decide)).1,
   ( x509_cert_prefix.null_issuer_empty [] (by decide)).2, by decide,
   ( x509_cert_prefix.null_issuer_empty [48, 5, 48, 3, 2, 1, 5] (by decide)).2⟩

/-! ## What one decoding step reads -/

/-- `tlv.parse` in terms of the header it reads. -/
theorem tlv.parse_header (p : parser) (e t : Nat) (r : List Nat) (hb : p.bytes = t :: r) :
    tlv.parse p e =
      if e ≠ 0 ∧ t ≠ e then (tlv.null, p)
      else match tlv.header p.bytes with
        | none => (tlv.null, p.set_empty)
        | some hl => tlv.take p t hl.1 hl.2 (p.bytes.drop hl.1) := by
  unfold tlv.parse tlv.header
  rw [hb]
  simp only
  split
  · rfl
  · cases r with
    | nil => rfl
    | cons l rest2 =>
      simp only
      split
      · rfl
      · split
        · rfl
        · split
          · rfl
          · split
            · rfl
            · simp only [List.drop_succ_cons]
              have : 2 + l % 128 = (l % 128) + 1 + 1 := by omega
              rw [this]
              simp only [List.drop_succ_cons]

/-- A header has at least two octets and lies within the bytes it is read from. -/
theorem tlv.header_bounds (b : List Nat) (hl : Nat × Nat) (h : tlv.header b = some hl) :
    2 ≤ hl.1 ∧ hl.1 ≤ b.length := by
  unfold tlv.header at h
  split at h
  · rename_i t l rest2
    split at h
    · cases h
      simp
    · split at h
      · cases h
      · split at h
        · cases h
        · split at h
          · cases h
          · cases h
            simp only [List.length_cons]
            omega
  · cases h

/-- A header depends on its own octets only. -/
theorem tlv.header_local (b c : List Nat) (hl : Nat × Nat) (h : tlv.header b = some hl)
    (hbc : c.take hl.1 = b.take hl.1) : tlv.header c = some hl := by
  have hbd := tlv.header_bounds b hl h
  unfold tlv.header at h ⊢
  split at h
  · rename_i t l rest2
    have hc2 : 2 ≤ c.length := by
      have := congrArg List.length hbc
      simp only [List.length_take, List.length_cons] at this
      omega
    match c, hc2 with
    | t' :: l' :: rest2', _ =>
      simp only
      split at h
      · cases h
        simp only [List.take_succ_cons, List.take_zero, List.cons.injEq, and_true] at hbc
        rename_i hl128
        rw [hbc.2]
        rw [if_pos hl128]
      · split at h
        · cases h
        · split at h
          · cases h
          · split at h
            · cases h
            · cases h
              rename_i h1 h2 h3 h4
              have e2 : 2 + l % 128 = (l % 128) + 1 + 1 := by omega
              simp only [e2, List.take_succ_cons, List.cons.injEq] at hbc
              obtain ⟨_, hl', hr⟩ := hbc
              subst hl'
              have hlen : ¬ rest2'.length < l' % 128 := by
                have := congrArg List.length hr
                simp only [List.length_take] at this
                omega
              rw [if_neg h1, if_neg h2, if_neg h3, if_neg hlen, hr]
  · cases h

/-- A decoding step leaves the end of the cursor where it was. -/
theorem tlv.parse_data_end (p : parser) (e : Nat) :
    (tlv.parse p e).2.data_end = p.data_end := by
  cases hb : p.bytes with
  | nil =>
    rw [tlv.parse_nil p e hb]
    simp [parser.data_end, parser.set_empty, hb]
  | cons t r =>
    rw [tlv.parse_header p e t r hb]
    split
    · rfl
    · split
      · simp [parser.data_end, parser.set_empty]
      · rename_i hl hh
        have hbd := tlv.header_bounds _ hl hh
        unfold tlv.take
        split
        · rename_i hle
          simp only [parser.data_end, List.length_drop] at hle ⊢
          omega
        · simp [parser.data_end, parser.set_empty]

/-- A decoding step never moves the cursor backwards. -/
theorem tlv.parse_pos_le (p : parser) (e : Nat) : p.pos ≤ (tlv.parse p e).2.pos := by
  have h1 := tlv.parse_data_end p e
  have h2 := tlv.parse_snd_length_le p e
  unfold parser.data_end at h1
  omega

/-- A decoded element that is not null: its header, its value and the cursor after
it. -/
theorem tlv.parse_not_null (p : parser) (e : Nat)
    (h : (tlv.parse p e).1.is_not_null = true) :
    ∃ hl : Nat × Nat, tlv.header p.bytes = some hl ∧ hl.1 + hl.2 ≤ p.bytes.length
      ∧ 2 ≤ hl.1
      ∧ tlv.parse p e
        = (⟨p.bytes.headD 0, hl.2, ⟨false, p.pos + hl.1, (p.bytes.drop hl.1).take hl.2⟩⟩,
           ⟨p.null, p.pos + hl.1 + hl.2, p.bytes.drop (hl.1 + hl.2)⟩) := by
  have hnull : tlv.null.is_not_null = false := by decide
  cases hb : p.bytes with
  | nil =>
    rw [tlv.parse_nil p e hb] at h
    simp [hnull] at h
  | cons t r =>
    have hp := tlv.parse_header p e t r hb
    by_cases hm : e ≠ 0 ∧ t ≠ e
    · rw [if_pos hm] at hp
      rw [hp] at h
      simp [hnull] at h
    · rw [if_neg hm] at hp
      cases hh : tlv.header p.bytes with
      | none =>
        rw [hh] at hp
        rw [hp] at h
        simp [hnull] at h
      | some hl =>
        rw [hh] at hp
        simp only at hp
        have hbd := tlv.header_bounds _ hl hh
        unfold tlv.take at hp
        by_cases hle : hl.2 ≤ (p.bytes.drop hl.1).length
        · rw [if_pos hle] at hp
          rw [← hb]
          refine ⟨hl, hh, ?_, hbd.1, ?_⟩
          · simp only [List.length_drop] at hle
            omega
          · rw [hp, hb]
            simp [List.drop_drop, Nat.add_comm]
        · rw [if_neg hle] at hp
          rw [hp] at h
          simp [hnull] at h

/-- Two cursors at the same offset whose bytes start alike and are equally long: a
decoding step that ends within the common bytes yields the same element on both and
leaves them alike. -/
theorem tlv.parse_local (nl : Bool) (pos e : Nat) (a x y : List Nat)
    (hxy : x.length = y.length) (ha : a ≠ [])
    (hc : (tlv.parse ⟨nl, pos, a ++ x⟩ e).2.pos ≤ pos + a.length) :
    ∃ (t : tlv) (a' : List Nat) (pos' : Nat), pos' + a'.length = pos + a.length
      ∧ tlv.parse ⟨nl, pos, a ++ x⟩ e = (t, ⟨nl, pos', a' ++ x⟩)
      ∧ tlv.parse ⟨nl, pos, a ++ y⟩ e = (t, ⟨nl, pos', a' ++ y⟩) := by
  obtain ⟨t0, a1, rfl⟩ := List.exists_cons_of_ne_nil ha
  have hA := tlv.parse_header ⟨nl, pos, (t0 :: a1) ++ x⟩ e t0 (a1 ++ x) rfl
  have hB := tlv.parse_header ⟨nl, pos, (t0 :: a1) ++ y⟩ e t0 (a1 ++ y) rfl
  have hfail : (tlv.parse ⟨nl, pos, (t0 :: a1) ++ x⟩ e
        = (tlv.null, parser.set_empty ⟨nl, pos, (t0 :: a1) ++ x⟩)) →
      ∃ (t : tlv) (a' : List Nat) (pos' : Nat), pos' + a'.length = pos + (t0 :: a1).length
        ∧ tlv.parse ⟨nl, pos, (t0 :: a1) ++ x⟩ e = (t, ⟨nl, pos', a' ++ x⟩)
        ∧ tlv.parse ⟨nl, pos, (t0 :: a1) ++ y⟩ e = (t, ⟨nl, pos', a' ++ y⟩) := by
    intro hf
    rw [hf] at hc
    simp only [parser.set_empty, List.length_append] at hc
    have hx : x = [] := List.eq_nil_of_length_eq_zero (by omega)
    have hy : y = [] := List.eq_nil_of_length_eq_zero (by rw [← hxy, hx]; rfl)
    subst hx hy
    refine ⟨tlv.null, [], pos + (t0 :: a1).length, rfl, ?_, ?_⟩
    · rw [hf]
      simp [parser.set_empty]
    · rw [hf]
      simp [parser.set_empty]
  by_cases hm : e ≠ 0 ∧ t0 ≠ e
  · rw [if_pos hm] at hA hB
    exact ⟨tlv.null, t0 :: a1, pos, rfl, hA, hB⟩
  · rw [if_neg hm] at hA hB
    cases hh : tlv.header ((t0 :: a1) ++ x) with
    | none =>
      rw [hh] at hA
      exact hfail hA
    | some hl =>
      rw [hh] at hA
      simp only at hA
      have hbd := tlv.header_bounds _ hl hh
      unfold tlv.take at hA
      by_cases hle : hl.2 ≤ (((t0 :: a1) ++ x).drop hl.1).length
      · rw [if_pos hle] at hA
        have hin : hl.1 + hl.2 ≤ (t0 :: a1).length := by
          rw [hA] at hc
          simp only at hc
          omega
        have hhB : tlv.header ((t0 :: a1) ++ y) = some hl := by
          apply tlv.header_local _ _ hl hh
          rw [List.take_append_of_le_length (by omega),
            List.take_append_of_le_length (by omega)]
        rw [hhB] at hB
        simp only at hB
        unfold tlv.take at hB
        have hleB : hl.2 ≤ (((t0 :: a1) ++ y).drop hl.1).length := by
          simp only [List.length_drop, List.length_append] at hle ⊢
          omega
        rw [if_pos hleB] at hB
        have hd1 : ∀ z : List Nat, ((t0 :: a1) ++ z).drop hl.1 = (t0 :: a1).drop hl.1 ++ z :=
          fun z => List.drop_append_of_le_length (by omega)
        have hl2 : hl.2 ≤ ((t0 :: a1).drop hl.1).length := by
          simp only [List.length_drop]
          omega
        have ht : ∀ z : List Nat, (((t0 :: a1) ++ z).drop hl.1).take hl.2
            = ((t0 :: a1).drop hl.1).take hl.2 := fun z => by
          rw [hd1 z, List.take_append_of_le_length hl2]
        have hd : ∀ z : List Nat, (((t0 :: a1) ++ z).drop hl.1).drop hl.2
            = (t0 :: a1).drop (hl.1 + hl.2) ++ z := fun z => by
          rw [hd1 z, List.drop_append_of_le_length hl2, List.drop_drop, Nat.add_comm]
        refine ⟨⟨t0, hl.2, ⟨false, pos + hl.1, ((t0 :: a1).drop hl.1).take hl.2⟩⟩,
          (t0 :: a1).drop (hl.1 + hl.2), pos + hl.1 + hl.2, ?_, ?_, ?_⟩
        · simp only [List.length_drop]
          omega
        · rw [hA, hd x, ht x]
        · rw [hB, hd y, ht y]
      · rw [if_neg hle] at hA
        exact hfail hA

/-- A decoded element that is null is the null TLV. -/
theorem tlv.parse_fst_null (p : parser) (e : Nat)
    (h : ¬ (tlv.parse p e).1.is_not_null = true) : (tlv.parse p e).1 = tlv.null := by
  have hn : (tlv.parse p e).1.value.null = true := by
    simpa [tlv.is_not_null] using h
  cases hb : p.bytes with
  | nil => rw [tlv.parse_nil p e hb]
  | cons t r =>
    have hp := tlv.parse_header p e t r hb
    by_cases hm : e ≠ 0 ∧ t ≠ e
    · rw [if_pos hm] at hp
      rw [hp]
    · rw [if_neg hm] at hp
      cases hh : tlv.header p.bytes with
      | none =>
        rw [hh] at hp
        rw [hp]
      | some hl =>
        rw [hh] at hp
        simp only at hp
        unfold tlv.take at hp
        by_cases hle : hl.2 ≤ (p.bytes.drop hl.1).length
        · rw [if_pos hle] at hp
          rw [hp] at hn
          simp at hn
        · rw [if_neg hle] at hp
          rw [hp]

/-- The value of a decoded element does not reach beyond the end of the cursor it was
decoded from. -/
theorem tlv.parse_value_le (p : parser) (e : Nat) :
    (tlv.parse p e).1.value.data_end ≤ p.data_end := by
  by_cases h : (tlv.parse p e).1.is_not_null = true
  · obtain ⟨hl, _, hlen, _, hp⟩ := tlv.parse_not_null p e h
    rw [hp]
    simp only [parser.data_end, List.length_take, List.length_drop]
    omega
  · rw [tlv.parse_fst_null p e h]
    exact Nat.zero_le _

/-- Two cursors at the same offset whose bytes start alike: when both decode an
element whose header lies within the common bytes and whose value reaches their end,
the two values are cursors at the same offset, equally long, that start alike up to
the same place. -/
theorem tlv.parse_outer_local (nl : Bool) (pos e : Nat) (a x y : List Nat)
    (hA : (tlv.parse ⟨nl, pos, a ++ x⟩ e).1.is_not_null = true)
    (hB : (tlv.parse ⟨nl, pos, a ++ y⟩ e).1.is_not_null = true)
    (hin : (tlv.parse ⟨nl, pos, a ++ x⟩ e).1.value.pos ≤ pos + a.length)
    (hout : pos + a.length ≤ (tlv.parse ⟨nl, pos, a ++ x⟩ e).1.value.data_end) :
    ∃ (a' x' y' : List Nat) (pos' : Nat), pos' + a'.length = pos + a.length
      ∧ x'.length = y'.length
      ∧ (tlv.parse ⟨nl, pos, a ++ x⟩ e).1.value = ⟨false, pos', a' ++ x'⟩
      ∧ (tlv.parse ⟨nl, pos, a ++ y⟩ e).1.value = ⟨false, pos', a' ++ y'⟩ := by
  obtain ⟨hl, hh, hlen, h2, hp⟩ := tlv.parse_not_null _ e hA
  obtain ⟨hl', hh', hlen', _, hp'⟩ := tlv.parse_not_null _ e hB
  rw [hp] at hin hout
  simp only [parser.data_end, List.length_take, List.length_drop, List.length_append]
    at hin hout hlen hlen' hh hh'
  have hle1 : hl.1 ≤ a.length := by omega
  have hhB : tlv.header (a ++ y) = some hl := by
    apply tlv.header_local _ _ hl hh
    rw [List.take_append_of_le_length hle1, List.take_append_of_le_length hle1]
  rw [hhB] at hh'
  cases hh'
  have hv : ∀ z : List Nat, ((a ++ z).drop hl.1).take hl.2
      = a.drop hl.1 ++ z.take (hl.2 - (a.length - hl.1)) := fun z => by
    rw [List.drop_append_of_le_length hle1, List.take_append_eq_append_take,
      List.take_of_length_le (by simp only [List.length_drop]; omega), List.length_drop]
  refine ⟨a.drop hl.1, x.take (hl.2 - (a.length - hl.1)), y.take (hl.2 - (a.length - hl.1)),
    pos + hl.1, ?_, ?_, ?_, ?_⟩
  · simp only [List.length_drop]
    omega
  · simp only [List.length_take]
    omega
  · rw [hp]
    simp only
    rw [hv x]
  · rw [hp']
    simp only
    rw [hv y]

/-- The step `x509_cert.parse_version` in terms of the three elements that it may
decode from the cursor of the tbsCertificate. -/
theorem x509_cert.parse_version_eq (tv : parser) (t1 t2 t3 : tlv) (c1 c2 c3 : parser)
    (h1 : tlv.parse tv (tlv.explicit_tag_constructed 0) = (t1, c1))
    (h2 : tlv.parse c1 tlv.INTEGER = (t2, c2))
    (h3 : tlv.parse c2 tlv.INTEGER = (t3, c3)) :
    x509_cert.parse_version tv =
      if t1.is_not_null = true then
        ({ t1 with value := (tlv.parse t1.value tlv.INTEGER).2 },
         (tlv.parse t1.value tlv.INTEGER).1, t2, c2)
      else if t2.length = 1 ∧ t2.value.bytes.headD 0 < 3 then (t1, t2, t3, c3)
      else if t2.is_null = true then (t1, tlv.null, t3, c3)
      else (t1, tlv.null, t2, c2) := by
  have hn : tlv.null.is_null = true := by decide
  unfold x509_cert.parse_version
  simp only [h1, h2]
  by_cases ha : t1.is_not_null = true
  · simp only [ha, if_true, hn, h2]
  · simp only [ha, if_false, Bool.false_eq_true]
    by_cases hb : t2.length = 1 ∧ t2.value.bytes.headD 0 < 3
    · simp only [hb, and_self, if_true, hn, h3]
    · rw [if_neg hb, if_neg hb]
      by_cases hc : t2.is_null = true
      · simp only [hc, if_true, h3]
      · simp only [hc, if_false, Bool.false_eq_true]

/-- The cursor after `x509_cert.parse_version` is the cursor after the second or
after the third decoding step. -/
theorem x509_cert.parse_version_cursor (tv : parser) :
    (x509_cert.parse_version tv).2.2.2
        = (tlv.parse (tlv.parse tv (tlv.explicit_tag_constructed 0)).2 tlv.INTEGER).2
    ∨ (x509_cert.parse_version tv).2.2.2
        = (tlv.parse (tlv.parse (tlv.parse tv (tlv.explicit_tag_constructed 0)).2
            tlv.INTEGER).2 tlv.INTEGER).2 := by
  have aux : ∀ (t1 t2 t3 : tlv) (c1 c2 c3 : parser),
      tlv.parse tv (tlv.explicit_tag_constructed 0) = (t1, c1) →
      tlv.parse c1 tlv.INTEGER = (t2, c2) → tlv.parse c2 tlv.INTEGER = (t3, c3) →
      (x509_cert.parse_version tv).2.2.2 = c2 ∨ (x509_cert.parse_version tv).2.2.2 = c3 := by
    intro t1 t2 t3 c1 c2 c3 h1 h2 h3
    rw [x509_cert.parse_version_eq tv t1 t2 t3 c1 c2 c3 h1 h2 h3]
    by_cases ha : t1.is_not_null = true
    · rw [if_pos ha]
      exact Or.inl rfl
    · rw [if_neg ha]
      by_cases hb : t2.length = 1 ∧ t2.value.bytes.headD 0 < 3
      · rw [if_pos hb]
        exact Or.inr rfl
      · rw [if_neg hb]
        by_cases hc : t2.is_null = true
        · rw [if_pos hc]
          exact Or.inr rfl
        · rw [if_neg hc]
          exact Or.inl rfl
  exact aux (tlv.parse tv (tlv.explicit_tag_constructed 0)).1
    (tlv.parse (tlv.parse tv (tlv.explicit_tag_constructed 0)).2 tlv.INTEGER).1
    (tlv.parse (tlv.parse (tlv.parse tv (tlv.explicit_tag_constructed 0)).2
      tlv.INTEGER).2 tlv.INTEGER).1
    (tlv.parse tv (tlv.explicit_tag_constructed 0)).2
    (tlv.parse (tlv.parse tv (tlv.explicit_tag_constructed 0)).2 tlv.INTEGER).2
    (tlv.parse (tlv.parse (tlv.parse tv (tlv.explicit_tag_constructed 0)).2
      tlv.INTEGER).2 tlv.INTEGER).2 rfl rfl rfl

/-- The step `x509_cert.parse_version` leaves the end of the cursor where it was and
does not move the cursor backwards. -/
theorem x509_cert.parse_version_data_end (tv : parser) :
    (x509_cert.parse_version tv).2.2.2.data_end = tv.data_end
    ∧ tv.pos ≤ (x509_cert.parse_version tv).2.2.2.pos := by
  have e1 := tlv.parse_data_end tv (tlv.explicit_tag_constructed 0)
  have e2 := tlv.parse_data_end (tlv.parse tv (tlv.explicit_tag_constructed 0)).2 tlv.INTEGER
  have e3 := tlv.parse_data_end
    (tlv.parse (tlv.parse tv (tlv.explicit_tag_constructed 0)).2 tlv.INTEGER).2 tlv.INTEGER
  have p1 := tlv.parse_pos_le tv (tlv.explicit_tag_constructed 0)
  have p2 := tlv.parse_pos_le (tlv.parse tv (tlv.explicit_tag_constructed 0)).2 tlv.INTEGER
  have p3 := tlv.parse_pos_le
    (tlv.parse (tlv.parse tv (tlv.explicit_tag_constructed 0)).2 tlv.INTEGER).2 tlv.INTEGER
  rcases x509_cert.parse_version_cursor tv with h | h
  · rw [h]
    exact ⟨by omega, by omega⟩
  · rw [h]
    exact ⟨by omega, by omega⟩

/-- Two cursors at the same offset whose bytes start alike and are equally long: when
the step `x509_cert.parse_version` ends within the common bytes, it yields the same
fields on both and leaves them alike. -/
theorem x509_cert.parse_version_local (nl : Bool) (pos : Nat) (a x y : List Nat)
    (hxy : x.length = y.length)
    (hc : (x509_cert.parse_version ⟨nl, pos, a ++ x⟩).2.2.2.pos < pos + a.length) :
    ∃ (v : tlv × tlv × tlv) (a' : List Nat) (pos' : Nat), pos' + a'.length = pos + a.length
      ∧ x509_cert.parse_version ⟨nl, pos, a ++ x⟩ = (v.1, v.2.1, v.2.2, ⟨nl, pos', a' ++ x⟩)
      ∧ x509_cert.parse_version ⟨nl, pos, a ++ y⟩ = (v.1, v.2.1, v.2.2, ⟨nl, pos', a' ++ y⟩) := by
  have p1 := tlv.parse_pos_le ⟨nl, pos, a ++ x⟩ (tlv.explicit_tag_constructed 0)
  have p2 := tlv.parse_pos_le
    (tlv.parse ⟨nl, pos, a ++ x⟩ (tlv.explicit_tag_constructed 0)).2 tlv.INTEGER
  have p3 := tlv.parse_pos_le
    (tlv.parse (tlv.parse ⟨nl, pos, a ++ x⟩ (tlv.explicit_tag_constructed 0)).2
      tlv.INTEGER).2 tlv.INTEGER
  have hc2 : (tlv.parse (tlv.parse ⟨nl, pos, a ++ x⟩ (tlv.explicit_tag_constructed 0)).2
      tlv.INTEGER).2.pos < pos + a.length := by
    rcases x509_cert.parse_version_cursor ⟨nl, pos, a ++ x⟩ with h | h
    · rw [h] at hc
      exact hc
    · rw [h] at hc
      omega
  have ha : a ≠ [] := by
    intro h
    subst h
    simp only [List.length_nil] at hc2
    simp only at p1
    omega
  obtain ⟨t1, a1, q1, hq1, hA1, hB1⟩ :=
    tlv.parse_local nl pos (tlv.explicit_tag_constructed 0) a x y hxy ha (by omega)
  rw [hA1] at hc2 p2 p3
  simp only at hc2 p2 p3
  have ha1 : a1 ≠ [] := by
    intro h
    subst h
    simp only [List.length_nil] at hq1
    omega
  obtain ⟨t2, a2, q2, hq2, hA2, hB2⟩ :=
    tlv.parse_local nl q1 tlv.INTEGER a1 x y hxy ha1 (by omega)
  rw [hA2] at hc2 p3
  simp only at hc2 p3
  have ha2 : a2 ≠ [] := by
    intro h
    subst h
    simp only [List.length_nil] at hq2
    omega
  have eA := x509_cert.parse_version_eq ⟨nl, pos, a ++ x⟩ t1 t2
    (tlv.parse ⟨nl, q2, a2 ++ x⟩ tlv.INTEGER).1 _ _
    (tlv.parse ⟨nl, q2, a2 ++ x⟩ tlv.INTEGER).2 hA1 hA2 rfl
  have eB := x509_cert.parse_version_eq ⟨nl, pos, a ++ y⟩ t1 t2
    (tlv.parse ⟨nl, q2, a2 ++ y⟩ tlv.INTEGER).1 _ _
    (tlv.parse ⟨nl, q2, a2 ++ y⟩ tlv.INTEGER).2 hB1 hB2 rfl
  have third : (tlv.parse ⟨nl, q2, a2 ++ x⟩ tlv.INTEGER).2.pos < pos + a.length →
      ∃ (t3 : tlv) (a3 : List Nat) (q3 : Nat), q3 + a3.length = pos + a.length
        ∧ tlv.parse ⟨nl, q2, a2 ++ x⟩ tlv.INTEGER = (t3, ⟨nl, q3, a3 ++ x⟩)
        ∧ tlv.parse ⟨nl, q2, a2 ++ y⟩ tlv.INTEGER = (t3, ⟨nl, q3, a3 ++ y⟩) := by
    intro h3
    obtain ⟨t3, a3, q3, hq3, hA3, hB3⟩ :=
      tlv.parse_local nl q2 tlv.INTEGER a2 x y hxy ha2 (by omega)
    exact ⟨t3, a3, q3, by omega, hA3, hB3⟩
  by_cases h1 : t1.is_not_null = true
  · rw [if_pos h1] at eA eB
    exact ⟨(_, _, t2), a2, q2, by omega, eA, eB⟩
  · rw [if_neg h1] at eA eB
    by_cases hb : t2.length = 1 ∧ t2.value.bytes.headD 0 < 3
    · rw [if_pos hb] at eA eB
      rw [eA] at hc
      obtain ⟨t3, a3, q3, hq3, hA3, hB3⟩ := third hc
      rw [hA3] at eA
      rw [hB3] at eB
      exact ⟨(t1, t2, t3), a3, q3, hq3, eA, eB⟩
    · rw [if_neg hb] at eA eB
      by_cases hn : t2.is_null = true
      · rw [if_pos hn] at eA eB
        rw [eA] at hc
        obtain ⟨t3, a3, q3, hq3, hA3, hB3⟩ := third hc
        rw [hA3] at eA
        rw [hB3] at eB
        exact ⟨(t1, tlv.null, t3), a3, q3, hq3, eA, eB⟩
      · rw [if_neg hn] at eA eB
        exact ⟨(t1, tlv.null, t2), a2, q2, by omega, eA, eB⟩

/-- `x509_cert_prefix::parse` when the issuer is decoded. -/
theorem x509_cert_prefix.parse_of_issuer (buffer : List Nat)
    (h : ( x509_cert_prefix.issuer_step (x509_cert.tbs_start buffer)).1.is_not_null = true) :
    x509_cert_prefix.parse buffer
      = { serial_number := (x509_cert.parse_version (x509_cert.tbs_start buffer)).2.2.1,
          issuer := ( x509_cert_prefix.issuer_step (x509_cert.tbs_start buffer)).1,
          data := some 0,
          data_end := some ( x509_cert_prefix.issuer_step (x509_cert.tbs_start buffer)).2.pos } := by
  unfold x509_cert_prefix.issuer_step at h
  rw [ x509_cert_prefix.parse_unfold]
  unfold x509_cert_prefix.issuer_step
  unfold x509_cert.tbs_start at *
  simp only
  rw [if_pos h]

/-- Where the elements lie when `x509_cert_prefix::parse` decodes an issuer: the
certificate and the tbsCertificate are decoded, the issuer ends after the start of
their values and within them, and the cursor after the issuer stands at the end of
the issuer's value. -/
theorem x509_cert_prefix.issuer_facts (buffer : List Nat)
    (h : ( x509_cert_prefix.issuer_step (x509_cert.tbs_start buffer)).1.is_not_null = true) :
    (tlv.parse (parser_init buffer) tlv.SEQUENCE).1.is_not_null = true
    ∧ (tlv.parse (tlv.parse (parser_init buffer) tlv.SEQUENCE).1.value
        tlv.SEQUENCE).1.is_not_null = true
    ∧ (tlv.parse (parser_init buffer) tlv.SEQUENCE).1.value.pos
        ≤ (x509_cert.tbs_start buffer).pos
    ∧ (x509_cert.tbs_start buffer).pos + 2
        ≤ ( x509_cert_prefix.issuer_step (x509_cert.tbs_start buffer)).2.pos
    ∧ ( x509_cert_prefix.issuer_step (x509_cert.tbs_start buffer)).2.pos
        ≤ (x509_cert.tbs_start buffer).data_end
    ∧ (x509_cert.tbs_start buffer).data_end
        ≤ (tlv.parse (parser_init buffer) tlv.SEQUENCE).1.value.data_end
    ∧ (tlv.parse (parser_init buffer) tlv.SEQUENCE).1.value.data_end ≤ buffer.length
    ∧ ( x509_cert_prefix.issuer_step (x509_cert.tbs_start buffer)).2.pos
        = ( x509_cert_prefix.issuer_step (x509_cert.tbs_start buffer)).1.value.pos
          + ( x509_cert_prefix.issuer_step (x509_cert.tbs_start buffer)).1.length := by
  unfold x509_cert_prefix.issuer_step at *
  obtain ⟨hl, _, hlen, h2, hp⟩ := tlv.parse_not_null _ 0 h
  have e1 := tlv.parse_data_end
    (tlv.parse (x509_cert.parse_version (x509_cert.tbs_start buffer)).2.2.2 0).2 0
  have e2 := tlv.parse_data_end (x509_cert.parse_version (x509_cert.tbs_start buffer)).2.2.2 0
  have e3 := x509_cert.parse_version_data_end (x509_cert.tbs_start buffer)
  have q2 := tlv.parse_pos_le (x509_cert.parse_version (x509_cert.tbs_start buffer)).2.2.2 0
  have hk := congrArg (fun r => r.2.pos) hp
  have hv := congrArg (fun r => r.1.value.pos) hp
  have hlg := congrArg (fun r => r.1.length) hp
  simp only at hk hv hlg
  have v1 := tlv.parse_value_le (parser_init buffer) tlv.SEQUENCE
  have v2 := tlv.parse_value_le (tlv.parse (parser_init buffer) tlv.SEQUENCE).1.value
    tlv.SEQUENCE
  have hinit : (parser_init buffer).data_end = buffer.length := by
    simp [parser.data_end, parser_init]
  have hend : ∀ p : parser, p.pos ≤ p.data_end := fun p => Nat.le_add_right _ _
  have hke := hend (tlv.parse (tlv.parse
    (x509_cert.parse_version (x509_cert.tbs_start buffer)).2.2.2 0).2 0).2
  have htbs : (x509_cert.tbs_start buffer).data_end ≠ 0 := by omega
  have hnt : (tlv.parse (tlv.parse (parser_init buffer) tlv.SEQUENCE).1.value
      tlv.SEQUENCE).1.is_not_null = true := by
    by_contra hc
    apply htbs
    unfold x509_cert.tbs_start
    rw [tlv.parse_fst_null _ _ hc]
    rfl
  have hnc : (tlv.parse (parser_init buffer) tlv.SEQUENCE).1.is_not_null = true := by
    by_contra hc
    apply htbs
    unfold x509_cert.tbs_start
    rw [tlv.parse_fst_null _ _ hc]
    rfl
  obtain ⟨hl2, _, _, h22, hp2⟩ := tlv.parse_not_null _ tlv.SEQUENCE hnt
  have hvt := congrArg (fun r => r.1.value.pos) hp2
  simp only at hvt
  have htp : (x509_cert.tbs_start buffer).pos
      = (tlv.parse (parser_init buffer) tlv.SEQUENCE).1.value.pos + hl2.1 := by
    unfold x509_cert.tbs_start
    exact hvt
  have v2' : (x509_cert.tbs_start buffer).data_end
      ≤ (tlv.parse (parser_init buffer) tlv.SEQUENCE).1.value.data_end := v2
  refine ⟨hnc, hnt, by omega, by omega, by omega, v2', by omega, by omega⟩

/-- The steps of `x509_cert_prefix::parse` on two cursors of the tbsCertificate at
the same offset, equally long, whose bytes are alike up to the end of the issuer
decoded from the first: serial number, issuer and end of the issuer are the same. -/
theorem x509_cert_prefix.issuer_step_local (nl : Bool) (pos : Nat) (a x y : List Nat)
    (hxy : x.length = y.length)
    (hn : ( x509_cert_prefix.issuer_step ⟨nl, pos, a ++ x⟩).1.is_not_null = true)
    (hk : ( x509_cert_prefix.issuer_step ⟨nl, pos, a ++ x⟩).2.pos = pos + a.length) :
    (x509_cert.parse_version ⟨nl, pos, a ++ y⟩).2.2.1
        = (x509_cert.parse_version ⟨nl, pos, a ++ x⟩).2.2.1
    ∧ ( x509_cert_prefix.issuer_step ⟨nl, pos, a ++ y⟩).1
        = ( x509_cert_prefix.issuer_step ⟨nl, pos, a ++ x⟩).1
    ∧ ( x509_cert_prefix.issuer_step ⟨nl, pos, a ++ y⟩).2.pos
        = ( x509_cert_prefix.issuer_step ⟨nl, pos, a ++ x⟩).2.pos := by
  unfold x509_cert_prefix.issuer_step at *
  obtain ⟨hl, _, _, h2, hp⟩ := tlv.parse_not_null _ 0 hn
  have hpk := congrArg (fun r => r.2.pos) hp
  simp only at hpk
  have q1 := tlv.parse_pos_le (x509_cert.parse_version ⟨nl, pos, a ++ x⟩).2.2.2 0
  obtain ⟨v, a1, p1, hp1, eA, eB⟩ :=
    x509_cert.parse_version_local nl pos a x y hxy (by omega)
  rw [eA] at hk hpk q1 ⊢
  rw [eB]
  simp only at hk hpk q1 ⊢
  have ha1 : a1 ≠ [] := by
    intro h
    subst h
    simp only [List.length_nil] at hp1
    omega
  obtain ⟨t2, a2, p2, hp2, fA, fB⟩ := tlv.parse_local nl p1 0 a1 x y hxy ha1 (by omega)
  rw [fA] at hk hpk q1 ⊢
  rw [fB]
  simp only at hk hpk q1 ⊢
  have ha2 : a2 ≠ [] := by
    intro h
    subst h
    simp only [List.length_nil] at hp2
    omega
  obtain ⟨t3, a3, p3, hp3, gA, gB⟩ := tlv.parse_local nl p2 0 a2 x y hxy ha2 (by omega)
  rw [gA, gB]
  simp

/-- Two inputs that start alike up to the end of the issuer decoded from the first,
and from both of which an issuer is decoded: serial number, issuer and end of the
issuer are the same. -/
theorem x509_cert_prefix.parse_inputs_alike (a x y : List Nat)
    (hA : ( x509_cert_prefix.issuer_step (x509_cert.tbs_start (a ++ x))).1.is_not_null = true)
    (hB : ( x509_cert_prefix.issuer_step (x509_cert.tbs_start (a ++ y))).1.is_not_null = true)
    (hk : ( x509_cert_prefix.issuer_step (x509_cert.tbs_start (a ++ x))).2.pos = a.length) :
    (x509_cert.parse_version (x509_cert.tbs_start (a ++ y))).2.2.1
        = (x509_cert.parse_version (x509_cert.tbs_start (a ++ x))).2.2.1
    ∧ ( x509_cert_prefix.issuer_step (x509_cert.tbs_start (a ++ y))).1
        = ( x509_cert_prefix.issuer_step (x509_cert.tbs_start (a ++ x))).1
    ∧ ( x509_cert_prefix.issuer_step (x509_cert.tbs_start (a ++ y))).2.pos
        = ( x509_cert_prefix.issuer_step (x509_cert.tbs_start (a ++ x))).2.pos := by
  obtain ⟨cA, tA, pA1, pA2, pA3, pA4, _, _⟩ := x509_cert_prefix.issuer_facts (a ++ x) hA
  obtain ⟨cB, tB, _, _, _, _, _, _⟩ := x509_cert_prefix.issuer_facts (a ++ y) hB
  have iA : parser_init (a ++ x) = ⟨false, 0, a ++ x⟩ := rfl
  have iB : parser_init (a ++ y) = ⟨false, 0, a ++ y⟩ := rfl
  rw [iA] at cA tA pA1 pA4
  rw [iB] at cB tB
  obtain ⟨a1, x1, y1, p1, hp1, hxy1, vA, vB⟩ :=
    tlv.parse_outer_local false 0 tlv.SEQUENCE a x y cA cB (by omega) (by omega)
  have sA : x509_cert.tbs_start (a ++ x)
      = (tlv.parse ⟨false, p1, a1 ++ x1⟩ tlv.SEQUENCE).1.value := by
    unfold x509_cert.tbs_start
    rw [iA, vA]
  have sB : x509_cert.tbs_start (a ++ y)
      = (tlv.parse ⟨false, p1, a1 ++ y1⟩ tlv.SEQUENCE).1.value := by
    unfold x509_cert.tbs_start
    rw [iB, vB]
  rw [vA] at tA
  rw [vB] at tB
  rw [sA] at pA1 pA2 pA3 hA hk ⊢
  rw [sB] at hB ⊢
  obtain ⟨a2, x2, y2, p2, hp2, hxy2, wA, wB⟩ :=
    tlv.parse_outer_local false p1 tlv.SEQUENCE a1 x1 y1 tA tB (by omega) (by omega)
  rw [wA] at hA hk ⊢
  rw [wB]
  exact x509_cert_prefix.issuer_step_local false p2 a2 x2 y2 hxy2 hA (by omega)

/-- C25. When `x509_cert_prefix::parse` decodes a non-null issuer, `data` is the
start of the input and `data_end` the end of the issuer element: `get_length` is
the offset of the end of the issuer's value, it is positive and at most the length
of the input, and `print_as_json_hex` writes the bytes of the input up to there.
A second input from which an issuer is decoded and which has the same bytes up to
that offset yields the same prefix and the same text. -/
theorem x509_cert_prefix.ends_at_issuer (buffer : List Nat)
    (h : ( x509_cert_prefix.parse buffer).issuer.is_not_null = true) :
    ( x509_cert_prefix.parse buffer).data = some 0
    ∧ ( x509_cert_prefix.parse buffer).get_length
        = ( x509_cert_prefix.parse buffer).issuer.value.pos
          + ( x509_cert_prefix.parse buffer).issuer.length
    ∧ 0 < ( x509_cert_prefix.parse buffer).get_length
    ∧ ( x509_cert_prefix.parse buffer).get_length ≤ buffer.length
    ∧ ( x509_cert_prefix.parse buffer).print_as_json_hex buffer
        = "\x7b\"cert_prefix\":\""
          ++ fprintf_raw_as_hex (buffer.take ( x509_cert_prefix.parse buffer).get_length)
          ++ "\"\x7d\n"
    ∧ ∀ other : List Nat, ( x509_cert_prefix.parse other).issuer.is_not_null = true →
        other.take ( x509_cert_prefix.parse buffer).get_length
          = buffer.take ( x509_cert_prefix.parse buffer).get_length →
        x509_cert_prefix.parse other = x509_cert_prefix.parse buffer
        ∧ ( x509_cert_prefix.parse other).print_as_json_hex other
            = ( x509_cert_prefix.parse buffer).print_as_json_hex buffer := by
  have hstep : ∀ b : List Nat, ( x509_cert_prefix.parse b).issuer.is_not_null = true →
      ( x509_cert_prefix.issuer_step (x509_cert.tbs_start b)).1.is_not_null = true := by
    intro b hb
    rw [ x509_cert_prefix.parse_issuer b] at hb
    exact hb
  have hs := hstep buffer h
  have e := x509_cert_prefix.parse_of_issuer buffer hs
  obtain ⟨_, _, f1, f2, f3, f4, f5, f6⟩ := x509_cert_prefix.issuer_facts buffer hs
  have hnn : ( x509_cert_prefix.issuer_step (x509_cert.tbs_start buffer)).1.is_null = false := by
    unfold tlv.is_not_null at hs
    unfold tlv.is_null
    simpa using hs
  have hg : ( x509_cert_prefix.parse buffer).get_length
      = ( x509_cert_prefix.issuer_step (x509_cert.tbs_start buffer)).2.pos := by
    rw [e]
    unfold x509_cert_prefix.get_length
    simp only [hnn, Bool.false_eq_true, if_false, Option.getD_some, Nat.sub_zero]
  have hprint : ∀ b : List Nat,
      ( x509_cert_prefix.issuer_step (x509_cert.tbs_start b)).1.is_not_null = true →
      ( x509_cert_prefix.parse b).print_as_json_hex b
        = "\x7b\"cert_prefix\":\""
          ++ fprintf_raw_as_hex
              (b.take ( x509_cert_prefix.issuer_step (x509_cert.tbs_start b)).2.pos)
          ++ "\"\x7d\n" := by
    intro b hb
    rw [ x509_cert_prefix.parse_of_issuer b hb]
    unfold x509_cert_prefix.print_as_json_hex
    simp only [List.drop_zero, Nat.sub_zero]
  refine ⟨?_, ?_, ?_, ?_, ?_, ?_⟩
  · rw [e]
  · rw [hg, f6, e]
  · rw [hg]
    omega
  · rw [hg]
    omega
  · rw [hg]
    exact hprint buffer hs
  · intro other ho htake
    rw [hg] at htake
    have hso := hstep other ho
    have hkl : (buffer.take
        ( x509_cert_prefix.issuer_step (x509_cert.tbs_start buffer)).2.pos).length
        = ( x509_cert_prefix.issuer_step (x509_cert.tbs_start buffer)).2.pos := by
      rw [List.length_take]
      omega
    have hbe := List.take_append_drop
      ( x509_cert_prefix.issuer_step (x509_cert.tbs_start buffer)).2.pos buffer
    have hoe : buffer.take ( x509_cert_prefix.issuer_step (x509_cert.tbs_start buffer)).2.pos
        ++ other.drop ( x509_cert_prefix.issuer_step (x509_cert.tbs_start buffer)).2.pos
        = other := by
      rw [← htake]
      exact List.take_append_drop _ other
    have hl := x509_cert_prefix.parse_inputs_alike
      (buffer.take ( x509_cert_prefix.issuer_step (x509_cert.tbs_start buffer)).2.pos)
      (buffer.drop ( x509_cert_prefix.issuer_step (x509_cert.tbs_start buffer)).2.pos)
      (other.drop ( x509_cert_prefix.issuer_step (x509_cert.tbs_start buffer)).2.pos)
      (by rw [hbe]; exact hs) (by rw [hoe]; exact hso) (by rw [hbe, hkl])
    rw [hbe, hoe] at hl
    have heq : x509_cert_prefix.parse other = x509_cert_prefix.parse buffer := by
      rw [e, x509_cert_prefix.parse_of_issuer other hso, hl.1, hl.2.1, hl.2.2]
    refine ⟨heq, ?_⟩
    rw [hprint other hso, hprint buffer hs, hl.2.2, htake]

/-- C25, witness: for `cert_basic_constraints` the issuer ends at offset 41, and the
same certificate with other signature bytes yields the same prefix. -/
theorem x509_cert_prefix.ends_at_issuer_witness :
    ( x509_cert_prefix.parse cert_basic_constraints).issuer.is_not_null = true
    ∧ ( x509_cert_prefix.parse cert_basic_constraints).issuer
        = ⟨48, 12, ⟨false, 29, [49, 10, 48, 8, 6, 3, 85, 4, 3, 19, 1, 97]⟩⟩
    ∧ ( x509_cert_prefix.parse cert_basic_constraints).get_length = 41
    ∧ ( x509_cert_prefix.parse cert_basic_constraints).print_as_json_hex cert_basic_constraints
        = "\x7b\"cert_prefix\":\"308195308180a003020102020105300b06092a864886f70d01010b300c310a30080603550403130161\"\x7d\n"
    ∧ x509_cert_prefix.parse (cert_basic_constraints.take 150 ++ [1, 2])
        = x509_cert_prefix.parse cert_basic_constraints
    ∧ ( x509_cert_prefix.parse (cert_basic_constraints.take 150 ++ [1, 2])).print_as_json_hex
          (cert_basic_constraints.take 150 ++ [1, 2])
        = ( x509_cert_prefix.parse cert_basic_constraints).print_as_json_hex
            cert_basic_constraints :=
  ⟨by decide, by decide, by decide, by decide,
   (( x509_cert_prefix.ends_at_issuer cert_basic_constraints (by decide)).2.2.2.2.2
      (cert_basic_constraints.take 150 ++ [1, 2]) (by decide) (by decide)).1,
   (( x509_cert_prefix.ends_at_issuer cert_basic_constraints (by decide)).2.2.2.2.2
      (cert_basic_constraints.take 150 ++ [1, 2]) (by decide) (by decide)).2⟩

/-! ## Certificates without extensions, truncated inputs, the array of extensions -/

/-- `subject_public_key_info::print_as_json` runs to its last write when the
algorithm is not null. -/
theorem subject_public_key_info.print_done (env : asn1) (s : subject_public_key_info)
    (label : String) (h : s.algorithm.algorithm.is_not_null = true) :
    ∃ r : String × subject_public_key_info, s.print_as_json env label = outcome.done r := by
  unfold subject_public_key_info.print_as_json algorithm_identifier.type
  rw [if_pos h]
  simp only
  split
  · exact ⟨_, rfl⟩
  · split
    · exact ⟨_, rfl⟩
    · exact ⟨_, rfl⟩

/-- C27. When the tbsCertificate has no bytes left after the SubjectPublicKeyInfo,
`x509_cert::parse` leaves the extension list empty.  With an empty extension list
`x509_cert::print_as_json` runs to its last write whenever the algorithm of the
SubjectPublicKeyInfo is not null.  Whenever it completes, it writes the key
`extensions` and the array if and only if the extension list is not empty: with an
empty list nothing is written for the extensions, and the other text consists of
the writes for the other members. -/
theorem x509_cert.extensions_key_iff (env : asn1) (fuel : Nat) (buffer : List Nat) :
    (parser_get_data_length (x509_cert.parse_tbs buffer).tbs_certificate.value = 0 →
      (x509_cert.parse buffer).extension = [])
    ∧ ((x509_cert.parse buffer).extension = [] →
        (x509_cert.parse buffer).subjectPublicKeyInfo.algorithm.algorithm.is_not_null = true →
        ∃ r : output × x509_cert,
          x509_cert.print_as_json env fuel (x509_cert.parse buffer) = outcome.done r
          ∧ r.1.stdout = "")
    ∧ ∀ (c : x509_cert) (r : output × x509_cert),
        x509_cert.print_as_json env fuel c = outcome.done r →
        (c.extension = [] → r.1.stdout = "")
        ∧ (c.extension ≠ [] → ∃ body : String, r.1.stdout = ",\"extensions\":[" ++ body ++ "]")
        ∧ ∃ key : String,
            r.1.f = "\x7b" ++ env.print_as_json_hex c.serial_number "serial_number" false
                      ++ c.issuer.print_as_json env "issuer"
                      ++ c.validity.print_as_json env
                      ++ c.subject.print_as_json env "subject"
                      ++ key
                      ++ ",\"signature_algorithm\":" ++ c.signature_algorithm.print_as_json env
                      ++ ","
                      ++ env.print_as_json_hex c.signature.remove_bitstring_encoding
                          "signature" false
                      ++ "\x7d\n" := by
  refine ⟨fun h => ?_, fun he hn => ?_, fun c r h => ⟨fun he => ?_, fun hne => ?_, ?_⟩⟩
  · unfold x509_cert.parse
    simp only
    rw [if_pos h]
    rfl
  · obtain ⟨s, hs⟩ := subject_public_key_info.print_done env
      (x509_cert.parse buffer).subjectPublicKeyInfo "subject_public_key_info" hn
    unfold x509_cert.print_as_json
    rw [hs, he]
    exact ⟨_, rfl, rfl⟩
  · rcases x509_cert.print_stdout env fuel c r h with h1 | h1
    · exact h1.2
    · rw [he] at h1
      exact absurd h1.1 (by decide)
  · rcases x509_cert.print_stdout env fuel c r h with h1 | h1
    · exact absurd (List.eq_nil_of_length_eq_zero h1.1) hne
    · obtain ⟨_, x, _, hx⟩ := h1
      exact ⟨x.1, hx⟩
  · exact x509_cert.print_f_shape env fuel c r h

/-- C27, witness: `cert_no_extensions` has no bytes left after the
SubjectPublicKeyInfo; its extension list is empty and its rendering writes nothing
for the extensions, while `cert_basic_constraints` has one extension and the key is
written. -/
theorem x509_cert.extensions_key_iff_witness :
    parser_get_data_length (x509_cert.parse_tbs cert_no_extensions).tbs_certificate.value = 0
    ∧ (x509_cert.parse cert_no_extensions).extension = []
    ∧ (∃ r : output × x509_cert,
        x509_cert.print_as_json asn1.sample 0 (x509_cert.parse cert_no_extensions)
          = outcome.done r ∧ r.1.stdout = "")
    ∧ (x509_cert.parse cert_basic_constraints).extension.length = 1
    ∧ ((x509_cert.print_as_json asn1.sample 0
          (x509_cert.parse cert_basic_constraints)).result.map (fun r => r.1.stdout))
        = some ",\"extensions\":[\x7b\"id-ce-basicConstraints\":\"30030101ff\",\"critical\":true\x7d,\x7b\"BasicConstraints\":\x7b\"ca\":true,\"pathLenConstraint\":0\x7d\x7d]" :=
  ⟨by decide,
   (x509_cert.extensions_key_iff asn1.sample 0 cert_no_extensions).1 (by decide),
   (x509_cert.extensions_key_iff asn1.sample 0 cert_no_extensions).2.1 (by decide) (by decide),
   by decide, by decide⟩

/-- The header of an encoded element: the tag octet and the length octets, and the
number of content bytes. -/
theorem tlv.header_der_element (tag : Nat) (content : List Nat)
    (hlen : content.length < 4294967296) :
    tlv.header (der_element tag content)
      = some (1 + (der_length content.length).length, content.length) := by
  have hp := tlv.parse_der_element false 0 tag content [] hlen
  rw [List.append_nil] at hp
  have hn : (tlv.parse ⟨false, 0, der_element tag content⟩ 0).1.is_not_null = true := by
    rw [hp]
    rfl
  obtain ⟨hl, hh, _, _, he⟩ := tlv.parse_not_null _ 0 hn
  rw [hp] at he
  simp only [Prod.mk.injEq, tlv.mk.injEq, parser.mk.injEq] at he
  simp only at hh
  rw [hh]
  have h1 : hl.1 = 1 + (der_length content.length).length := by omega
  have h2 : hl.2 = content.length := he.1.2.1.symm
  rw [← h1, ← h2]

/-- An encoded element that is cut short is not decoded: the declared length exceeds
the bytes present. -/
theorem tlv.parse_cut (nl : Bool) (pos e tag k : Nat) (content : List Nat)
    (hlen : content.length < 4294967296) (hk : k < (der_element tag content).length) :
    (tlv.parse ⟨nl, pos, (der_element tag content).take k⟩ e).1 = tlv.null := by
  apply tlv.parse_fst_null
  intro hn
  obtain ⟨hl, hh, hle, _, _⟩ := tlv.parse_not_null _ e hn
  simp only [List.length_take] at hle hh
  have hfull := tlv.header_der_element tag content hlen
  have hloc := tlv.header_local _ (der_element tag content) hl hh (by
    rw [List.take_take, Nat.min_eq_left (by omega)])
  rw [hfull] at hloc
  cases hloc
  simp only [der_element, List.length_cons, List.length_append] at hle hk
  omega

/-- When the outer SEQUENCE is not decoded, `x509_cert::parse` leaves the certificate
as it was constructed. -/
theorem x509_cert.parse_of_null (buffer : List Nat)
    (h : (tlv.parse (parser_init buffer) tlv.SEQUENCE).1 = tlv.null) :
    x509_cert.parse buffer = x509_cert.empty := by
  unfold x509_cert.parse x509_cert.parse_tbs x509_cert.tbs_start
  simp only [h]
  decide

/-- Every typed body of `x509_cert::print_as_json` opens an object of its own after
a comma. -/
theorem x509_cert.typed_body_opens (env : asn1) (fuel : Nat) :
    ∀ b ∈ x509_cert.typed_bodies env fuel, ∀ (p : parser) (r : String × parser),
      b.2 p = outcome.done r → ∃ rest : String, r.1 = ",\x7b" ++ rest := by
  have app : ∀ s t : String, (∃ rest : String, s = ",\x7b" ++ rest) →
      ∃ rest : String, s ++ t = ",\x7b" ++ rest := by
    intro s t h
    obtain ⟨rest, hr⟩ := h
    exact ⟨rest ++ t, by rw [hr, String.append_assoc]⟩
  have b1 : ∃ rest : String, ",\x7b" = ",\x7b" ++ rest := ⟨"", rfl⟩
  have b2 : ∃ rest : String, ",\x7b\"" = ",\x7b" ++ rest := ⟨"\"", rfl⟩
  have b3 : ∃ rest : String, ",\x7b\"BasicConstraints\":\x7b\"ca\":" = ",\x7b" ++ rest :=
    ⟨"\"BasicConstraints\":\x7b\"ca\":", rfl⟩
  have b4 : ∃ rest : String, ",\x7b\"ext_key_usage\":[" = ",\x7b" ++ rest :=
    ⟨"\"ext_key_usage\":[", rfl⟩
  have b5 : ∃ rest : String, ",\x7b\"authority_key_identifier\":\x7b" = ",\x7b" ++ rest :=
    ⟨"\"authority_key_identifier\":\x7b", rfl⟩
  intro b hb p r h
  simp only [x509_cert.typed_bodies, List.mem_cons, List.mem_singleton, List.not_mem_nil,
    or_false] at hb
  rcases hb with rfl | rfl | rfl | rfl | rfl | rfl | rfl | rfl | rfl | rfl | rfl | rfl
  · simp only [outcome.done.injEq] at h
    rw [← h]
    unfold signed_certificate_timestamp_list.print_as_json
    exact app _ _ (app _ _ b1)
  · simp only [outcome.done.injEq] at h
    rw [← h]
    unfold name_constraints.print_as_json
    exact app _ _ (app _ _ (app _ _ (app _ _ (app _ _ (app _ _ b1)))))
  · simp only [outcome.done.injEq] at h
    rw [← h]
    unfold crl_distribution_points.print_as_json
    exact app _ _ (app _ _ (app _ _ (app _ _ (app _ _ (app _ _ b1)))))
  · simp only at h
    unfold certificate_policies.print_as_json at h
    cases hl : certificate_policies.print_loop env fuel "\x7b"
        (certificate_policies.parse p).1.sequence.value with
    | done body =>
      rw [hl] at h
      simp only [outcome.bind, outcome.done.injEq] at h
      rw [← h]
      exact app _ _ (app _ _ (app _ _ (app _ _ (app _ _ (app _ _ b1)))))
    | fault => rw [hl] at h; simp [outcome.bind] at h
    | spin => rw [hl] at h; simp [outcome.bind] at h
  · simp only [outcome.done.injEq] at h
    rw [← h]
    unfold private_key_usage_period.print_as_json
    simp only [if_true]
    exact app _ _ (app _ _ (app _ _ (app _ _ (app _ _ b2))))
  · simp only [outcome.done.injEq] at h
    rw [← h]
    unfold basic_constraints.print_as_json
    exact app _ _ (app _ _ (app _ _ (app _ _ b3)))
  · simp only [outcome.done.injEq] at h
    rw [← h]
    unfold key_usage.print_as_json
    simp only [if_true]
    exact app _ _ (app _ _ b1)
  · simp only [outcome.done.injEq] at h
    rw [← h]
    unfold ext_key_usage.print_as_json
    exact app _ _ (app _ _ b4)
  · simp only [outcome.done.injEq] at h
    rw [← h]
    unfold subject_alt_name.print_as_json
    exact app _ _ (app _ _ (app _ _ (app _ _ b2)))
  · simp only [outcome.done.injEq] at h
    rw [← h]
    unfold subject_alt_name.print_as_json
    exact app _ _ (app _ _ (app _ _ (app _ _ b2)))
  · simp only [outcome.done.injEq] at h
    rw [← h]
    unfold authority_key_identifier.print_as_json
    exact app _ _ (app _ _ (app _ _ (app _ _ b5)))
  · simp only [outcome.done.injEq] at h
    rw [← h]
    exact app _ _ (app _ _ b1)

/-- One iteration of the loop over the extension list, for a constructed entry: the
generic object, and after it the text of the typed body. -/
theorem x509_cert.print_extension_typed (env : asn1) (fuel : Nat) (comma : String)
    (xtn : Mercury.extension) (r : String × String × Mercury.extension)
    (h : x509_cert.print_extension env fuel comma xtn = outcome.done r)
    (hc : xtn.sequence.is_constructed = true) :
    ∃ t : String, r.1 = comma ++ xtn.generic_object env ++ t ∧ r.2.1 = ","
      ∧ xtn.typed_text env fuel t := by
  unfold x509_cert.print_extension at h
  rw [if_pos hc] at h
  by_cases hex : ∃ b ∈ x509_cert.typed_bodies env fuel, xtn.oid_string env = some b.1
  · obtain ⟨b, hb, ho⟩ := hex
    rw [x509_cert.print_typed_one _ _ (x509_cert.typed_bodies_nodup env fuel) b hb ho] at h
    cases hbody : b.2 xtn.extnValue.value with
    | done a =>
      rw [hbody] at h
      simp only [outcome.bind, outcome.done.injEq] at h
      refine ⟨a.1, by rw [← h], by rw [← h], fun hno => absurd ho (hno b hb), fun _ => ?_⟩
      exact x509_cert.typed_body_opens env fuel b hb _ a hbody
    | fault => rw [hbody] at h; simp [outcome.bind] at h
    | spin => rw [hbody] at h; simp [outcome.bind] at h
  · have hno : ∀ b ∈ x509_cert.typed_bodies env fuel, xtn.oid_string env ≠ some b.1 :=
      fun b hb ho => hex ⟨b, hb, ho⟩
    rw [x509_cert.print_typed_none _ _ hno] at h
    simp only [outcome.bind, outcome.done.injEq] at h
    refine ⟨"", by rw [← h, String.append_empty], by rw [← h], fun _ => rfl,
      fun hyes => absurd hyes hex⟩

/-- The loop over the extension list: for each constructed entry, in list order, the
generic object and after it the text of the typed body. -/
theorem x509_cert.print_extensions_typed (env : asn1) (fuel : Nat)
    (l : List Mercury.extension) :
    ∀ (comma : String) (r : String × List Mercury.extension),
      x509_cert.print_extensions env fuel comma l = outcome.done r →
      ∃ typed : List String,
        List.Forall₂ (extension.typed_text env fuel)
          (l.filter (fun x => x.sequence.is_constructed)) typed
        ∧ r.1 = separated comma
            (((l.filter (fun x => x.sequence.is_constructed)).map
              (fun x => x.generic_object env)).zip typed) := by
  induction l with
  | nil =>
    intro comma r h
    simp only [x509_cert.print_extensions, outcome.done.injEq] at h
    exact ⟨[], List.Forall₂.nil, by rw [← h]; rfl⟩
  | cons x rest ih =>
    intro comma r h
    unfold x509_cert.print_extensions at h
    cases hx : x509_cert.print_extension env fuel comma x with
    | done a =>
      rw [hx] at h
      simp only [outcome.bind] at h
      cases hr : x509_cert.print_extensions env fuel a.2.1 rest with
      | done b =>
        rw [hr] at h
        simp only [outcome.done.injEq] at h
        obtain ⟨typed, hall, hout⟩ := ih _ b hr
        cases hc : x.sequence.is_constructed with
        | true =>
          obtain ⟨t, ht, hcomma, htt⟩ := x509_cert.print_extension_typed env fuel comma x a hx hc
          refine ⟨t :: typed, ?_, ?_⟩
          · simp only [List.filter_cons, hc, if_true]
            exact List.Forall₂.cons htt hall
          · rw [← h]
            simp only [List.filter_cons, hc, if_true, List.map_cons, List.zip_cons_cons,
              separated]
            simp only [ht, hout, hcomma, String.append_assoc]
        | false =>
          obtain ⟨_, hc2⟩ := x509_cert.print_extension_shape env fuel comma x a hx
          obtain ⟨hcomma, ht⟩ := hc2 hc
          refine ⟨typed, ?_, ?_⟩
          · simp only [List.filter_cons, hc, Bool.false_eq_true, if_false]
            exact hall
          · rw [← h]
            simp only [List.filter_cons, hc, Bool.false_eq_true, if_false]
            rw [ht, hout, hcomma, String.empty_append]
      | fault => rw [hr] at h; simp at h
      | spin => rw [hr] at h; simp at h
    | fault => rw [hx] at h; simp [outcome.bind] at h
    | spin => rw [hx] at h; simp [outcome.bind] at h

/-- C29 (as stated, at an input). `cert_two_extensions` has two extensions, both
constructed, and the array that `x509_cert::print_as_json` writes for it has three
elements: the typed body of basicConstraints is an object of its own after the
object that carries the oid-name key and the critical flag. -/
theorem x509_cert.typed_body_is_an_element_of_its_own :
    ((x509_cert.parse cert_two_extensions).extension.map
        (fun x => x.sequence.is_constructed)) = [true, true]
    ∧ ((x509_cert.print_as_json asn1.sample 0
          (x509_cert.parse cert_two_extensions)).result.map (fun r => r.1.stdout))
        = some ",\"extensions\":[\x7b\"id-ce-basicConstraints\":\"30030101ff\",\"critical\":true\x7d,\x7b\"BasicConstraints\":\x7b\"ca\":true,\"pathLenConstraint\":0\x7d\x7d,\x7b\"unknown_oid\":\"0500\",\"critical\":false\x7d]"
    ∧ json_array_size
        (",\"extensions\":[\x7b\"id-ce-basicConstraints\":\"30030101ff\",\"critical\":true\x7d,\x7b\"BasicConstraints\":\x7b\"ca\":true,\"pathLenConstraint\":0\x7d\x7d,\x7b\"unknown_oid\":\"0500\",\"critical\":false\x7d]".toList.drop
          14) = 3 := by
  decide

/-- C29 (amended). Whenever `x509_cert::print_as_json` completes for a certificate
with extensions, the array it writes holds, for each constructed extension in list
order, one object with the oid-name key, the hex extnValue and the critical flag,
the first without separator and every later one after a comma; the typed body is not
part of that object: for an extnID that resolves to one of the twelve typed names it
follows the object as a text that opens an object of its own after a comma, and for
any other extnID nothing follows. -/
theorem x509_cert.extensions_array_shape (env : asn1) (fuel : Nat) (c : x509_cert)
    (r : output × x509_cert) (h : x509_cert.print_as_json env fuel c = outcome.done r)
    (hne : c.extension ≠ []) :
    ∃ typed : List String,
      List.Forall₂ (extension.typed_text env fuel)
        (c.extension.filter (fun x => x.sequence.is_constructed)) typed
      ∧ r.1.stdout = ",\"extensions\":["
          ++ separated ""
              (((c.extension.filter (fun x => x.sequence.is_constructed)).map
                (fun x => "\x7b\"" ++ (x.oid_string env).getD "(null)" ++ "\":\""
                  ++ fprintf_raw_as_hex x.extnValue.value.bytes
                  ++ "\",\"critical\":" ++ x.critical_str ++ "\x7d")).zip typed)
          ++ "]" := by
  rcases x509_cert.print_stdout env fuel c r h with h1 | h1
  · exact absurd (List.eq_nil_of_length_eq_zero h1.1) hne
  · obtain ⟨_, x, hx, hs⟩ := h1
    obtain ⟨typed, hall, hout⟩ := x509_cert.print_extensions_typed env fuel c.extension "" x hx
    refine ⟨typed, hall, ?_⟩
    rw [hs, hout]
    rfl

/-- C29, witness: for `cert_two_extensions` the rendering completes, a text that
opens an object follows the object of basicConstraints, and nothing follows the
object of the OID that the dictionary does not hold. -/
theorem x509_cert.extensions_array_shape_witness :
    ∃ (r : output × x509_cert) (typed : List String),
      x509_cert.print_as_json asn1.sample 0 (x509_cert.parse cert_two_extensions)
        = outcome.done r
      ∧ (x509_cert.parse cert_two_extensions).extension ≠ []
      ∧ List.Forall₂ (extension.typed_text asn1.sample 0)
          ((x509_cert.parse cert_two_extensions).extension.filter
            (fun x => x.sequence.is_constructed)) typed
      ∧ r.1.stdout = ",\"extensions\":["
          ++ separated ""
              ((((x509_cert.parse cert_two_extensions).extension.filter
                  (fun x => x.sequence.is_constructed)).map
                (fun x => "\x7b\"" ++ (x.oid_string asn1.sample).getD "(null)" ++ "\":\""
                  ++ fprintf_raw_as_hex x.extnValue.value.bytes
                  ++ "\",\"critical\":" ++ x.critical_str ++ "\x7d")).zip typed)
          ++ "]" := by
  have hsome : (x509_cert.print_as_json asn1.sample 0
      (x509_cert.parse cert_two_extensions)).result.isSome = true := by decide
  cases h : x509_cert.print_as_json asn1.sample 0 (x509_cert.parse cert_two_extensions) with
  | done r =>
    obtain ⟨typed, hall, hs⟩ := x509_cert.extensions_array_shape asn1.sample 0
      (x509_cert.parse cert_two_extensions) r h (by decide)
    exact ⟨r, typed, rfl, by decide, hall, hs⟩
  | fault => rw [h] at hsome; simp [outcome.result] at hsome
  | spin => rw [h] at hsome; simp [outcome.result] at hsome

/-! ## Attributes of unknown type, pathLenConstraint, authorityCertIssuer, the two parsers -/

/-- C37. Whatever a BasicConstraints structure holds, `print_as_json` writes
`"pathLenConstraint":0`: the text is one of two, which differ in `ca` only.  For the
value `basic_constraints_path_len_5` the decoded pathLenConstraint is 5 and the text
has 0. -/
theorem basic_constraints.path_len_always_zero :
    (∀ b : basic_constraints,
      b.print_as_json = ",\x7b\"BasicConstraints\":\x7b\"ca\":true,\"pathLenConstraint\":0\x7d\x7d"
      ∨ b.print_as_json = ",\x7b\"BasicConstraints\":\x7b\"ca\":false,\"pathLenConstraint\":0\x7d\x7d")
    ∧ (basic_constraints.parse
          (parser_init basic_constraints_path_len_5)).1.path_len_constraint.value.bytes = [5]
    ∧ (basic_constraints.parse (parser_init basic_constraints_path_len_5)).1.print_as_json
        = ",\x7b\"BasicConstraints\":\x7b\"ca\":true,\"pathLenConstraint\":0\x7d\x7d" := by
  refine ⟨?_, by decide, by decide⟩
  intro b
  unfold basic_constraints.print_as_json
  by_cases h : b.ca.length ≠ 0
  · left; rw [if_pos h]; rfl
  · right; rw [if_neg h]; rfl

/-- A general name with the tag 0xa1 is written as the placeholder object. -/
theorem general_name.print_tag_a1 (env : asn1) (g : general_name)
    (h : g.explicit_tag.tag = 0xa1) :
    (g.print_as_json env).1 = "\x7b\"SAN explicit tag\": \"a1\"\x7d" := by
  unfold general_name.print_as_json
  rw [h]
  rfl

/-- The loop of `authority_key_identifier::parse` stores in `cert_issuer` elements
with the tag 0xa1 only. -/
theorem authority_key_identifier.parse_loop_issuer (fuel : Nat) :
    ∀ a : authority_key_identifier,
      (a.cert_issuer.explicit_tag.is_not_null = true → a.cert_issuer.explicit_tag.tag = 0xa1) →
      (authority_key_identifier.parse_loop fuel a).cert_issuer.explicit_tag.is_not_null = true →
      (authority_key_identifier.parse_loop fuel a).cert_issuer.explicit_tag.tag = 0xa1 := by
  induction fuel with
  | zero => intro a h; exact h
  | succ n ih =>
    intro a h
    unfold authority_key_identifier.parse_loop
    split
    · apply ih
      split
      · exact h
      · split
        · rename_i ht
          intro _
          exact ht
        · split
          · exact h
          · exact h
    · exact h

/-- C38. When `authority_key_identifier::parse` has stored an authorityCertIssuer,
it is an element with the tag 0xa1, `general_name::print_as_json` writes the
placeholder object for it, and `authority_key_identifier::print_as_json` writes that
object under `cert_issuer`. -/
theorem authority_key_identifier.cert_issuer_placeholder (env : asn1) (p : parser)
    (h : (authority_key_identifier.parse p).1.cert_issuer.explicit_tag.is_not_null = true) :
    (authority_key_identifier.parse p).1.cert_issuer.explicit_tag.tag = 0xa1
    ∧ ((authority_key_identifier.parse p).1.cert_issuer.print_as_json env).1
        = "\x7b\"SAN explicit tag\": \"a1\"\x7d"
    ∧ (authority_key_identifier.parse p).1.print_as_json env
        = ",\x7b\"authority_key_identifier\":\x7b"
          ++ (if (authority_key_identifier.parse p).1.key_identifier.is_not_null then
                env.print_as_json_hex (authority_key_identifier.parse p).1.key_identifier
                  "key_identifier" false
              else "")
          ++ ((if (authority_key_identifier.parse p).1.key_identifier.is_not_null then
                ",\"cert_issuer\":" else "\"cert_issuer\":")
              ++ "\x7b\"SAN explicit tag\": \"a1\"\x7d")
          ++ (if (authority_key_identifier.parse p).1.cert_serial_number.is_not_null then
                env.print_as_json_hex (authority_key_identifier.parse p).1.cert_serial_number
                  "cert_serial_number" true
              else "")
          ++ "\x7d\x7d" := by
  have ht : (authority_key_identifier.parse p).1.cert_issuer.explicit_tag.tag = 0xa1 := by
    unfold authority_key_identifier.parse at h ⊢
    exact authority_key_identifier.parse_loop_issuer _ _ (fun hn => by cases hn) h
  refine ⟨ht, general_name.print_tag_a1 env _ ht, ?_⟩
  unfold authority_key_identifier.print_as_json
  rw [if_pos h, general_name.print_tag_a1 env _ ht, h, Bool.or_true]

/-- C38, witness: the value `aki_with_issuer`, whose authorityCertIssuer holds the
dNSName `a.bc`, is written with the placeholder under `cert_issuer`. -/
theorem authority_key_identifier.cert_issuer_placeholder_witness :
    (authority_key_identifier.parse
        (parser_init aki_with_issuer)).1.cert_issuer.explicit_tag.value.bytes
      = [130, 4, 97, 46, 98, 99]
    ∧ (authority_key_identifier.parse (parser_init aki_with_issuer)).1.print_as_json asn1.sample
        = ",\x7b\"authority_key_identifier\":\x7b\"key_identifier\":\"aabb\","
          ++ "\"cert_issuer\":\x7b\"SAN explicit tag\": \"a1\"\x7d\x7d\x7d" :=
  ⟨by decide,
   (authority_key_identifier.cert_issuer_placeholder asn1.sample (parser_init aki_with_issuer)
      (by decide)).2.2.trans (by decide)⟩

/-! ## The loops of `x509_cert::parse` end by their own condition -/

theorem x509_cert.parse_extensions_fuel (fuel : Nat) :
    ∀ (p : parser) (l : List Mercury.extension), p.bytes.length ≤ fuel →
      x509_cert.parse_extensions (fuel + 1) p l = x509_cert.parse_extensions fuel p l := by
  induction fuel with
  | zero =>
    intro p l h
    have hb : ¬ parser_get_data_length p > 0 := by
      unfold parser_get_data_length; omega
    simp [x509_cert.parse_extensions, hb]
  | succ n ih =>
    intro p l h
    rw [x509_cert.parse_extensions]
    conv => rhs; rw [x509_cert.parse_extensions]
    split
    · rename_i hpos
      have := tlv.parse_any_shrinks p hpos
      rw [ih]
      simp only [x509_cert.parse_extension]
      omega
    · rfl

theorem name.parse_pairs_fuel (fuel : Nat) :
    ∀ r : Attribute, r.sequence.value.bytes.length ≤ fuel →
      name.parse_pairs (fuel + 1) r = name.parse_pairs fuel r := by
  induction fuel with
  | zero =>
    intro r h
    have hb : ¬ parser_get_data_length r.sequence.value > 0 := by
      unfold parser_get_data_length; omega
    simp [name.parse_pairs, hb]
  | succ n ih =>
    intro r h
    rw [name.parse_pairs]
    conv => rhs; rw [name.parse_pairs]
    split
    · rename_i hpos
      have h1 := tlv.parse_any_shrinks r.sequence.value hpos
      have h2 := tlv.parse_snd_length_le (tlv.parse r.sequence.value 0).2 0
      simp only []
      split
      · rw [ih]
        simp only []
        omega
      · rw [ih]
        simp only []
        omega
    · rfl

theorem name.parse_rdns_fuel (fuel : Nat) :
    ∀ (p : parser) (l : List Attribute), p.bytes.length ≤ fuel →
      name.parse_rdns (fuel + 1) p l = name.parse_rdns fuel p l := by
  induction fuel with
  | zero =>
    intro p l h
    have hb : ¬ parser_get_data_length p > 0 := by
      unfold parser_get_data_length; omega
    simp [name.parse_rdns, hb]
  | succ n ih =>
    intro p l h
    rw [name.parse_rdns]
    conv => rhs; rw [name.parse_rdns]
    split
    · rename_i hpos
      have := tlv.parse_any_shrinks p hpos
      rw [ih]
      simp only [name.parse_rdn, Attribute.parse]
      omega
    · rfl

theorem name.parse_outer_fuel (fuel : Nat) (p : parser) (l : List Attribute) :
    name.parse_outer (fuel + 1) p l = name.parse_rdns (parser_get_data_length p) p l := by
  unfold name.parse_outer
  split
  · exact name.parse_outer_of_empty fuel _ _
      (name.parse_rdns_exhausts (parser_get_data_length p) p l (le_refl _))
  · rename_i hpos
    have hz : parser_get_data_length p = 0 := by omega
    rw [hz]
    rfl

/-- A loop whose result does not change with one more unit of fuel from `k` on has
the result of `k` for every larger fuel. -/
theorem fuel_stable {α : Type} (f : Nat → α) (k : Nat) (h : ∀ n, k ≤ n → f (n + 1) = f n) :
    ∀ n, k ≤ n → f n = f k := by
  intro n hn
  induction n, hn using Nat.le_induction with
  | base => rfl
  | succ m hm ih => rw [h m hm, ih]

theorem name.parse_cursor_empty (p : parser) :
    (name.parse p).1.RDNsequence.value.bytes = [] := by
  unfold name.parse
  exact name.parse_outer_exhausts _ _ _ (le_refl _)

/-- C33. The loops of `x509_cert::parse` end for every input.  One iteration of the
extension loop and of the loop over the RDNSequence advances the cursor as one
`tlv::parse` without an expected tag does, which leaves a cursor with bytes shorter.
Run with the number of bytes left as fuel, the extension loop, the loop over the
pairs of an attribute and the loops over the RDNSequence end with the cursor empty,
and more fuel does not change their result; after `x509_cert::parse` the cursors of
the extensions, of the issuer and of the subject are empty. -/
theorem x509_cert.parse_loops_end :
    (∀ p : parser, 0 < p.bytes.length →
      (x509_cert.parse_extension p).2 = (tlv.parse p 0).2
      ∧ (name.parse_rdn p).2 = (tlv.parse p 0).2
      ∧ (tlv.parse p 0).2.bytes.length < p.bytes.length)
    ∧ (∀ (p : parser) (l : List Mercury.extension) (fuel : Nat), p.bytes.length ≤ fuel →
        x509_cert.parse_extensions fuel p l = x509_cert.parse_extensions p.bytes.length p l
        ∧ (x509_cert.parse_extensions fuel p l).1.bytes = [])
    ∧ (∀ (r : Attribute) (fuel : Nat), r.sequence.value.bytes.length ≤ fuel →
        name.parse_pairs fuel r = name.parse_pairs r.sequence.value.bytes.length r
        ∧ (name.parse_pairs fuel r).sequence.value.bytes = [])
    ∧ (∀ (p : parser) (l : List Attribute) (fuel : Nat), p.bytes.length ≤ fuel →
        name.parse_rdns fuel p l = name.parse_rdns p.bytes.length p l
        ∧ (name.parse_rdns fuel p l).1.bytes = []
        ∧ name.parse_outer (fuel + 1) p l = name.parse_rdns p.bytes.length p l)
    ∧ (∀ buffer : List Nat,
        (x509_cert.parse buffer).extensions.value.bytes = []
        ∧ (x509_cert.parse buffer).issuer.RDNsequence.value.bytes = []
        ∧ (x509_cert.parse buffer).subject.RDNsequence.value.bytes = []) := by
  refine ⟨?_, ?_, ?_, ?_, ?_⟩
  · intro p hp
    exact ⟨rfl, rfl, tlv.parse_any_shrinks p hp⟩
  · intro p l fuel h
    exact ⟨fuel_stable (fun n => x509_cert.parse_extensions n p l) p.bytes.length
             (fun n hn => x509_cert.parse_extensions_fuel n p l hn) fuel h,
           x509_cert.parse_extensions_exhausts fuel p l h⟩
  · intro r fuel h
    exact ⟨fuel_stable (fun n => name.parse_pairs n r) r.sequence.value.bytes.length
             (fun n hn => name.parse_pairs_fuel n r hn) fuel h,
           name.parse_pairs_exhausts fuel r h⟩
  · intro p l fuel h
    exact ⟨fuel_stable (fun n => name.parse_rdns n p l) p.bytes.length
             (fun n hn => name.parse_rdns_fuel n p l hn) fuel h,
           name.parse_rdns_exhausts fuel p l h,
           name.parse_outer_fuel fuel p l⟩
  · intro buffer
    refine ⟨?_, ?_, ?_⟩
    · unfold x509_cert.parse
      simp only []
      split
      · rfl
      · exact x509_cert.parse_extensions_exhausts _ _ _ (le_refl _)
    · unfold x509_cert.parse
      simp only []
      split
      · exact name.parse_cursor_empty _
      · exact name.parse_cursor_empty _
    · unfold x509_cert.parse
      simp only []
      split
      · exact name.parse_cursor_empty _
      · exact name.parse_cursor_empty _

/-- C33, witness: on the cursor over the issuer bytes `31 0a 30 08 06 03 55 04 03 13
01 61` of `cert_no_extensions`, twelve bytes, one decoding leaves no byte, and the
loop over the RDNSequence gives with the fuel 100 what it gives with the fuel 12. -/
theorem x509_cert.parse_loops_end_witness :
    (tlv.parse (parser_init [49, 10, 48, 8, 6, 3, 85, 4, 3, 19, 1, 97]) 0).2.bytes.length
      < (parser_init [49, 10, 48, 8, 6, 3, 85, 4, 3, 19, 1, 97]).bytes.length
    ∧ name.parse_rdns 100 (parser_init [49, 10, 48, 8, 6, 3, 85, 4, 3, 19, 1, 97]) []
        = name.parse_rdns 12 (parser_init [49, 10, 48, 8, 6, 3, 85, 4, 3, 19, 1, 97]) []
    ∧ (name.parse_rdns 12 (parser_init [49, 10, 48, 8, 6, 3, 85, 4, 3, 19, 1, 97]) []).2.length
        = 1
    ∧ (x509_cert.parse cert_basic_constraints).extension.length = 1
    ∧ (x509_cert.parse cert_basic_constraints).extensions.value.bytes = [] :=
  ⟨(x509_cert.parse_loops_end.1 (parser_init [49, 10, 48, 8, 6, 3, 85, 4, 3, 19, 1, 97])
      (by decide)).2.2,
   (x509_cert.parse_loops_end.2.2.2.1 (parser_init [49, 10, 48, 8, 6, 3, 85, 4, 3, 19, 1, 97])
      [] 100 (by decide)).1,
   by decide, by decide, (x509_cert.parse_loops_end.2.2.2.2 cert_basic_constraints).1⟩

/-! ## The array of a DistributionPoint -/

/-- C34. For the DistributionPoint `distribution_point_two_names`, whose content
holds two [0] elements, `distribution_point::print_as_json` writes the two objects of
the array one right after the other: between the closing brace of the first and the
opening brace of the second there is no comma.  This holds for all renderers of
`asn1.h`; with the sample ones the text is the one given. -/
theorem distribution_point.objects_not_separated :
    (∀ env : asn1,
      (distribution_point.parse (parser_init distribution_point_two_names)).1.print_as_json env
          "crl_distribution_point" "\x7b" "\x7d"
        = "\x7b\"crl_distribution_point\":["
          ++ "\x7b\"distribution_point_name\":\x7b\"full_name\":\x7b"
          ++ env.print_as_json_escaped_string ⟨0x86, 3, ⟨false, 8, [97, 98, 99]⟩⟩ "uri"
          ++ "\x7d\x7d\x7d" ++ "\x7b\"distribution_point_name\":\x7b\"full_name\":\x7b"
          ++ env.print_as_json_escaped_string ⟨0x86, 3, ⟨false, 17, [100, 101, 102]⟩⟩ "uri"
          ++ "\x7d\x7d\x7d" ++ "]\x7d")
    ∧ (distribution_point.parse (parser_init distribution_point_two_names)).1.print_as_json
          asn1.sample "crl_distribution_point" "\x7b" "\x7d"
        = "\x7b\"crl_distribution_point\":[\x7b\"distribution_point_name\":\x7b\"full_name\":"
          ++ "\x7b\"uri\":\"616263\"\x7d\x7d\x7d\x7b\"distribution_point_name\":\x7b\"full_name\":"
          ++ "\x7b\"uri\":\"646566\"\x7d\x7d\x7d]\x7d" := by
  refine ⟨?_, by decide⟩
  intro env
  have hp : (distribution_point.parse (parser_init distribution_point_two_names)).1
      = ⟨⟨48, 18, ⟨false, 2, [160, 7, 160, 5, 134, 3, 97, 98, 99, 160, 7, 160, 5, 134, 3,
          100, 101, 102]⟩⟩, distribution_point_name.empty, tlv.null, tlv.null⟩ := by decide
  rw [hp]
  simp [distribution_point.print_as_json, distribution_point.print_loop,
    parser_get_data_length, tlv.parse, tlv.take, distribution_point_name.parse,
    distribution_point_name.print_as_json, distribution_point_name.empty, general_name.parse,
    general_name.print_as_json, general_name.empty, tlv.explicit_tag_constructed,
    tlv.explicit_tag, tlv.is_not_null, general_name.otherName, general_name.rfc822Name,
    general_name.dNSName, general_name.uniformResourceIdentifier, general_name.iPAddress,
    String.append_assoc]
  apply String.ext
  simp only [String.data_append]
  rfl

/-! ## NameConstraints: excludedSubtrees is not rendered -/

theorem asn1.sample_reads_content : asn1.sample.reads_content := by
  intro s t label h
  have hb : s.value.bytes = t.value.bytes := (tlv.content_eq s t h).2.2.2
  simp [asn1.sample, sample_hex, hb]

theorem tlv.content_not_null (s t : tlv) (h : s.content = t.content) :
    s.is_not_null = t.is_not_null := by
  unfold tlv.is_not_null
  rw [(tlv.content_eq s t h).2.2.1]

theorem general_name.print_by_content (env : asn1) (henv : env.reads_content)
    (g k : general_name) (h : g.explicit_tag.content = k.explicit_tag.content) :
    (g.print_as_json env).1 = (k.print_as_json env).1 := by
  have ht : g.explicit_tag.tag = k.explicit_tag.tag := (tlv.content_eq _ _ h).1
  have hb : g.explicit_tag.value.bytes = k.explicit_tag.value.bytes :=
    (tlv.content_eq _ _ h).2.2.2
  have h1 := tlv.parse_content g.explicit_tag.value k.explicit_tag.value
    tlv.OBJECT_IDENTIFIER hb
  have h2 := tlv.parse_content (tlv.parse g.explicit_tag.value tlv.OBJECT_IDENTIFIER).2
    (tlv.parse k.explicit_tag.value tlv.OBJECT_IDENTIFIER).2 0 h1.2
  unfold general_name.print_as_json
  rw [ht]
  by_cases c0 : k.explicit_tag.tag = general_name.otherName
  · rw [if_pos c0, if_pos c0]
    simp only []
    rw [(henv _ _ "type_id" h1.1).2.2.1, (henv _ _ "value" h2.1).1 true]
  · rw [if_neg c0, if_neg c0]
    by_cases c1 : k.explicit_tag.tag = general_name.rfc822Name
    · rw [if_pos c1, if_pos c1]
      simp only []
      rw [(henv _ _ "rfc822_name" h).2.1]
    · rw [if_neg c1, if_neg c1]
      by_cases c2 : k.explicit_tag.tag = general_name.dNSName
      · rw [if_pos c2, if_pos c2]
        simp only []
        rw [(henv _ _ "dns_name" h).2.1]
      · rw [if_neg c2, if_neg c2]
        by_cases c3 : k.explicit_tag.tag = general_name.uniformResourceIdentifier
        · rw [if_pos c3, if_pos c3]
          simp only []
          rw [(henv _ _ "uri" h).2.1]
        · rw [if_neg c3, if_neg c3]
          by_cases c4 : k.explicit_tag.tag = general_name.iPAddress
          · rw [if_pos c4, if_pos c4]
            simp only []
            rw [(henv _ _ "ip_address" h).2.2.2]
          · rw [if_neg c4, if_neg c4]

theorem general_subtree.parse_loop_alike (fuel : Nat) :
    ∀ (p q : parser) (mn mx mn2 mx2 : tlv), p.bytes = q.bytes →
      mn.content = mn2.content → mx.content = mx2.content →
      (general_subtree.parse_loop fuel p mn mx).2.1.content
        = (general_subtree.parse_loop fuel q mn2 mx2).2.1.content
      ∧ (general_subtree.parse_loop fuel p mn mx).2.2.content
        = (general_subtree.parse_loop fuel q mn2 mx2).2.2.content := by
  induction fuel with
  | zero => intro p q mn mx mn2 mx2 _ h1 h2; exact ⟨h1, h2⟩
  | succ n ih =>
    intro p q mn mx mn2 mx2 hb h1 h2
    have hc := tlv.parse_content p q 0 hb
    have ht : (tlv.parse p 0).1.tag = (tlv.parse q 0).1.tag := (tlv.content_eq _ _ hc.1).1
    unfold general_subtree.parse_loop parser_get_data_length
    rw [hb]
    split
    · apply ih _ _ _ _ _ _ hc.2
      · rw [ht]; split
        · exact hc.1
        · exact h1
      · rw [ht]; split
        · exact hc.1
        · exact h2
    · exact ⟨h1, h2⟩

theorem general_subtree.parse_base_content (p q : parser) (h : p.bytes = q.bytes) :
    (general_subtree.parse p).1.base.explicit_tag.content
      = (general_subtree.parse q).1.base.explicit_tag.content
    ∧ (general_subtree.parse p).1.minimum.content
      = (general_subtree.parse q).1.minimum.content := by
  have hs := tlv.parse_content p q tlv.SEQUENCE h
  have hsb : (tlv.parse p tlv.SEQUENCE).1.value.bytes = (tlv.parse q tlv.SEQUENCE).1.value.bytes :=
    (tlv.content_eq _ _ hs.1).2.2.2
  have hbase := tlv.parse_content _ _ 0 hsb
  unfold general_subtree.parse general_name.parse parser_get_data_length
  simp only []
  refine ⟨hbase.1, ?_⟩
  rw [hbase.2]
  exact (general_subtree.parse_loop_alike _ _ _ _ _ _ _ hbase.2 rfl rfl).1

theorem general_subtree.print_by_content_of_base (env : asn1) (henv : env.reads_content)
    (g k : general_subtree) (label pre post : String)
    (hb : g.base.explicit_tag.content = k.base.explicit_tag.content)
    (hm : g.minimum.content = k.minimum.content) :
    g.print_as_json env label pre post = k.print_as_json env label pre post := by
  unfold general_subtree.print_as_json
  rw [general_name.print_by_content env henv g.base k.base hb, tlv.content_not_null _ _ hm]

theorem name_constraints.print_permitted_only (env : asn1) (henv : env.reads_content)
    (x y : name_constraints) (label pre post : String)
    (h : x.permitted_subtrees.content = y.permitted_subtrees.content) :
    x.print_as_json env label pre post = y.print_as_json env label pre post := by
  have hc := general_subtree.parse_base_content x.permitted_subtrees.value y.permitted_subtrees.value
    (tlv.content_eq _ _ h).2.2.2
  unfold name_constraints.print_as_json
  rw [tlv.content_not_null _ _ h,
    general_subtree.print_by_content_of_base env henv _ _ "permitted_subtree" "" "" hc.1 hc.2]

theorem name_constraints.parse_loop_der (es : List (Nat × List Nat)) :
    ∀ (fuel : Nat) (nl : Bool) (pos : Nat) (pm ex : tlv),
      (∀ e ∈ es, e.2.length < 4294967296) → es.length ≤ fuel →
      (name_constraints.parse_loop fuel ⟨nl, pos, der_elements es⟩ pm ex).2.1.content
        = name_constraints.permitted_of es pm.content := by
  induction es with
  | nil =>
    intro fuel nl pos pm ex _ _
    cases fuel <;> simp [name_constraints.parse_loop, der_elements,
      name_constraints.permitted_of, parser_get_data_length]
  | cons e rest ih =>
    intro fuel nl pos pm ex hes hfuel
    cases fuel with
    | zero => simp at hfuel
    | succ n =>
      have he : e.2.length < 4294967296 := hes e (List.mem_cons_self _ _)
      have hrest : ∀ x ∈ rest, x.2.length < 4294967296 :=
        fun x hx => hes x (List.mem_cons_of_mem _ hx)
      have hpos : parser_get_data_length ⟨nl, pos, der_elements (e :: rest)⟩ > 0 := by
        simp [parser_get_data_length, der_elements, der_element]
      unfold name_constraints.parse_loop
      rw [if_pos hpos]
      simp only [der_elements]
      rw [tlv.parse_der_element nl pos e.1 e.2 _ he]
      simp only []
      rw [ih n nl _ _ _ hrest (by simpa using hfuel)]
      have hstep : name_constraints.permitted_of (e :: rest) pm.content
          = name_constraints.permitted_of rest
              (if e.1 = 0xa0 then (e.1, e.2.length, false, e.2) else pm.content) := rfl
      rw [hstep]
      congr 1
      unfold tlv.explicit_tag_constructed
      by_cases h : e.1 = 0xa0
      · rw [if_pos h, if_pos h]; rfl
      · rw [if_neg h, if_neg h]

theorem name_constraints.permitted_of_filter (es : List (Nat × List Nat)) :
    ∀ c : Nat × Nat × Bool × List Nat,
      name_constraints.permitted_of es c
        = name_constraints.permitted_of (es.filter (fun e => decide (e.1 ≠ 0xa1))) c := by
  induction es with
  | nil => intro c; rfl
  | cons e rest ih =>
    intro c
    have hstep : name_constraints.permitted_of (e :: rest) c
        = name_constraints.permitted_of rest
            (if e.1 = 0xa0 then (e.1, e.2.length, false, e.2) else c) := rfl
    by_cases h : e.1 = 0xa1
    · have hf : (e :: rest).filter (fun e => decide (e.1 ≠ 0xa1))
          = rest.filter (fun e => decide (e.1 ≠ 0xa1)) := by
        simp [List.filter, h]
      rw [hf, hstep, if_neg (by rw [h]; decide)]
      exact ih c
    · have hf : (e :: rest).filter (fun e => decide (e.1 ≠ 0xa1))
          = e :: rest.filter (fun e => decide (e.1 ≠ 0xa1)) := by
        simp [List.filter, h]
      have hstep2 : name_constraints.permitted_of
            (e :: rest.filter (fun e => decide (e.1 ≠ 0xa1))) c
          = name_constraints.permitted_of (rest.filter (fun e => decide (e.1 ≠ 0xa1)))
              (if e.1 = 0xa0 then (e.1, e.2.length, false, e.2) else c) := rfl
      rw [hf, hstep, hstep2]
      exact ih _

theorem name_constraints.parse_permitted_der (nl : Bool) (pos : Nat) (es : List (Nat × List Nat))
    (rest : List Nat) (hes : ∀ e ∈ es, e.2.length < 4294967296)
    (hlen : (der_elements es).length < 4294967296) :
    (name_constraints.parse
        ⟨nl, pos, der_element 0x30 (der_elements es) ++ rest⟩).1.permitted_subtrees.content
      = name_constraints.permitted_of es tlv.null.content := by
  unfold name_constraints.parse
  simp only [tlv.SEQUENCE]
  rw [tlv.parse_der_element_tagged nl pos 0x30 _ rest hlen]
  simp only [parser_get_data_length]
  exact name_constraints.parse_loop_der es _ _ _ _ _ hes (der_elements_length es)

/-- C35. Two NameConstraints values whose elements other than excludedSubtrees (tag
0xa1) are the same, in the same order, are written alike by
`name_constraints::print_as_json`, wherever in the input they lie and whatever
follows them, when the renderers of `asn1.h` write what a TLV holds. -/
theorem name_constraints.excluded_not_rendered (env : asn1) (henv : env.reads_content)
    (es1 es2 : List (Nat × List Nat)) (nl1 nl2 : Bool) (pos1 pos2 : Nat)
    (rest1 rest2 : List Nat) (label pre post : String)
    (h1 : ∀ e ∈ es1, e.2.length < 4294967296) (h2 : ∀ e ∈ es2, e.2.length < 4294967296)
    (hl1 : (der_elements es1).length < 4294967296)
    (hl2 : (der_elements es2).length < 4294967296)
    (hsame : es1.filter (fun e => decide (e.1 ≠ 0xa1))
      = es2.filter (fun e => decide (e.1 ≠ 0xa1))) :
    name_constraints.print_as_json env
        (name_constraints.parse ⟨nl1, pos1, der_element 0x30 (der_elements es1) ++ rest1⟩).1
        label pre post
      = name_constraints.print_as_json env
          (name_constraints.parse ⟨nl2, pos2, der_element 0x30 (der_elements es2) ++ rest2⟩).1
          label pre post := by
  apply name_constraints.print_permitted_only env henv
  rw [name_constraints.parse_permitted_der nl1 pos1 es1 rest1 h1 hl1,
    name_constraints.parse_permitted_der nl2 pos2 es2 rest2 h2 hl2,
    name_constraints.permitted_of_filter es1, name_constraints.permitted_of_filter es2, hsame]

/-- C35, witness: the NameConstraints with the permittedSubtrees `a.bc` and the
excludedSubtrees `x.y`, and the one with the same permittedSubtrees and the
excludedSubtrees `long.ext`, are both written
`,{"name_constraints":{"permitted_subtree":{"dns_name":"612e6263"},"minimum":0}}`
with the sample renderers. -/
theorem name_constraints.excluded_not_rendered_witness :
    name_constraints.print_as_json asn1.sample
        (name_constraints.parse ⟨false, 0, der_element 0x30
          (der_elements [(0xa0, permitted_a_bc), (0xa1, excluded_x_y)]) ++ []⟩).1
        "name_constraints" ",\x7b" "\x7d"
      = name_constraints.print_as_json asn1.sample
          (name_constraints.parse ⟨false, 0, der_element 0x30
            (der_elements [(0xa0, permitted_a_bc), (0xa1, excluded_long_ext)]) ++ []⟩).1
          "name_constraints" ",\x7b" "\x7d"
    ∧ name_constraints.print_as_json asn1.sample
        (name_constraints.parse ⟨false, 0, der_element 0x30
          (der_elements [(0xa0, permitted_a_bc), (0xa1, excluded_x_y)]) ++ []⟩).1
        "name_constraints" ",\x7b" "\x7d"
      = ",\x7b\"name_constraints\":\x7b\"permitted_subtree\":\x7b\"dns_name\":\"612e6263\"\x7d"
        ++ ",\"minimum\":0\x7d\x7d"
    ∧ (name_constraints.parse ⟨false, 0, der_element 0x30
        (der_elements [(0xa0, permitted_a_bc), (0xa1, excluded_x_y)])⟩).1.excluded_subtrees
      = ⟨0xa1, 7, ⟨false, 14, excluded_x_y⟩⟩ :=
  ⟨name_constraints.excluded_not_rendered asn1.sample asn1.sample_reads_content
     [(0xa0, permitted_a_bc), (0xa1, excluded_x_y)]
     [(0xa0, permitted_a_bc), (0xa1, excluded_long_ext)] false false 0 0 [] []
     "name_constraints" ",\x7b" "\x7d" (by decide) (by decide) (by decide) (by decide) (by decide),
   by decide, by decide⟩

/-! ## The command line -/

/-- One option that is not `--config` leaves `read_filename` and `capture_interface`
as they are, but for `-r` and `-c`, which set them to a name. -/
theorem main.option_sources (env : runtime) (cfg cfg1 : mercury_config)
    (g g1 : global_variables) (c : Int) (optarg : Option String) (hc : c ≠ opt.config)
    (h : main.option env cfg g c optarg = main_result.continues cfg1 g1) :
    (if c = chr 'r' then cfg1.read_filename ≠ none
      else cfg1.read_filename = cfg.read_filename)
    ∧ (if c = chr 'c' then cfg1.capture_interface ≠ none
      else cfg1.capture_interface = cfg.capture_interface) := by
  have hv : option_is_valid optarg = true → optarg ≠ none := by
    intro hv hn
    rw [hn] at hv
    exact absurd hv (by decide)
  unfold main.option at h
  rw [if_neg hc] at h
  by_cases h1 : c = opt.resources
  · rw [if_pos h1] at h; subst h1; rw [if_neg (by decide), if_neg (by decide)]
    split_ifs at h
    cases h
    exact ⟨rfl, rfl⟩
  rw [if_neg h1] at h
  by_cases h2 : c = opt.version
  · rw [if_pos h2] at h; cases h
  rw [if_neg h2] at h
  by_cases h3 : c = opt.license
  · rw [if_pos h3] at h; cases h
  rw [if_neg h3] at h
  by_cases h4 : c = opt.dns_json
  · rw [if_pos h4] at h; subst h4; rw [if_neg (by decide), if_neg (by decide)]
    split_ifs at h
    cases h
    exact ⟨rfl, rfl⟩
  rw [if_neg h4] at h
  by_cases h5 : c = opt.certs_json
  · rw [if_pos h5] at h; subst h5; rw [if_neg (by decide), if_neg (by decide)]
    split_ifs at h
    cases h
    exact ⟨rfl, rfl⟩
  rw [if_neg h5] at h
  by_cases h6 : c = opt.metadata
  · rw [if_pos h6] at h; subst h6; rw [if_neg (by decide), if_neg (by decide)]
    split_ifs at h
    cases h
    exact ⟨rfl, rfl⟩
  rw [if_neg h6] at h
  by_cases h7 : c = opt.tcp_init_data
  · rw [if_pos h7] at h; subst h7; rw [if_neg (by decide), if_neg (by decide)]
    split_ifs at h
    cases h
    exact ⟨rfl, rfl⟩
  rw [if_neg h7] at h
  by_cases h8 : c = opt.udp_init_data
  · rw [if_pos h8] at h; subst h8; rw [if_neg (by decide), if_neg (by decide)]
    split_ifs at h
    cases h
    exact ⟨rfl, rfl⟩
  rw [if_neg h8] at h
  by_cases h9 : c = chr 'r'
  · rw [if_pos h9] at h; subst h9; rw [if_pos rfl, if_neg (by decide)]
    split_ifs at h with hval
    cases h
    exact ⟨hv hval, rfl⟩
  rw [if_neg h9] at h
  by_cases h10 : c = chr 'w'
  · rw [if_pos h10] at h; subst h10; rw [if_neg (by decide), if_neg (by decide)]
    split_ifs at h
    cases h
    exact ⟨rfl, rfl⟩
  rw [if_neg h10] at h
  by_cases h11 : c = chr 'd'
  · rw [if_pos h11] at h; subst h11; rw [if_neg (by decide), if_neg (by decide)]
    split_ifs at h
    cases h
    exact ⟨rfl, rfl⟩
  rw [if_neg h11] at h
  by_cases h12 : c = chr 'c'
  · rw [if_pos h12] at h; subst h12; rw [if_neg (by decide), if_pos rfl]
    split_ifs at h with hval
    cases h
    exact ⟨rfl, hv hval⟩
  rw [if_neg h12] at h
  by_cases h13 : c = chr 'f'
  · rw [if_pos h13] at h; subst h13; rw [if_neg (by decide), if_neg (by decide)]
    split_ifs at h
    cases h
    exact ⟨rfl, rfl⟩
  rw [if_neg h13] at h
  by_cases h14 : c = chr 'a'
  · rw [if_pos h14] at h; subst h14; rw [if_neg (by decide), if_neg (by decide)]
    split_ifs at h
    cases h
    exact ⟨rfl, rfl⟩
  rw [if_neg h14] at h
  by_cases h15 : c = chr 'o'
  · rw [if_pos h15] at h; subst h15; rw [if_neg (by decide), if_neg (by decide)]
    split_ifs at h
    cases h
    exact ⟨rfl, rfl⟩
  rw [if_neg h15] at h
  by_cases h16 : c = chr 's'
  · rw [if_pos h16] at h; subst h16; rw [if_neg (by decide), if_neg (by decide)]
    split_ifs at h <;> cases h <;> exact ⟨rfl, rfl⟩
  rw [if_neg h16] at h
  by_cases h17 : c = chr 'h'
  · rw [if_pos h17] at h; split_ifs at h
  rw [if_neg h17] at h
  by_cases h18 : c = chr 'T'
  · rw [if_pos h18] at h; subst h18; rw [if_neg (by decide), if_neg (by decide)]
    split_ifs at h
    cases h
    exact ⟨rfl, rfl⟩
  rw [if_neg h18] at h
  by_cases h19 : c = chr 't'
  · rw [if_pos h19] at h; subst h19; rw [if_neg (by decide), if_neg (by decide)]
    split_ifs at h <;> cases h <;> exact ⟨rfl, rfl⟩
  rw [if_neg h19] at h
  by_cases h20 : c = chr 'l'
  · rw [if_pos h20] at h; subst h20; rw [if_neg (by decide), if_neg (by decide)]
    split_ifs at h
    cases h
    exact ⟨rfl, rfl⟩
  rw [if_neg h20] at h
  by_cases h21 : c = chr 'p'
  · rw [if_pos h21] at h; subst h21; rw [if_neg (by decide), if_neg (by decide)]
    split_ifs at h
    cases h
    exact ⟨rfl, rfl⟩
  rw [if_neg h21] at h
  by_cases h22 : c = 0
  · rw [if_pos h22] at h; subst h22; rw [if_neg (by decide), if_neg (by decide)]
    split_ifs at h
    cases h
    exact ⟨rfl, rfl⟩
  rw [if_neg h22] at h
  by_cases h23 : c = chr 'u'
  · rw [if_pos h23] at h; subst h23; rw [if_neg (by decide), if_neg (by decide)]
    split_ifs at h
    cases h
    exact ⟨rfl, rfl⟩
  rw [if_neg h23] at h
  by_cases h24 : c = chr 'b'
  · rw [if_pos h24] at h; subst h24; rw [if_neg (by decide), if_neg (by decide)]
    split_ifs at h
    cases h
    exact ⟨rfl, rfl⟩
  rw [if_neg h24] at h
  by_cases h25 : c = chr 'v'
  · rw [if_pos h25] at h; subst h25; rw [if_neg (by decide), if_neg (by decide)]
    split_ifs at h
    cases h
    exact ⟨rfl, rfl⟩
  rw [if_neg h25] at h
  cases h

theorem main.options_sources (env : runtime) (opts : List (Int × Option String)) :
    ∀ (cfg cfg1 : mercury_config) (g g1 : global_variables),
      (∀ o ∈ opts, 0 ≤ o.1 ∧ o.1 ≠ opt.config) →
      main.options env opts cfg g = main_result.continues cfg1 g1 →
      ((∃ o ∈ opts, o.1 = chr 'r') → cfg1.read_filename ≠ none)
      ∧ ((∀ o ∈ opts, o.1 ≠ chr 'r') → cfg1.read_filename = cfg.read_filename)
      ∧ ((∃ o ∈ opts, o.1 = chr 'c') → cfg1.capture_interface ≠ none)
      ∧ ((∀ o ∈ opts, o.1 ≠ chr 'c') → cfg1.capture_interface = cfg.capture_interface) := by
  induction opts with
  | nil =>
    intro cfg cfg1 g g1 _ h
    unfold main.options at h
    cases h
    exact ⟨fun ⟨_, ho, _⟩ => absurd ho (List.not_mem_nil _), fun _ => rfl,
      fun ⟨_, ho, _⟩ => absurd ho (List.not_mem_nil _), fun _ => rfl⟩
  | cons o rest ih =>
    intro cfg cfg1 g g1 hall h
    have ho := hall o (List.mem_cons_self _ _)
    have hrest : ∀ x ∈ rest, 0 ≤ x.1 ∧ x.1 ≠ opt.config :=
      fun x hx => hall x (List.mem_cons_of_mem _ hx)
    unfold main.options at h
    rw [if_neg (by omega)] at h
    cases hstep : main.option env cfg g o.1 o.2 with
    | usage e x => rw [hstep] at h; cases h
    | returns st => rw [hstep] at h; cases h
    | continues cfg2 g2 =>
      rw [hstep] at h
      have hs := main.option_sources env cfg cfg2 g g2 o.1 o.2 ho.2 hstep
      have hi := ih cfg2 cfg1 g2 g1 hrest h
      refine ⟨?_, ?_, ?_, ?_⟩
      · intro hex
        by_cases hr : ∃ x ∈ rest, x.1 = chr 'r'
        · exact hi.1 hr
        · have hno : ∀ x ∈ rest, x.1 ≠ chr 'r' := fun x hx hxe => hr ⟨x, hx, hxe⟩
          rw [hi.2.1 hno]
          obtain ⟨x, hx, hxe⟩ := hex
          rcases List.mem_cons.mp hx with hxo | hxr
          · have h1 := hs.1
            rw [if_pos (by rw [← hxo]; exact hxe)] at h1
            exact h1
          · exact absurd hxe (hno x hxr)
      · intro hno
        rw [hi.2.1 (fun x hx => hno x (List.mem_cons_of_mem _ hx))]
        have h1 := hs.1
        rw [if_neg (hno o (List.mem_cons_self _ _))] at h1
        exact h1
      · intro hex
        by_cases hr : ∃ x ∈ rest, x.1 = chr 'c'
        · exact hi.2.2.1 hr
        · have hno : ∀ x ∈ rest, x.1 ≠ chr 'c' := fun x hx hxe => hr ⟨x, hx, hxe⟩
          rw [hi.2.2.2 hno]
          obtain ⟨x, hx, hxe⟩ := hex
          rcases List.mem_cons.mp hx with hxo | hxr
          · have h1 := hs.2
            rw [if_pos (by rw [← hxo]; exact hxe)] at h1
            exact h1
          · exact absurd hxe (hno x hxr)
      · intro hno
        rw [hi.2.2.2 (fun x hx => hno x (List.mem_cons_of_mem _ hx))]
        have h1 := hs.2
        rw [if_neg (hno o (List.mem_cons_self _ _))] at h1
        exact h1

theorem main.input_source_cases (cfg : mercury_config) :
    (cfg.read_filename = none ∧ cfg.capture_interface = none
      ∧ (main.input_source cfg).read_filename = some "-"
      ∧ (main.input_source cfg).capture_interface = none)
    ∨ ((cfg.read_filename ≠ none ∨ cfg.capture_interface ≠ none)
      ∧ main.input_source cfg = cfg) := by
  unfold main.input_source
  by_cases h : cfg.read_filename = none ∧ cfg.capture_interface = none
  · rw [if_pos h]
    exact Or.inl ⟨h.1, h.2, rfl, h.2⟩
  · rw [if_neg h]
    refine Or.inr ⟨?_, rfl⟩
    by_cases hr : cfg.read_filename = none
    · exact Or.inr (fun hc => h ⟨hr, hc⟩)
    · exact Or.inl hr

theorem main.output_block_sources (cfg : mercury_config) :
    (main.output_block cfg).read_filename = cfg.read_filename
    ∧ (main.output_block cfg).capture_interface = cfg.capture_interface := by
  unfold main.output_block
  split <;> exact ⟨rfl, rfl⟩

theorem main.validate_continues (env : runtime) (cfg cfg1 : mercury_config)
    (g g1 : global_variables) (unused : List String)
    (h : main.validate env cfg g unused = main_result.continues cfg1 g1) :
    ¬ ((main.input_source cfg).read_filename ≠ none
        ∧ (main.input_source cfg).capture_interface ≠ none)
    ∧ cfg1 = main.output_block (main.input_source cfg) := by
  unfold main.validate at h
  split_ifs at h with h1 h2 h3 h4 h5 h6
  all_goals (cases h; exact ⟨h2, rfl⟩)

/-- The tests after the loop let `main` go on with one input source only: the one
that was set, or standard input when none was. -/
theorem main.validate_sources (env : runtime) (cfg cfg1 : mercury_config)
    (g g1 : global_variables) (unused : List String)
    (h : main.validate env cfg g unused = main_result.continues cfg1 g1) :
    (cfg.read_filename = none ∧ cfg.capture_interface = none
      ∧ cfg1.read_filename = some "-" ∧ cfg1.capture_interface = none)
    ∨ (cfg.read_filename ≠ none ∧ cfg.capture_interface = none
      ∧ cfg1.read_filename = cfg.read_filename ∧ cfg1.capture_interface = none)
    ∨ (cfg.read_filename = none ∧ cfg.capture_interface ≠ none
      ∧ cfg1.read_filename = none ∧ cfg1.capture_interface = cfg.capture_interface) := by
  obtain ⟨hnot, hc1⟩ := main.validate_continues env cfg cfg1 g g1 unused h
  have hb := main.output_block_sources (main.input_source cfg)
  rw [hc1, hb.1, hb.2]
  rcases main.input_source_cases cfg with hh | hh
  · exact Or.inl hh
  · rw [hh.2] at hnot ⊢
    by_cases hr : cfg.read_filename = none
    · by_cases hc : cfg.capture_interface = none
      · rcases hh.1 with h1 | h1
        · exact absurd hr h1
        · exact absurd hc h1
      · exact Or.inr (Or.inr ⟨hr, hc, hr, rfl⟩)
    · by_cases hc : cfg.capture_interface = none
      · exact Or.inr (Or.inl ⟨hr, hc, rfl, hc⟩)
      · exact absurd ⟨hr, hc⟩ hnot

theorem main.validate_both (env : runtime) (cfg : mercury_config) (g : global_variables)
    (hr : cfg.read_filename ≠ none) (hc : cfg.capture_interface ≠ none) :
    main.validate env cfg g []
      = main_result.usage
          (some "incompatible arguments read [r] and capture [c] specified on command line")
          false := by
  have hi : main.input_source cfg = cfg := by
    rcases main.input_source_cases cfg with hh | hh
    · exact absurd hh.1 hr
    · exact hh.2
  unfold main.validate
  rw [if_neg (fun hh => hh rfl), hi, if_pos ⟨hr, hc⟩]

/-- What `main` goes on with is what the loop and the tests after it leave, but for
the number of threads. -/
theorem main.continues_inv (env : runtime) (opts : List (Int × Option String))
    (unused : List String) (cfg : mercury_config) (g : global_variables)
    (h : main env opts unused = main_result.continues cfg g) :
    ∃ (cfg0 cfg1 : mercury_config) (g0 : global_variables),
      main.options env opts env.mercury_config_init env.global_vars
        = main_result.continues cfg0 g0
      ∧ main.validate env cfg0 g0 unused = main_result.continues cfg1 g
      ∧ cfg = main.set_threads env cfg1 := by
  unfold main at h
  cases h0 : main.options env opts env.mercury_config_init env.global_vars with
  | usage e x => rw [h0] at h; cases h
  | returns st => rw [h0] at h; cases h
  | continues cfg0 g0 =>
    rw [h0] at h
    simp only [] at h
    cases h1 : main.validate env cfg0 g0 unused with
    | usage e x => rw [h1] at h; cases h
    | returns st => rw [h1] at h; cases h
    | continues cfg1 g1 =>
      rw [h1] at h
      cases h
      exact ⟨cfg0, cfg1, g0, rfl, h1, rfl⟩

theorem main.set_threads_sources (env : runtime) (cfg : mercury_config) :
    (main.set_threads env cfg).read_filename = cfg.read_filename
    ∧ (main.set_threads env cfg).capture_interface = cfg.capture_interface := by
  unfold main.set_threads
  split <;> exact ⟨rfl, rfl⟩

/-! ## Names compared by address -/

/-- The only options that make `main` return are `--version` and `--license`, with
`EXIT_SUCCESS`. -/
theorem main.option_returns (env : runtime) (cfg : mercury_config) (g : global_variables)
    (c : Int) (optarg : Option String) (st : Int)
    (h : main.option env cfg g c optarg = main_result.returns st) :
    st = EXIT_SUCCESS ∧ (c = opt.version ∨ c = opt.license) := by
  unfold main.option at h
  by_cases h0 : c = opt.config
  · rw [if_pos h0] at h; split_ifs at h
  rw [if_neg h0] at h
  by_cases h1 : c = opt.resources
  · rw [if_pos h1] at h; split_ifs at h
  rw [if_neg h1] at h
  by_cases h2 : c = opt.version
  · rw [if_pos h2] at h; cases h; exact ⟨rfl, Or.inl h2⟩
  rw [if_neg h2] at h
  by_cases h3 : c = opt.license
  · rw [if_pos h3] at h; cases h; exact ⟨rfl, Or.inr h3⟩
  rw [if_neg h3] at h
  by_cases h4 : c = opt.dns_json
  · rw [if_pos h4] at h; split_ifs at h
  rw [if_neg h4] at h
  by_cases h5 : c = opt.certs_json
  · rw [if_pos h5] at h; split_ifs at h
  rw [if_neg h5] at h
  by_cases h6 : c = opt.metadata
  · rw [if_pos h6] at h; split_ifs at h
  rw [if_neg h6] at h
  by_cases h7 : c = opt.tcp_init_data
  · rw [if_pos h7] at h; split_ifs at h
  rw [if_neg h7] at h
  by_cases h8 : c = opt.udp_init_data
  · rw [if_pos h8] at h; split_ifs at h
  rw [if_neg h8] at h
  by_cases h9 : c = chr 'r'
  · rw [if_pos h9] at h; split_ifs at h
  rw [if_neg h9] at h
  by_cases h10 : c = chr 'w'
  · rw [if_pos h10] at h; split_ifs at h
  rw [if_neg h10] at h
  by_cases h11 : c = chr 'd'
  · rw [if_pos h11] at h; split_ifs at h
  rw [if_neg h11] at h
  by_cases h12 : c = chr 'c'
  · rw [if_pos h12] at h; split_ifs at h
  rw [if_neg h12] at h
  by_cases h13 : c = chr 'f'
  · rw [if_pos h13] at h; split_ifs at h
  rw [if_neg h13] at h
  by_cases h14 : c = chr 'a'
  · rw [if_pos h14] at h; split_ifs at h
  rw [if_neg h14] at h
  by_cases h15 : c = chr 'o'
  · rw [if_pos h15] at h; split_ifs at h
  rw [if_neg h15] at h
  by_cases h16 : c = chr 's'
  · rw [if_pos h16] at h; split_ifs at h
  rw [if_neg h16] at h
  by_cases h17 : c = chr 'h'
  · rw [if_pos h17] at h; split_ifs at h
  rw [if_neg h17] at h
  by_cases h18 : c = chr 'T'
  · rw [if_pos h18] at h; split_ifs at h
  rw [if_neg h18] at h
  by_cases h19 : c = chr 't'
  · rw [if_pos h19] at h; split_ifs at h
  rw [if_neg h19] at h
  by_cases h20 : c = chr 'l'
  · rw [if_pos h20] at h; split_ifs at h
  rw [if_neg h20] at h
  by_cases h21 : c = chr 'p'
  · rw [if_pos h21] at h; split_ifs at h
  rw [if_neg h21] at h
  by_cases h22 : c = 0
  · rw [if_pos h22] at h; split_ifs at h
  rw [if_neg h22] at h
  by_cases h23 : c = chr 'u'
  · rw [if_pos h23] at h; split_ifs at h
  rw [if_neg h23] at h
  by_cases h24 : c = chr 'b'
  · rw [if_pos h24] at h; split_ifs at h
  rw [if_neg h24] at h
  by_cases h25 : c = chr 'v'
  · rw [if_pos h25] at h; split_ifs at h
  rw [if_neg h25] at h
  cases h

theorem main.options_returns (env : runtime) (opts : List (Int × Option String)) :
    ∀ (cfg : mercury_config) (g : global_variables) (st : Int),
      main.options env opts cfg g = main_result.returns st →
      st = EXIT_SUCCESS ∧ ∃ o ∈ opts, o.1 = opt.version ∨ o.1 = opt.license := by
  induction opts with
  | nil =>
    intro cfg g st h
    unfold main.options at h
    cases h
  | cons o rest ih =>
    intro cfg g st h
    unfold main.options at h
    split_ifs at h
    cases hstep : main.option env cfg g o.1 o.2 with
    | usage e x => rw [hstep] at h; cases h
    | returns st1 =>
      rw [hstep] at h
      cases h
      have hr := main.option_returns env cfg g o.1 o.2 st hstep
      exact ⟨hr.1, o, List.mem_cons_self _ _, hr.2⟩
    | continues cfg2 g2 =>
      rw [hstep] at h
      obtain ⟨h1, x, hx, hxe⟩ := ih cfg2 g2 st h
      exact ⟨h1, x, List.mem_cons_of_mem _ hx, hxe⟩

/-- With a file to read and an interface to capture from, the tests after the loop
end in `usage`: for an argument that is left, or else for the two sources. -/
theorem main.validate_both_sources (env : runtime) (cfg : mercury_config)
    (g : global_variables) (unused : List String)
    (hr : cfg.read_filename ≠ none) (hc : cfg.capture_interface ≠ none) :
    main.validate env cfg g unused
      = main_result.usage
          (some (if unused ≠ [] then "unrecognized options"
            else "incompatible arguments read [r] and capture [c] specified on command line"))
          false := by
  by_cases hu : unused = []
  · rw [hu, if_neg (fun hh => hh rfl)]
    exact main.validate_both env cfg g hr hc
  · rw [if_pos hu]
    unfold main.validate
    rw [if_pos hu]

theorem main.of_options (env : runtime) (opts : List (Int × Option String))
    (unused : List String) :
    (∀ (e : Option String) (x : Bool),
      main.options env opts env.mercury_config_init env.global_vars = main_result.usage e x →
      main env opts unused = main_result.usage e x)
    ∧ (∀ st : Int,
      main.options env opts env.mercury_config_init env.global_vars = main_result.returns st →
      main env opts unused = main_result.returns st)
    ∧ (∀ (cfg : mercury_config) (g : global_variables) (e : Option String) (x : Bool),
      main.options env opts env.mercury_config_init env.global_vars
        = main_result.continues cfg g →
      main.validate env cfg g unused = main_result.usage e x →
      main env opts unused = main_result.usage e x) := by
  refine ⟨?_, ?_, ?_⟩
  · intro e x h
    unfold main
    rw [h]
  · intro st h
    unfold main
    rw [h]
  · intro cfg g e x h hv
    unfold main
    rw [h]
    simp only
    rw [hv]

/-- C31 (as stated, at an input). With the sample parameters,
`mercury -r a.pcap -c eth0 --version` has both `-r` and `-c`, and `main` returns
`EXIT_SUCCESS` at the option `--version`: no usage exit, no `EXIT_FAILURE`. -/
theorem main.both_sources_with_version :
    main runtime.sample
        [(chr 'r', some "a.pcap"), (chr 'c', some "eth0"), (opt.version, none)] []
      = main_result.returns EXIT_SUCCESS
    ∧ (main runtime.sample
        [(chr 'r', some "a.pcap"), (chr 'c', some "eth0"), (opt.version, none)] []).exit_status
      ≠ some EXIT_FAILURE := by
  decide

/-- C31 (amended). When `main` goes on after the options and the tests that follow
them, exactly one of `read_filename` and `capture_interface` is set.  For a command
line without `--config`: from an initial configuration with neither set, when
neither `-r` nor `-c` is among the options, `read_filename` is `"-"`; when both `-r`
and `-c` are among the options, `main` does not go on: either it returns
`EXIT_SUCCESS` at an option `--version` or `--license`, or `usage` is called and the
process exits with `EXIT_FAILURE`; without `--version` and `--license` it is the
latter, and when the loop over the options runs to its end the text is the one on
unrecognized options if an argument is left and the one on incompatible arguments
otherwise. -/
theorem main.one_input_source (env : runtime) (opts : List (Int × Option String))
    (unused : List String) :
    (∀ (cfg : mercury_config) (g : global_variables),
      main env opts unused = main_result.continues cfg g →
      (cfg.read_filename ≠ none ∧ cfg.capture_interface = none)
      ∨ (cfg.read_filename = none ∧ cfg.capture_interface ≠ none))
    ∧ ((∀ o ∈ opts, 0 ≤ o.1 ∧ o.1 ≠ opt.config) →
       ((env.mercury_config_init.read_filename = none →
         env.mercury_config_init.capture_interface = none →
         (∀ o ∈ opts, o.1 ≠ chr 'r' ∧ o.1 ≠ chr 'c') →
         ∀ (cfg : mercury_config) (g : global_variables),
           main env opts unused = main_result.continues cfg g →
           cfg.read_filename = some "-" ∧ cfg.capture_interface = none)
       ∧ ((∃ o ∈ opts, o.1 = chr 'r') → (∃ o ∈ opts, o.1 = chr 'c') →
           ((main env opts unused = main_result.returns EXIT_SUCCESS
               ∧ ∃ o ∈ opts, o.1 = opt.version ∨ o.1 = opt.license)
             ∨ (∃ (e : Option String) (x : Bool),
                 main env opts unused = main_result.usage e x
                 ∧ (main env opts unused).exit_status = some EXIT_FAILURE))
           ∧ ((∀ o ∈ opts, o.1 ≠ opt.version ∧ o.1 ≠ opt.license) →
               ∃ (e : Option String) (x : Bool),
                 main env opts unused = main_result.usage e x
                 ∧ (main env opts unused).exit_status = some EXIT_FAILURE)
           ∧ (∀ (cfg : mercury_config) (g : global_variables),
               main.options env opts env.mercury_config_init env.global_vars
                 = main_result.continues cfg g →
               main env opts unused
                 = main_result.usage
                     (some (if unused ≠ [] then "unrecognized options"
                       else "incompatible arguments read [r] and capture [c] "
                         ++ "specified on command line"))
                     false)))) := by
  refine ⟨?_, ?_⟩
  · intro cfg g h
    obtain ⟨cfg0, cfg1, g0, _, hv, hc⟩ := main.continues_inv env opts unused cfg g h
    have hs := main.set_threads_sources env cfg1
    rw [hc, hs.1, hs.2]
    rcases main.validate_sources env cfg0 cfg1 g0 g unused hv with hh | hh | hh
    · exact Or.inl ⟨(by rw [hh.2.2.1]; exact fun x => Option.noConfusion x), hh.2.2.2⟩
    · exact Or.inl ⟨(by rw [hh.2.2.1]; exact hh.1), hh.2.2.2⟩
    · exact Or.inr ⟨hh.2.2.1, (by rw [hh.2.2.2]; exact hh.2.1)⟩
  · intro hall
    refine ⟨?_, ?_⟩
    · intro hir hic hno cfg g h
      obtain ⟨cfg0, cfg1, g0, ho, hv, hc⟩ := main.continues_inv env opts unused cfg g h
      have hl := main.options_sources env opts _ _ _ _ hall ho
      have hr0 : cfg0.read_filename = none := by
        rw [hl.2.1 (fun o hm => (hno o hm).1)]; exact hir
      have hc0 : cfg0.capture_interface = none := by
        rw [hl.2.2.2 (fun o hm => (hno o hm).2)]; exact hic
      have hs := main.set_threads_sources env cfg1
      rw [hc, hs.1, hs.2]
      rcases main.validate_sources env cfg0 cfg1 g0 g unused hv with hh | hh | hh
      · exact ⟨hh.2.2.1, hh.2.2.2⟩
      · exact absurd hr0 hh.1
      · exact absurd hc0 hh.2.1
    · intro hr hcap
      have hof := main.of_options env opts unused
      have hloop : ∀ (cfg : mercury_config) (g : global_variables),
          main.options env opts env.mercury_config_init env.global_vars
            = main_result.continues cfg g →
          main env opts unused
            = main_result.usage
                (some (if unused ≠ [] then "unrecognized options"
                  else "incompatible arguments read [r] and capture [c] "
                    ++ "specified on command line"))
                false := by
        intro cfg g ho
        have hl := main.options_sources env opts _ _ _ _ hall ho
        exact hof.2.2 cfg g _ _ ho
          (main.validate_both_sources env cfg g unused (hl.1 hr) (hl.2.2.1 hcap))
      have hcases : (main env opts unused = main_result.returns EXIT_SUCCESS
            ∧ ∃ o ∈ opts, o.1 = opt.version ∨ o.1 = opt.license)
          ∨ (∃ (e : Option String) (x : Bool),
              main env opts unused = main_result.usage e x
              ∧ (main env opts unused).exit_status = some EXIT_FAILURE) := by
        cases ho : main.options env opts env.mercury_config_init env.global_vars with
        | usage e x =>
          have hm := hof.1 e x ho
          exact Or.inr ⟨e, x, hm, by rw [hm]; rfl⟩
        | returns st =>
          have hm := hof.2.1 st ho
          obtain ⟨hst, hex⟩ := main.options_returns env opts _ _ st ho
          rw [hst] at hm
          exact Or.inl ⟨hm, hex⟩
        | continues cfg g =>
          have hm := hloop cfg g ho
          exact Or.inr ⟨_, _, hm, by rw [hm]; rfl⟩
      refine ⟨hcases, ?_, hloop⟩
      intro hnov
      rcases hcases with ⟨_, o, ho, hov⟩ | hu
      · rcases hov with hv | hv
        · exact absurd hv (hnov o ho).1
        · exact absurd hv (hnov o ho).2
      · exact hu

/-- C31, witness: with the sample parameters, `mercury` without options goes on
reading standard input; `mercury -r a.pcap -c eth0` ends in `usage` with the text on
incompatible arguments, and with the argument `x` left, with the text on unrecognized
options; `mercury -r a.pcap -c eth0 -t 0` ends in the `usage` of the case `'t'`. -/
theorem main.one_input_source_witness :
    (main runtime.sample [] []).exit_status = none
    ∧ (∀ (cfg : mercury_config) (g : global_variables),
        main runtime.sample [] [] = main_result.continues cfg g →
        cfg.read_filename = some "-" ∧ cfg.capture_interface = none)
    ∧ main runtime.sample [(chr 'r', some "a.pcap"), (chr 'c', some "eth0")] []
        = main_result.usage
            (some ("incompatible arguments read [r] and capture [c] "
              ++ "specified on command line"))
            false
    ∧ main runtime.sample [(chr 'r', some "a.pcap"), (chr 'c', some "eth0")] ["x"]
        = main_result.usage (some "unrecognized options") false
    ∧ ∃ (e : Option String) (x : Bool),
        main runtime.sample [(chr 'r', some "a.pcap"), (chr 'c', some "eth0"),
            (chr 't', some "0")] []
          = main_result.usage e x
        ∧ (main runtime.sample [(chr 'r', some "a.pcap"), (chr 'c', some "eth0"),
            (chr 't', some "0")] []).exit_status = some EXIT_FAILURE :=
  ⟨by decide,
   ((main.one_input_source runtime.sample [] []).2 (by decide)).1 (by decide) (by decide)
     (by decide),
   ((((main.one_input_source runtime.sample
        [(chr 'r', some "a.pcap"), (chr 'c', some "eth0")] []).2 (by decide)).2
      ⟨(chr 'r', some "a.pcap"), by decide, rfl⟩ ⟨(chr 'c', some "eth0"), by decide, rfl⟩).2.2
      { runtime.sample.mercury_config_init with
        read_filename := some "a.pcap", capture_interface := some "eth0" }
      runtime.sample.global_vars (by decide)),
   ((((main.one_input_source runtime.sample
        [(chr 'r', some "a.pcap"), (chr 'c', some "eth0")] ["x"]).2 (by decide)).2
      ⟨(chr 'r', some "a.pcap"), by decide, rfl⟩ ⟨(chr 'c', some "eth0"), by decide, rfl⟩).2.2
      { runtime.sample.mercury_config_init with
        read_filename := some "a.pcap", capture_interface := some "eth0" }
      runtime.sample.global_vars (by decide)),
   ((((main.one_input_source runtime.sample
        [(chr 'r', some "a.pcap"), (chr 'c', some "eth0"), (chr 't', some "0")] []).2
        (by decide)).2
      ⟨(chr 'r', some "a.pcap"), by decide, rfl⟩ ⟨(chr 'c', some "eth0"), by decide, rfl⟩).2.1
      (by decide))⟩

/-- C32. The case `'t'` of `main` takes for the number of threads any value of
`strtol` that is not 0 as an `int` and for which `errno` is not set: for the argument
`" -5"`, which `option_is_valid` lets pass, the only test is that one, whatever
`strtol` is, and with `strtol` as ISO C describes it `mercury -c eth0 -t " -5"` goes
on with -5 threads, while `-t " -1"` is taken for the marker and goes on with the
number of processors.  The argument `cpu` sets the marker -1, which the later step
replaces by the number of processors. -/
theorem main.threads_not_positive :
    strtol_base_10 " -5" = (-5, false)
    ∧ option_is_valid (some " -5") = true
    ∧ (∀ (env : runtime) (cfg : mercury_config) (g : global_variables),
        main.option env cfg g (chr 't') (some " -5")
          = if long_to_int (env.strtol " -5").1 = 0 ∨ (env.strtol " -5").2 = true then
              main_result.usage (some "option t or threads requires a numeric argument") false
            else
              main_result.continues
                { cfg with num_threads := long_to_int (env.strtol " -5").1 } g)
    ∧ main runtime.sample [(chr 'c', some "eth0"), (chr 't', some " -5")] []
        = main_result.continues
            { runtime.sample.mercury_config_init with
              capture_interface := some "eth0", num_threads := -5 }
            runtime.sample.global_vars
    ∧ main runtime.sample [(chr 'c', some "eth0"), (chr 't', some " -1")] []
        = main_result.continues
            { runtime.sample.mercury_config_init with
              capture_interface := some "eth0", num_threads := 4 }
            runtime.sample.global_vars
    ∧ (∀ (env : runtime) (cfg : mercury_config) (g : global_variables),
        main.option env cfg g (chr 't') (some "cpu")
          = main_result.continues { cfg with num_threads := -1 } g)
    ∧ (∀ (env : runtime) (cfg : mercury_config),
        main.set_threads env { cfg with num_threads := -1 }
          = { cfg with num_threads := env.hardware_concurrency }) := by
  refine ⟨by decide, by decide, fun env cfg g => rfl, by decide, by decide,
    fun env cfg g => rfl, fun env cfg => rfl⟩


/-! ## Extension ordering -/

/-- Every typed body but the one of certificatePolicies runs to its last write. -/
theorem x509_cert.typed_bodies_done (env : asn1) (fuel : Nat) :
    ∀ b ∈ x509_cert.typed_bodies env fuel, b.1 ≠ "id-ce-certificatePolicies" →
      ∀ p : parser, ∃ r : String × parser, b.2 p = outcome.done r := by
  intro b hb hne p
  unfold x509_cert.typed_bodies at hb
  simp only [List.mem_cons, List.mem_singleton, List.not_mem_nil, or_false] at hb
  rcases hb with rfl | rfl | rfl | rfl | rfl | rfl | rfl | rfl | rfl | rfl | rfl | rfl
  all_goals first
    | exact ⟨_, rfl⟩
    | exact absurd rfl hne

theorem x509_cert.print_typed_done (o : Option String) :
    ∀ (l : List (String × (parser → outcome (String × parser)))),
      (∀ b ∈ l, o = some b.1 → ∀ p : parser, ∃ r : String × parser, b.2 p = outcome.done r) →
      ∀ s : String × parser, ∃ r : String × parser,
        x509_cert.print_typed o l s = outcome.done r := by
  intro l
  induction l with
  | nil => intro _ s; exact ⟨s, rfl⟩
  | cons b rest ih =>
    intro h s
    unfold x509_cert.print_typed
    by_cases hb : o = some b.1
    · rw [if_pos hb]
      obtain ⟨r, hr⟩ := h b (List.mem_cons_self _ _) hb s.2
      rw [hr]
      simp only [outcome.bind]
      exact ih (fun x hx => h x (List.mem_cons_of_mem _ hx)) _
    · rw [if_neg hb]
      exact ih (fun x hx => h x (List.mem_cons_of_mem _ hx)) s

theorem x509_cert.print_extension_done (env : asn1) (fuel : Nat) (comma : String)
    (xtn : Mercury.extension)
    (h : xtn.oid_string env ≠ some "id-ce-certificatePolicies") :
    ∃ r : String × String × Mercury.extension,
      x509_cert.print_extension env fuel comma xtn = outcome.done r := by
  unfold x509_cert.print_extension
  split
  · obtain ⟨r, hr⟩ := x509_cert.print_typed_done (xtn.oid_string env)
      (x509_cert.typed_bodies env fuel)
      (fun b hb ho p => x509_cert.typed_bodies_done env fuel b hb
        (fun hn => h (by rw [ho, hn])) p)
      (comma ++ xtn.generic_object env, xtn.extnValue.value)
    rw [hr]
    exact ⟨_, rfl⟩
  · exact ⟨_, rfl⟩

theorem x509_cert.print_extensions_done (env : asn1) (fuel : Nat) :
    ∀ (l : List Mercury.extension) (comma : String),
      (∀ x ∈ l, x.oid_string env ≠ some "id-ce-certificatePolicies") →
      ∃ r : String × List Mercury.extension,
        x509_cert.print_extensions env fuel comma l = outcome.done r := by
  intro l
  induction l with
  | nil => intro comma _; exact ⟨_, rfl⟩
  | cons xtn rest ih =>
    intro comma h
    unfold x509_cert.print_extensions
    obtain ⟨r, hr⟩ := x509_cert.print_extension_done env fuel comma xtn
      (h xtn (List.mem_cons_self _ _))
    rw [hr]
    simp only [outcome.bind]
    obtain ⟨rs, hrs⟩ := ih r.2.1 (fun x hx => h x (List.mem_cons_of_mem _ hx))
    rw [hrs]
    exact ⟨_, rfl⟩

/-- `x509_cert::print_as_json` runs to its last write when the algorithm of the
SubjectPublicKeyInfo is not null and no entry resolves to id-ce-certificatePolicies. -/
theorem x509_cert.print_as_json_done (env : asn1) (fuel : Nat) (c : x509_cert)
    (halg : c.subjectPublicKeyInfo.algorithm.algorithm.is_not_null = true)
    (hno : ∀ x ∈ c.extension, x.oid_string env ≠ some "id-ce-certificatePolicies") :
    ∃ r : output × x509_cert, x509_cert.print_as_json env fuel c = outcome.done r := by
  unfold x509_cert.print_as_json
  obtain ⟨s, hs⟩ := subject_public_key_info.print_done env c.subjectPublicKeyInfo
    "subject_public_key_info" halg
  rw [hs]
  by_cases hl : c.extension.length > 0
  · obtain ⟨r, hr⟩ := x509_cert.print_extensions_done env fuel c.extension "" hno
    simp only [outcome.bind, if_pos hl, hr]
    exact ⟨_, rfl⟩
  · simp only [outcome.bind, if_neg hl]
    exact ⟨_, rfl⟩

/-- C10. Extension ordering: when the content of the extensions SEQUENCE is the
encoding of the elements `es`, the extension list of `x509_cert::parse` holds one
entry per element, in input order, each decoded from its element (with that
element's tag and length); whenever `print_as_json` completes, what it writes for the
extensions is the opening text, then for each constructed entry, in list order, its
generic object followed by its typed body (the first without separator, every later
one after a comma), then the closing bracket; and `print_as_json` does complete when
the algorithm of the SubjectPublicKeyInfo is not null and no entry resolves to
id-ce-certificatePolicies. -/
theorem x509_cert.extension_order (buffer : List Nat) (es : List (Nat × List Nat))
    (hes : ∀ e ∈ es, e.2.length < 4294967296)
    (hcontent :
      (x509_cert.parse_extensions_tlv
        (x509_cert.parse_tbs buffer).tbs_certificate.value).1.value.bytes = der_elements es) :
    (x509_cert.parse buffer).extension
        = extension_entries
            (x509_cert.parse_extensions_tlv
              (x509_cert.parse_tbs buffer).tbs_certificate.value).1.value.pos es
    ∧ (x509_cert.parse buffer).extension.map (fun x => (x.sequence.tag, x.sequence.length))
        = es.map (fun e => (e.1, e.2.length))
    ∧ (∀ (env : asn1) (fuel : Nat) (r : output × x509_cert),
        x509_cert.print_as_json env fuel (x509_cert.parse buffer) = outcome.done r →
        ∃ typed : List String,
          typed.length
            = ((x509_cert.parse buffer).extension.filter
                (fun x => x.sequence.is_constructed)).length
          ∧ r.1.stdout =
              if (x509_cert.parse buffer).extension.length > 0 then
                ",\"extensions\":["
                ++ separated ""
                    ((((x509_cert.parse buffer).extension.filter
                        (fun x => x.sequence.is_constructed)).map
                      (fun x => x.generic_object env)).zip typed)
                ++ "]"
              else "")
    ∧ ∀ (env : asn1) (fuel : Nat),
        (x509_cert.parse buffer).subjectPublicKeyInfo.algorithm.algorithm.is_not_null = true →
        (∀ x ∈ (x509_cert.parse buffer).extension,
          x.oid_string env ≠ some "id-ce-certificatePolicies") →
        ∃ r : output × x509_cert,
          x509_cert.print_as_json env fuel (x509_cert.parse buffer) = outcome.done r := by
  have hlist : (x509_cert.parse buffer).extension
      = extension_entries
          (x509_cert.parse_extensions_tlv
            (x509_cert.parse_tbs buffer).tbs_certificate.value).1.value.pos es := by
    rw [x509_cert.parse_extension_list]
    split
    · rename_i h0
      have hb : (x509_cert.parse_tbs buffer).tbs_certificate.value.bytes = [] :=
        List.length_eq_zero.mp h0
      rw [x509_cert.parse_extensions_tlv_nil _ hb] at hcontent
      rw [der_elements_eq_nil es hcontent.symm]
      rfl
    · generalize (x509_cert.parse_extensions_tlv
        (x509_cert.parse_tbs buffer).tbs_certificate.value).1.value = p at hcontent ⊢
      obtain ⟨nl, pos, bytes⟩ := p
      simp only at hcontent
      subst hcontent
      rw [x509_cert.parse_extensions_der es _ nl pos [] hes
        (by simpa [parser_get_data_length] using der_elements_length es)]
      simp
  refine ⟨hlist, ?_, ?_, ?_⟩
  · rw [hlist]
    exact extension_entries_sequence es hes _
  · intro env fuel r h
    rcases x509_cert.print_stdout env fuel _ r h with ⟨h0, hout⟩ | ⟨hpos, x, hx, hout⟩
    · have hnil : (x509_cert.parse buffer).extension = [] := List.length_eq_zero.mp h0
      refine ⟨[], by simp [hnil], ?_⟩
      rw [hout, if_neg (by omega)]
    · obtain ⟨typed, hlen, hsep⟩ := x509_cert.print_extensions_shape env fuel _ "" x hx
      refine ⟨typed, hlen, ?_⟩
      rw [hout, if_pos hpos, hsep]
  · intro env fuel halg hno
    exact x509_cert.print_as_json_done env fuel _ halg hno

/-- C10, witness: the extensions SEQUENCE of `cert_two_extensions` holds two
elements, basicConstraints (`55 1d 13`) and then the OID `2a 03 04`: the list holds
the two entries in that order, the rendering under the sample dictionary completes,
and it writes the generic object of the first, its typed body, and the generic
object of the second, in that order. -/
theorem x509_cert.extension_order_witness :
    (x509_cert.parse_extensions_tlv
        (x509_cert.parse_tbs cert_two_extensions).tbs_certificate.value).1.value.bytes
        = der_elements [(48, [6, 3, 85, 29, 19, 1, 1, 255, 4, 5, 48, 3, 1, 1, 255]),
            (48, [6, 3, 42, 3, 4, 4, 2, 5, 0])]
    ∧ (x509_cert.parse cert_two_extensions).extension.map
          (fun x => (x.sequence.tag, x.sequence.length))
        = [(48, 15), (48, 9)]
    ∧ (x509_cert.parse cert_two_extensions).extension.map (fun x => x.extnID.value.bytes)
        = [[85, 29, 19], [42, 3, 4]]
    ∧ ∃ r : output × x509_cert,
        x509_cert.print_as_json asn1.sample 0 (x509_cert.parse cert_two_extensions)
          = outcome.done r
        ∧ r.1.stdout
            = ",\"extensions\":[\x7b\"id-ce-basicConstraints\":\"30030101ff\",\"critical\":true\x7d,"
              ++ "\x7b\"BasicConstraints\":\x7b\"ca\":true,\"pathLenConstraint\":0\x7d\x7d,"
              ++ "\x7b\"unknown_oid\":\"0500\",\"critical\":false\x7d]"
        ∧ ∃ typed : List String,
            typed.length
              = ((x509_cert.parse cert_two_extensions).extension.filter
                  (fun x => x.sequence.is_constructed)).length
            ∧ r.1.stdout =
                if (x509_cert.parse cert_two_extensions).extension.length > 0 then
                  ",\"extensions\":["
                  ++ separated ""
                      ((((x509_cert.parse cert_two_extensions).extension.filter
                          (fun x => x.sequence.is_constructed)).map
                        (fun x => x.generic_object asn1.sample)).zip typed)
                  ++ "]"
                else "" := by
  have hthm := x509_cert.extension_order cert_two_extensions
    [(48, [6, 3, 85, 29, 19, 1, 1, 255, 4, 5, 48, 3, 1, 1, 255]),
     (48, [6, 3, 42, 3, 4, 4, 2, 5, 0])] (by decide) (by decide)
  refine ⟨by decide, hthm.2.1, by decide, ?_⟩
  obtain ⟨r, hr⟩ := hthm.2.2.2 asn1.sample 0 (by decide) (by decide)
  have hout : (x509_cert.print_as_json asn1.sample 0
      (x509_cert.parse cert_two_extensions)).result.map (fun r => r.1.stdout)
      = some (",\"extensions\":[\x7b\"id-ce-basicConstraints\":\"30030101ff\",\"critical\":true\x7d,"
              ++ "\x7b\"BasicConstraints\":\x7b\"ca\":true,\"pathLenConstraint\":0\x7d\x7d,"
              ++ "\x7b\"unknown_oid\":\"0500\",\"critical\":false\x7d]") := by decide
  rw [hr] at hout
  exact ⟨r, hr, Option.some.inj hout, hthm.2.2.1 asn1.sample 0 r hr⟩

end Mercury
